import Mathlib

/-!
# A 6502 emulator: CPU core and memory bus

Shallow embedding of `src/cpu_6502.c` and `src/mem.c`.

Machine integers are natural numbers; every conversion to `uint8_t` or
`uint16_t` that the C code performs is written as an explicit `% 256` or
`% 65536`.  Signed intermediate results (`int`) are integers.
-/

set_option maxRecDepth 100000

namespace Emu6502

/-! ## Status codes (`status.h`, `mem.h`, `vm.h`) -/

def RET_OK : Int := 1
def RET_LOOP : Int := 2
def RET_JUMP : Int := 3
def RET_ERR_INSTR : Int := -10
def RET_QUIT : Int := -9999

def MEM_IGNORED : Int := 0
def MEM_USED : Int := 1
def MEM_INTERCEPTED : Int := 2

def LOC_RAM : Nat := 0
def LOC_ROM : Nat := 1

/-! ## Status flags (`cpu_6502.h`) and vectors -/

def FLAG_NEGATIVE : Nat := 0x80
def FLAG_OVERFLOW : Nat := 0x40
def FLAG_RESERVED : Nat := 0x20
def FLAG_BREAK : Nat := 0x10
def FLAG_DECIMAL : Nat := 0x08
def FLAG_INTERRUPT : Nat := 0x04
def FLAG_ZERO : Nat := 0x02
def FLAG_CARRY : Nat := 0x01

def NMI_VECTOR : Nat := 0xfffa
def RES_VECTOR : Nat := 0xfffc
def BRK_VECTOR : Nat := 0xfffe

/-! ## The register file (`struct cpu_6502_t`) -/

/-- The register file.  `arg8` of the C union is the low byte of `arg`. -/
structure cpu_6502_t where
  flags : Nat
  pc : Nat
  sp : Nat
  ir : Nat
  arg : Nat
  a : Nat
  x : Nat
  y : Nat

/-- The low byte of the instruction argument (the `arg8` member of the union). -/
def cpu_6502_t.arg8 (cpu : cpu_6502_t) : Nat := cpu.arg % 256

/-- Every register holds a value of its C type. -/
def cpu_6502_t.wf (cpu : cpu_6502_t) : Prop :=
  cpu.flags < 256 ∧ cpu.pc < 65536 ∧ cpu.sp < 256 ∧ cpu.ir < 256 ∧
  cpu.arg < 65536 ∧ cpu.a < 256 ∧ cpu.x < 256 ∧ cpu.y < 256

/-- Macro `SET_FLAG(flag)`: `cpu->flags |= flag`. -/
def SET_FLAG (cpu : cpu_6502_t) (flag : Nat) : cpu_6502_t :=
  { cpu with flags := cpu.flags ||| flag }

/-- Macro `CLEAR_FLAG(flag)`: `cpu->flags &= (~flag)`, the result stored in a `uint8_t`. -/
def CLEAR_FLAG (cpu : cpu_6502_t) (flag : Nat) : cpu_6502_t :=
  { cpu with flags := cpu.flags &&& (0xff ^^^ flag) }

/-- Macro `QUERY_FLAG(flag)`: `(cpu->flags & flag) ? 1 : 0`. -/
def QUERY_FLAG (cpu : cpu_6502_t) (flag : Nat) : Nat :=
  if cpu.flags &&& flag ≠ 0 then 1 else 0

/-! ## The dispatch table and the length table -/

/-- The handlers an `instr_table` slot can point to; `x` is the illegal-instruction sentinel. -/
inductive op_proc where
  | asl | dec | inc | lsr | rol | ror
  | adc | and | bit | bra | brk | cmp | cpx | cpy | eor | flg | jmp | jsr
  | lda | ldx | ldy | nop | ora | reg | rti | rts | sbc | sta | stk | stx | sty
  | x
  deriving DecidableEq, Repr

open op_proc in
/-- The 256-entry dispatch table, row by row as in the source. -/
def instr_table : List op_proc := [
  brk, ora, x,   x,   x,   ora, asl, x,   stk, ora, asl, x,   x,   ora, asl, x,
  bra, ora, x,   x,   x,   ora, asl, x,   flg, ora, x,   x,   x,   ora, asl, x,
  jsr, and, x,   x,   bit, and, rol, x,   stk, and, rol, x,   bit, and, rol, x,
  bra, and, x,   x,   x,   and, rol, x,   flg, and, x,   x,   x,   and, rol, x,
  rti, eor, x,   x,   x,   eor, lsr, x,   stk, eor, lsr, x,   jmp, eor, lsr, x,
  bra, eor, x,   x,   x,   eor, lsr, x,   flg, eor, x,   x,   x,   eor, lsr, x,
  rts, adc, x,   x,   x,   adc, ror, x,   stk, adc, ror, x,   jmp, adc, ror, x,
  bra, adc, x,   x,   x,   adc, ror, x,   flg, adc, x,   x,   x,   adc, ror, x,
  x,   sta, x,   x,   sty, sta, stx, x,   reg, x,   reg, x,   sty, sta, stx, x,
  bra, sta, x,   x,   sty, sta, stx, x,   reg, sta, stk, x,   x,   sta, x,   x,
  ldy, lda, ldx, x,   ldy, lda, ldx, x,   reg, lda, reg, x,   ldy, lda, ldx, x,
  bra, lda, x,   x,   ldy, lda, ldx, x,   flg, lda, stk, x,   ldy, lda, ldx, x,
  cpy, cmp, x,   x,   cpy, cmp, dec, x,   reg, cmp, reg, x,   cpy, cmp, dec, x,
  bra, cmp, x,   x,   x,   cmp, dec, x,   flg, cmp, x,   x,   x,   cmp, dec, x,
  cpx, sbc, x,   x,   cpx, sbc, inc, x,   reg, sbc, nop, x,   cpx, sbc, inc, x,
  bra, sbc, x,   x,   x,   sbc, inc, x,   flg, sbc, x,   x,   x,   sbc, inc, x
]

/-- The 256-entry instruction-length table, row by row as in the source. -/
def len : List Nat := [
  1,2,0,0,0,2,2,0,1,2,1,0,0,3,3,0,
  2,2,0,0,0,2,2,0,1,3,0,0,0,3,3,0,
  3,2,0,0,2,2,2,0,1,2,1,0,3,3,3,0,
  2,2,0,0,0,2,2,0,1,3,0,0,0,3,3,0,
  1,2,0,0,0,2,2,0,1,2,1,0,3,3,3,0,
  2,2,0,0,0,2,2,0,1,3,0,0,0,3,3,0,
  1,2,0,0,0,2,2,0,1,2,1,0,3,3,3,0,
  2,2,0,0,0,2,2,0,1,3,0,0,0,3,3,0,
  0,2,0,0,2,2,2,0,1,0,1,0,3,3,3,0,
  2,2,0,0,2,2,2,0,1,3,1,0,0,3,0,0,
  2,2,2,0,2,2,2,0,1,2,1,0,3,3,3,0,
  2,2,0,0,2,2,2,0,1,3,1,0,3,3,3,0,
  2,2,0,0,2,2,2,0,1,2,1,0,3,3,3,0,
  2,2,0,0,0,2,2,0,1,3,0,0,0,3,3,0,
  2,2,0,0,2,2,2,0,1,2,1,0,3,3,3,0,
  2,2,0,0,0,2,2,0,1,3,0,0,0,3,3,0
]

/-- Array entry `instr_table[i]`. -/
def instr_at (i : Nat) : op_proc := instr_table.getD i op_proc.x

/-- Array entry `len[i]`. -/
def len_at (i : Nat) : Nat := len.getD i 0

/-- The two warnings `cpu_6502_count_instr` can print, with the opcode they name. -/
inductive count_warning where
  | out_of_range (i : Nat)
  | unknown_instruction (i : Nat)
  deriving DecidableEq, Repr

/-- One iteration of the loop of `cpu_6502_count_instr`. -/
def count_instr_step (acc : Nat × List count_warning) (i : Nat) : Nat × List count_warning :=
  if instr_at i ≠ op_proc.x then
    if len_at i < 1 ∨ len_at i > 3 then
      (acc.1 + 1, acc.2 ++ [count_warning.out_of_range i])
    else (acc.1 + 1, acc.2)
  else if len_at i ≠ 0 then
    (acc.1, acc.2 ++ [count_warning.unknown_instruction i])
  else acc

/-- Function `cpu_6502_count_instr`: the number of implemented opcodes, with the warnings printed. -/
def cpu_6502_count_instr : Nat × List count_warning :=
  (List.range 256).foldl count_instr_step (0, [])

/-! ## The bus (`struct vm_t`, `mem.c`) -/

/-- Offsets of the four byte arrays at the head of `struct vm_t`: `mem`, `rom`, `ram` and
`mem_map` are declared in this order, each `uint8_t[65536]`, so they are contiguous. -/
def OFF_MEM : Nat := 0
def OFF_ROM : Nat := 65536
def OFF_RAM : Nat := 131072
def OFF_MAP : Nat := 196608

/-- The virtual machine.  `bytes` is the storage of the four arrays `mem`, `rom`, `ram`,
`mem_map`, addressed by byte offset from the start of the structure. -/
structure vm_t where
  bytes : Nat → Nat
  cycle : Nat
  step : Nat
  quit : Int

/-- Array entry `vm->mem[a]`, the composite view. -/
def vm_t.mem (vm : vm_t) (a : Nat) : Nat := vm.bytes (OFF_MEM + a)
/-- Array entry `vm->rom[a]`. -/
def vm_t.rom (vm : vm_t) (a : Nat) : Nat := vm.bytes (OFF_ROM + a)
/-- Array entry `vm->ram[a]`. -/
def vm_t.ram (vm : vm_t) (a : Nat) : Nat := vm.bytes (OFF_RAM + a)
/-- Array entry `vm->mem_map[a]`. -/
def vm_t.mem_map (vm : vm_t) (a : Nat) : Nat := vm.bytes (OFF_MAP + a)

/-- Every stored byte is a `uint8_t`. -/
def vm_t.wf (vm : vm_t) : Prop := ∀ i, vm.bytes i < 256

/-- A one-byte store at a byte offset of the structure. -/
def poke (bytes : Nat → Nat) (off val : Nat) : Nat → Nat :=
  fun i => if i = off then val % 256 else bytes i

/-- The C library `memcpy(dst, src, n)` on non-overlapping regions. -/
def memcpy (bytes : Nat → Nat) (dst src n : Nat) : Nat → Nat :=
  fun i => if dst ≤ i ∧ i < dst + n then bytes (src + (i - dst)) else bytes i

/-- The C library `memset(dst, c, n)`. -/
def memset (bytes : Nat → Nat) (dst c n : Nat) : Nat → Nat :=
  fun i => if dst ≤ i ∧ i < dst + n then c % 256 else bytes i

/-- A read hook: called with the address, it returns its status code and the byte it left
in `*res`; it may change the state `D` of the peripheral it belongs to. -/
abbrev read_proc_t (D : Type) := Nat → D → Int × Nat × D

/-- A write hook: called with the address and the value, it returns its status code; it may
change the state `D` of the peripheral it belongs to. -/
abbrev write_proc_t (D : Type) := Nat → Nat → D → Int × D

/-- The registered hooks (`mmioproc_list`), entries `0 .. n_read_reg - 1` and
`0 .. n_write_reg - 1` in registration order. -/
structure mmioproc_list_t (D : Type) where
  read_proc : List (read_proc_t D)
  write_proc : List (write_proc_t D)

/-- Everything an instruction can touch: the register file, the machine it points to, the
global hook registry and the state of the peripherals behind the hooks. -/
structure system_t (D : Type) where
  cpu : cpu_6502_t
  vm : vm_t
  mmioproc_list : mmioproc_list_t D
  dev : D

/-- The hook loop of `write_mem`: `true` when a hook returned `MEM_INTERCEPTED`. -/
def write_hooks {D : Type} : List (write_proc_t D) → Nat → Nat → D → Bool × D
  | [], _, _, d => (false, d)
  | h :: hs, addr, val, d =>
    let r := h addr val d
    if r.1 = MEM_INTERCEPTED then (true, r.2) else write_hooks hs addr val r.2

/-- The hook loop of `read_mem`: `some res` when a hook returned `MEM_INTERCEPTED`. -/
def read_hooks {D : Type} : List (read_proc_t D) → Nat → D → Option Nat × D
  | [], _, d => (none, d)
  | h :: hs, addr, d =>
    let r := h addr d
    if r.1 = MEM_INTERCEPTED then (some (r.2.1 % 256), r.2.2) else read_hooks hs addr r.2.2

/-- Function `write_mem(vm, addr, val)`; the arguments are converted to `uint16_t` and `uint8_t`. -/
def write_mem {D : Type} (s : system_t D) (addr val : Nat) : system_t D :=
  let addr := addr % 65536
  let val := val % 256
  let r := write_hooks s.mmioproc_list.write_proc addr val s.dev
  if r.1 then { s with dev := r.2 }
  else
    { s with
      dev := r.2
      vm := { s.vm with bytes := poke (poke s.vm.bytes (OFF_RAM + addr) val) (OFF_MEM + addr) val } }

/-- Function `read_mem(vm, addr)`: the byte read and the system after the hooks ran. -/
def read_mem {D : Type} (s : system_t D) (addr : Nat) : Nat × system_t D :=
  let addr := addr % 65536
  let r := read_hooks s.mmioproc_list.read_proc addr s.dev
  match r.1 with
  | some res => (res, { s with dev := r.2 })
  | none => (s.vm.mem addr % 256, { s with dev := r.2 })

/-- Function `read_ptr(vm, addr)`: `read_mem(addr) | read_mem(addr + 1) << 8`.  The two reads are taken
left to right: the low byte first, then the byte at `addr + 1`. -/
def read_ptr {D : Type} (s : system_t D) (addr : Nat) : Nat × system_t D :=
  let addr := addr % 65536
  let lo := read_mem s addr
  let hi := read_mem lo.2 (addr + 1)
  ((lo.1 ||| (hi.1 <<< 8)) % 65536, hi.2)

/-- Function `read_ptr_wrap(vm, addr)`: the high byte comes from the page of the low byte.  The two
reads are taken left to right. -/
def read_ptr_wrap {D : Type} (s : system_t D) (addr : Nat) : Nat × system_t D :=
  let addr := addr % 65536
  let hibyte_addr := ((addr &&& 0xff00) + ((addr + 1) &&& 0xff)) % 65536
  let lo := read_mem s addr
  let hi := read_mem lo.2 hibyte_addr
  ((lo.1 ||| (hi.1 <<< 8)) % 65536, hi.2)

/-- Function `read_ptr_zp(vm, addr)`. -/
def read_ptr_zp {D : Type} (s : system_t D) (addr : Nat) : Nat × system_t D :=
  read_ptr_wrap s ((addr % 65536) &&& 0xff)

/-- Function `mount_rom(vm, addr, size)`. -/
def mount_rom (vm : vm_t) (addr size : Nat) : vm_t :=
  let addr := addr % 65536
  let b1 := memcpy vm.bytes (OFF_MEM + addr) (OFF_ROM + addr) size
  { vm with bytes := memset b1 OFF_MAP LOC_ROM size }

/-- Function `umount_rom(vm, addr, size)`. -/
def umount_rom (vm : vm_t) (addr size : Nat) : vm_t :=
  let addr := addr % 65536
  let b1 := memcpy vm.bytes (OFF_MEM + addr) (OFF_RAM + addr) size
  { vm with bytes := memset b1 OFF_MAP LOC_RAM size }

/-! ## The CPU core (`cpu_6502.c`) -/

/-- What a handler hands back: its return value, the content of the `*cyc` out-parameter
and the system it leaves behind. -/
structure op_result (D : Type) where
  status : Int
  cyc : Int
  sys : system_t D

/-- Function `push(cpu, val)`: store at `sp + 0x0100`, then `sp--` on a `uint8_t`. -/
def push {D : Type} (s : system_t D) (val : Nat) : system_t D :=
  let s1 := write_mem s (s.cpu.sp + 0x0100) val
  { s1 with cpu := { s1.cpu with sp := (s1.cpu.sp + 255) % 256 } }

/-- Function `pull(cpu, &val)`: `sp++` on a `uint8_t`, then load from `sp + 0x100`; the byte pulled
comes first. -/
def pull {D : Type} (s : system_t D) : Nat × system_t D :=
  let s1 : system_t D := { s with cpu := { s.cpu with sp := (s.cpu.sp + 1) % 256 } }
  read_mem s1 (s1.cpu.sp + 0x100)

/-- Function `flip_flags(cpu, val)`: Negative from bit 7, Zero from `val == 0`. -/
def flip_flags (cpu : cpu_6502_t) (val : Nat) : cpu_6502_t :=
  let val := val % 256
  let cpu1 := if val &&& 0x80 ≠ 0 then SET_FLAG cpu FLAG_NEGATIVE else CLEAR_FLAG cpu FLAG_NEGATIVE
  if val = 0 then SET_FLAG cpu1 FLAG_ZERO else CLEAR_FLAG cpu1 FLAG_ZERO

/-- Function `adc_binary(cpu, b)`. -/
def adc_binary (cpu : cpu_6502_t) (b : Nat) : cpu_6502_t :=
  let b := b % 256
  let sum8 := (cpu.a + b + (if QUERY_FLAG cpu FLAG_CARRY ≠ 0 then 1 else 0)) % 256
  let sum16 := (cpu.a + b + (if QUERY_FLAG cpu FLAG_CARRY ≠ 0 then 1 else 0)) % 65536
  let cpu1 :=
    if (cpu.a ^^^ sum8) &&& (b ^^^ sum8) &&& 0x80 ≠ 0 then SET_FLAG cpu FLAG_OVERFLOW
    else CLEAR_FLAG cpu FLAG_OVERFLOW
  let cpu2 := if sum16 > 255 then SET_FLAG cpu1 FLAG_CARRY else CLEAR_FLAG cpu1 FLAG_CARRY
  { cpu2 with a := sum8 }

/-- Function `adc_decimal(cpu, b)`. -/
def adc_decimal (cpu : cpu_6502_t) (b : Nat) : cpu_6502_t :=
  let b := b % 256
  let carry := if QUERY_FLAG cpu FLAG_CARRY ≠ 0 then 1 else 0
  let abin := (cpu.a >>> 4) * 10 + (cpu.a &&& 0x0f)
  let bbin := (b >>> 4) * 10 + (b &&& 0x0f)
  let rbin := abin + bbin + carry
  let cpu1 := if rbin > 99 then SET_FLAG cpu FLAG_CARRY else CLEAR_FLAG cpu FLAG_CARRY
  { cpu1 with a := ((((rbin % 100) / 10) <<< 4) ||| (rbin % 10)) % 256 }

/-- Function `sbc_decimal(cpu, b)`.  `rbin` is a C `int`; `%` and `/` truncate toward zero.  When
`rbin` stays negative after the `+ 100` adjustment (only for operands that are not packed
BCD) the C code shifts a negative `int`; the model then packs the two digits clamped at 0. -/
def sbc_decimal (cpu : cpu_6502_t) (b : Nat) : cpu_6502_t :=
  let b := b % 256
  let carry : Int := if QUERY_FLAG cpu FLAG_CARRY ≠ 0 then 0 else 1
  let abin : Int := ((cpu.a >>> 4) * 10 + (cpu.a &&& 0x0f) : Nat)
  let bbin : Int := ((b >>> 4) * 10 + (b &&& 0x0f) : Nat)
  let rbin0 : Int := abin - bbin - carry
  let cpu1 := if rbin0 < 0 then CLEAR_FLAG cpu FLAG_CARRY else SET_FLAG cpu FLAG_CARRY
  let rbin : Int := if rbin0 < 0 then rbin0 + 100 else rbin0
  let hi := (Int.tdiv (Int.tmod rbin 100) 10).toNat
  let lo := (Int.tmod rbin 10).toNat
  { cpu1 with a := ((hi <<< 4) ||| lo) % 256 }

/-- Function `sbc_binary(cpu, b)`.  The difference is a C `int`, converted to `uint8_t` and to
`uint16_t`; bit 7 of `~b ^ sum8` is bit 7 of `(0xff ^ b) ^ sum8`. -/
def sbc_binary (cpu : cpu_6502_t) (b : Nat) : cpu_6502_t :=
  let b := b % 256
  let diff : Int := (cpu.a : Int) - (b : Int) - (if QUERY_FLAG cpu FLAG_CARRY ≠ 0 then 0 else 1)
  let sum8 := (diff % 256).toNat
  let sum16 := (diff % 65536).toNat
  let cpu1 :=
    if (cpu.a ^^^ sum8) &&& ((0xff ^^^ b) ^^^ sum8) &&& 0x80 ≠ 0 then SET_FLAG cpu FLAG_OVERFLOW
    else CLEAR_FLAG cpu FLAG_OVERFLOW
  let cpu2 := if sum16 > 0xff then CLEAR_FLAG cpu1 FLAG_CARRY else SET_FLAG cpu1 FLAG_CARRY
  { cpu2 with a := sum8 }

/-- The addressing-mode switch of `adc`: operand, system after the reads, cycle count. -/
def adc_operand {D : Type} (s : system_t D) : Option (Nat × system_t D × Int) :=
  let cpu := s.cpu
  if cpu.ir = 0x69 then some (cpu.arg8, s, 2)
  else if cpu.ir = 0x65 then
    let r := read_mem s cpu.arg8
    some (r.1, r.2, 3)
  else if cpu.ir = 0x75 then
    let r := read_mem s ((cpu.arg + cpu.x) &&& 0xff)
    some (r.1, r.2, 4)
  else if cpu.ir = 0x6d then
    let r := read_mem s cpu.arg
    some (r.1, r.2, 4)
  else if cpu.ir = 0x7d then
    let r := read_mem s (cpu.arg + cpu.x)
    some (r.1, r.2, 4)
  else if cpu.ir = 0x79 then
    let r := read_mem s (cpu.arg + cpu.y)
    some (r.1, r.2, 4)
  else if cpu.ir = 0x61 then
    let p := read_ptr_zp s (cpu.arg + cpu.x)
    let r := read_mem p.2 p.1
    some (r.1, r.2, 6)
  else if cpu.ir = 0x71 then
    let p := read_ptr_zp s cpu.arg
    let r := read_mem p.2 (p.1 + cpu.y)
    some (r.1, r.2, 5)
  else none

/-- The handler `adc`. -/
def adc {D : Type} (s : system_t D) (cyc : Int) : op_result D :=
  let addfunc := if QUERY_FLAG s.cpu FLAG_DECIMAL ≠ 0 then adc_decimal else adc_binary
  match adc_operand s with
  | none => ⟨RET_ERR_INSTR, cyc, s⟩
  | some (operand, s1, c) =>
    let cpu1 := addfunc s1.cpu operand
    ⟨RET_OK, c, { s1 with cpu := flip_flags cpu1 cpu1.a }⟩

/-- The addressing-mode switch of `sbc`: operand, system after the reads, cycle count. -/
def sbc_operand {D : Type} (s : system_t D) : Option (Nat × system_t D × Int) :=
  let cpu := s.cpu
  if cpu.ir = 0xe9 then some (cpu.arg8, s, 2)
  else if cpu.ir = 0xe5 then
    let r := read_mem s cpu.arg
    some (r.1, r.2, 3)
  else if cpu.ir = 0xf5 then
    let r := read_mem s ((cpu.arg + cpu.x) &&& 0xff)
    some (r.1, r.2, 4)
  else if cpu.ir = 0xed then
    let r := read_mem s cpu.arg
    some (r.1, r.2, 4)
  else if cpu.ir = 0xfd then
    let r := read_mem s (cpu.arg + cpu.x)
    some (r.1, r.2, 4)
  else if cpu.ir = 0xf9 then
    let r := read_mem s (cpu.arg + cpu.y)
    some (r.1, r.2, 4)
  else if cpu.ir = 0xe1 then
    let p := read_ptr_zp s (cpu.arg + cpu.x)
    let r := read_mem p.2 p.1
    some (r.1, r.2, 6)
  else if cpu.ir = 0xf1 then
    let p := read_ptr_zp s cpu.arg
    let r := read_mem p.2 (p.1 + cpu.y)
    some (r.1, r.2, 5)
  else none

/-- The handler `sbc`. -/
def sbc {D : Type} (s : system_t D) (cyc : Int) : op_result D :=
  let subfunc := if QUERY_FLAG s.cpu FLAG_DECIMAL ≠ 0 then sbc_decimal else sbc_binary
  match sbc_operand s with
  | none => ⟨RET_ERR_INSTR, cyc, s⟩
  | some (operand, s1, c) =>
    let cpu1 := subfunc s1.cpu operand
    ⟨RET_OK, c, { s1 with cpu := flip_flags cpu1 cpu1.a }⟩

/-- The handler `stk`: TXS, TSX, PHA, PLA, PHP, PLP. -/
def stk {D : Type} (s : system_t D) (cyc : Int) : op_result D :=
  if s.cpu.ir = 0x9a then
    ⟨RET_OK, 2, { s with cpu := { s.cpu with sp := s.cpu.x } }⟩
  else if s.cpu.ir = 0xba then
    let cpu1 := { s.cpu with x := s.cpu.sp }
    ⟨RET_OK, 2, { s with cpu := flip_flags cpu1 cpu1.x }⟩
  else if s.cpu.ir = 0x48 then
    ⟨RET_OK, 3, push s s.cpu.a⟩
  else if s.cpu.ir = 0x68 then
    let r := pull s
    let cpu1 := { r.2.cpu with a := r.1 }
    ⟨RET_OK, 4, { r.2 with cpu := flip_flags cpu1 cpu1.a }⟩
  else if s.cpu.ir = 0x08 then
    ⟨RET_OK, 3, push s (s.cpu.flags ||| FLAG_BREAK)⟩
  else if s.cpu.ir = 0x28 then
    let r := pull s
    let cpu1 := { r.2.cpu with flags := r.1 }
    ⟨RET_OK, 4, { r.2 with cpu := SET_FLAG cpu1 FLAG_RESERVED }⟩
  else ⟨RET_ERR_INSTR, cyc, s⟩

/-- The handler `jmp`: JMP $xxxx and JMP ($xxxx). -/
def jmp {D : Type} (s : system_t D) (cyc : Int) : op_result D :=
  if s.cpu.ir = 0x4c then
    ⟨RET_JUMP, 3, { s with cpu := { s.cpu with pc := s.cpu.arg } }⟩
  else if s.cpu.ir = 0x6c then
    let r := read_ptr_wrap s s.cpu.arg
    ⟨RET_JUMP, 5, { r.2 with cpu := { r.2.cpu with pc := r.1 } }⟩
  else ⟨RET_ERR_INSTR, cyc, s⟩

/-- Function `cmp_flags(cpu, reg, target)`.  `reg - target` is a C `int`; its bit 7 is bit 7
of the difference modulo 256. -/
def cmp_flags (cpu : cpu_6502_t) (reg target : Nat) : cpu_6502_t :=
  let reg := reg % 256
  let target := target % 256
  let cpu1 :=
    if (((reg : Int) - (target : Int)) % 256).toNat &&& 0x80 ≠ 0 then SET_FLAG cpu FLAG_NEGATIVE
    else CLEAR_FLAG cpu FLAG_NEGATIVE
  let cpu2 := if reg ≥ target then SET_FLAG cpu1 FLAG_CARRY else CLEAR_FLAG cpu1 FLAG_CARRY
  if reg = target then SET_FLAG cpu2 FLAG_ZERO else CLEAR_FLAG cpu2 FLAG_ZERO

/-- Function `interrupt(cpu, vector, cyc)`. -/
def interrupt {D : Type} (s : system_t D) (vector : Nat) : op_result D :=
  let s0 : system_t D := { s with cpu := { s.cpu with pc := (s.cpu.pc + 2) % 65536 } }
  let s1 := push s0 ((s0.cpu.pc >>> 8) &&& 0xff)
  let s2 := push s1 (s1.cpu.pc &&& 0xff)
  let s3 := push s2 s2.cpu.flags
  let s4 : system_t D := { s3 with cpu := SET_FLAG s3.cpu FLAG_INTERRUPT }
  let r := read_ptr s4 vector
  ⟨RET_JUMP, 6, { r.2 with cpu := { r.2.cpu with pc := r.1 } }⟩

/-- Where a read-modify-write instruction works: the accumulator (`&cpu->a`), or the byte at
an offset from `vm->mem` as `get_pointer` returns it. -/
inductive rmw_target where
  | acc
  | ptr (off : Nat)
  deriving DecidableEq, Repr

/-- Function `get_pointer(vm, offset)`: `vm->mem + offset`, as a byte offset of the
structure.  The offset is a `size_t` and is not reduced modulo 65536. -/
def get_pointer (offset : Nat) : rmw_target := rmw_target.ptr (OFF_MEM + offset)

/-- The byte `*target`. -/
def target_load {D : Type} (s : system_t D) : rmw_target → Nat
  | rmw_target.acc => s.cpu.a % 256
  | rmw_target.ptr off => s.vm.bytes off % 256

/-- The assignment `*target = val`, `val` converted to `uint8_t`. -/
def target_store {D : Type} (s : system_t D) (t : rmw_target) (val : Nat) : system_t D :=
  match t with
  | rmw_target.acc => { s with cpu := { s.cpu with a := val % 256 } }
  | rmw_target.ptr off => { s with vm := { s.vm with bytes := poke s.vm.bytes off val } }

/-- The addressing-mode switch of `asl`. -/
def asl_target {D : Type} (s : system_t D) : Option (rmw_target × Int) :=
  let cpu := s.cpu
  if cpu.ir = 0x0a then some (rmw_target.acc, 2)
  else if cpu.ir = 0x06 then some (get_pointer cpu.arg, 5)
  else if cpu.ir = 0x16 then some (get_pointer (cpu.arg + cpu.x), 6)
  else if cpu.ir = 0x0e then some (get_pointer cpu.arg, 6)
  else if cpu.ir = 0x1e then some (get_pointer (cpu.arg + cpu.x), 7)
  else none

/-- The handler `asl`. -/
def asl {D : Type} (s : system_t D) (cyc : Int) : op_result D :=
  match asl_target s with
  | none => ⟨RET_ERR_INSTR, cyc, s⟩
  | some (t, c) =>
    let s1 : system_t D :=
      if target_load s t >>> 7 ≠ 0 then { s with cpu := SET_FLAG s.cpu FLAG_CARRY }
      else { s with cpu := CLEAR_FLAG s.cpu FLAG_CARRY }
    let s2 := target_store s1 t (target_load s1 t <<< 1)
    ⟨RET_OK, c, { s2 with cpu := flip_flags s2.cpu (target_load s2 t) }⟩

/-- The addressing-mode switch of `dec`. -/
def dec_target {D : Type} (s : system_t D) : Option (rmw_target × Int) :=
  let cpu := s.cpu
  if cpu.ir = 0xc6 then some (get_pointer cpu.arg, 5)
  else if cpu.ir = 0xd6 then some (get_pointer (cpu.arg + cpu.x), 6)
  else if cpu.ir = 0xce then some (get_pointer cpu.arg, 6)
  else if cpu.ir = 0xde then some (get_pointer (cpu.arg + cpu.x), 7)
  else none

/-- The handler `dec`; `(*target)--` wraps on a `uint8_t`. -/
def dec {D : Type} (s : system_t D) (cyc : Int) : op_result D :=
  match dec_target s with
  | none => ⟨RET_ERR_INSTR, cyc, s⟩
  | some (t, c) =>
    let s1 := target_store s t (target_load s t + 255)
    ⟨RET_OK, c, { s1 with cpu := flip_flags s1.cpu (target_load s1 t) }⟩

/-- The addressing-mode switch of `inc`. -/
def inc_target {D : Type} (s : system_t D) : Option (rmw_target × Int) :=
  let cpu := s.cpu
  if cpu.ir = 0xe6 then some (get_pointer cpu.arg, 5)
  else if cpu.ir = 0xf6 then some (get_pointer (cpu.arg + cpu.x), 6)
  else if cpu.ir = 0xee then some (get_pointer cpu.arg, 6)
  else if cpu.ir = 0xfe then some (get_pointer (cpu.arg + cpu.x), 7)
  else none

/-- The handler `inc`; `(*target)++` wraps on a `uint8_t`. -/
def inc {D : Type} (s : system_t D) (cyc : Int) : op_result D :=
  match inc_target s with
  | none => ⟨RET_ERR_INSTR, cyc, s⟩
  | some (t, c) =>
    let s1 := target_store s t (target_load s t + 1)
    ⟨RET_OK, c, { s1 with cpu := flip_flags s1.cpu (target_load s1 t) }⟩

/-- The addressing-mode switch of `lsr`. -/
def lsr_target {D : Type} (s : system_t D) : Option (rmw_target × Int) :=
  let cpu := s.cpu
  if cpu.ir = 0x4a then some (rmw_target.acc, 2)
  else if cpu.ir = 0x46 then some (get_pointer cpu.arg, 5)
  else if cpu.ir = 0x56 then some (get_pointer (cpu.arg + cpu.x), 6)
  else if cpu.ir = 0x4e then some (get_pointer cpu.arg, 6)
  else if cpu.ir = 0x5e then some (get_pointer (cpu.arg + cpu.x), 7)
  else none

/-- The handler `lsr`. -/
def lsr {D : Type} (s : system_t D) (cyc : Int) : op_result D :=
  match lsr_target s with
  | none => ⟨RET_ERR_INSTR, cyc, s⟩
  | some (t, c) =>
    let s1 : system_t D :=
      if target_load s t &&& 0x01 ≠ 0 then { s with cpu := SET_FLAG s.cpu FLAG_CARRY }
      else { s with cpu := CLEAR_FLAG s.cpu FLAG_CARRY }
    let s2 := target_store s1 t (target_load s1 t >>> 1)
    ⟨RET_OK, c, { s2 with cpu := flip_flags s2.cpu (target_load s2 t) }⟩

/-- The addressing-mode switch of `rol`. -/
def rol_target {D : Type} (s : system_t D) : Option (rmw_target × Int) :=
  let cpu := s.cpu
  if cpu.ir = 0x2a then some (rmw_target.acc, 2)
  else if cpu.ir = 0x26 then some (get_pointer cpu.arg, 5)
  else if cpu.ir = 0x36 then some (get_pointer (cpu.arg + cpu.x), 6)
  else if cpu.ir = 0x2e then some (get_pointer cpu.arg, 6)
  else if cpu.ir = 0x3e then some (get_pointer (cpu.arg + cpu.x), 7)
  else none

/-- The handler `rol`. -/
def rol {D : Type} (s : system_t D) (cyc : Int) : op_result D :=
  match rol_target s with
  | none => ⟨RET_ERR_INSTR, cyc, s⟩
  | some (t, c) =>
    let carry_in := if QUERY_FLAG s.cpu FLAG_CARRY ≠ 0 then 1 else 0
    let s1 : system_t D :=
      if target_load s t >>> 7 ≠ 0 then { s with cpu := SET_FLAG s.cpu FLAG_CARRY }
      else { s with cpu := CLEAR_FLAG s.cpu FLAG_CARRY }
    let s2 := target_store s1 t (target_load s1 t <<< 1)
    let s3 := target_store s2 t (target_load s2 t ||| carry_in)
    ⟨RET_OK, c, { s3 with cpu := flip_flags s3.cpu (target_load s3 t) }⟩

/-- The addressing-mode switch of `ror`. -/
def ror_target {D : Type} (s : system_t D) : Option (rmw_target × Int) :=
  let cpu := s.cpu
  if cpu.ir = 0x6a then some (rmw_target.acc, 2)
  else if cpu.ir = 0x66 then some (get_pointer cpu.arg, 5)
  else if cpu.ir = 0x76 then some (get_pointer (cpu.arg + cpu.x), 6)
  else if cpu.ir = 0x6e then some (get_pointer cpu.arg, 6)
  else if cpu.ir = 0x7e then some (get_pointer (cpu.arg + cpu.x), 7)
  else none

/-- The handler `ror`. -/
def ror {D : Type} (s : system_t D) (cyc : Int) : op_result D :=
  match ror_target s with
  | none => ⟨RET_ERR_INSTR, cyc, s⟩
  | some (t, c) =>
    let carry_in := if QUERY_FLAG s.cpu FLAG_CARRY ≠ 0 then 1 else 0
    let s1 : system_t D :=
      if target_load s t &&& 0x01 ≠ 0 then { s with cpu := SET_FLAG s.cpu FLAG_CARRY }
      else { s with cpu := CLEAR_FLAG s.cpu FLAG_CARRY }
    let s2 := target_store s1 t (target_load s1 t >>> 1)
    let s3 := target_store s2 t (target_load s2 t ||| (carry_in <<< 7))
    ⟨RET_OK, c, { s3 with cpu := flip_flags s3.cpu (target_load s3 t) }⟩

/-- The addressing-mode switch of `and`: operand, system after the reads, cycle count. -/
def and_operand {D : Type} (s : system_t D) : Option (Nat × system_t D × Int) :=
  let cpu := s.cpu
  if cpu.ir = 0x29 then some (cpu.arg8, s, 2)
  else if cpu.ir = 0x25 then
    let r := read_mem s cpu.arg
    some (r.1, r.2, 3)
  else if cpu.ir = 0x35 then
    let r := read_mem s ((cpu.arg8 + cpu.x) &&& 0xff)
    some (r.1, r.2, 4)
  else if cpu.ir = 0x2d then
    let r := read_mem s cpu.arg
    some (r.1, r.2, 4)
  else if cpu.ir = 0x3d then
    let r := read_mem s (cpu.arg + cpu.x)
    some (r.1, r.2, 4)
  else if cpu.ir = 0x39 then
    let r := read_mem s (cpu.arg + cpu.y)
    some (r.1, r.2, 4)
  else if cpu.ir = 0x21 then
    let p := read_ptr_zp s (cpu.arg8 + cpu.x)
    let r := read_mem p.2 p.1
    some (r.1, r.2, 6)
  else if cpu.ir = 0x31 then
    let p := read_ptr_zp s cpu.arg
    let r := read_mem p.2 (p.1 + cpu.y)
    some (r.1, r.2, 5)
  else none

/-- The handler `and`. -/
def and {D : Type} (s : system_t D) (cyc : Int) : op_result D :=
  match and_operand s with
  | none => ⟨RET_ERR_INSTR, cyc, s⟩
  | some (operand, s1, c) =>
    let cpu1 := { s1.cpu with a := s1.cpu.a &&& operand }
    ⟨RET_OK, c, { s1 with cpu := flip_flags cpu1 cpu1.a }⟩

/-- The addressing-mode switch of `bit`. -/
def bit_operand {D : Type} (s : system_t D) : Option (Nat × system_t D × Int) :=
  let cpu := s.cpu
  if cpu.ir = 0x24 then
    let r := read_mem s cpu.arg
    some (r.1, r.2, 3)
  else if cpu.ir = 0x2c then
    let r := read_mem s cpu.arg
    some (r.1, r.2, 4)
  else none

/-- The handler `bit`. -/
def bit {D : Type} (s : system_t D) (cyc : Int) : op_result D :=
  match bit_operand s with
  | none => ⟨RET_ERR_INSTR, cyc, s⟩
  | some (pattern, s1, c) =>
    let cpu1 :=
      if pattern &&& 0x80 ≠ 0 then SET_FLAG s1.cpu FLAG_NEGATIVE
      else CLEAR_FLAG s1.cpu FLAG_NEGATIVE
    let cpu2 :=
      if pattern &&& 0x40 ≠ 0 then SET_FLAG cpu1 FLAG_OVERFLOW else CLEAR_FLAG cpu1 FLAG_OVERFLOW
    let cpu3 :=
      if pattern &&& cpu2.a ≠ 0 then CLEAR_FLAG cpu2 FLAG_ZERO else SET_FLAG cpu2 FLAG_ZERO
    ⟨RET_OK, c, { s1 with cpu := cpu3 }⟩

/-- The condition switch of `bra`: whether the branch is taken, for the eight branch
opcodes. -/
def bra_taken (cpu : cpu_6502_t) : Option Bool :=
  if cpu.ir = 0x10 then some (decide (QUERY_FLAG cpu FLAG_NEGATIVE = 0))
  else if cpu.ir = 0x30 then some (decide (QUERY_FLAG cpu FLAG_NEGATIVE ≠ 0))
  else if cpu.ir = 0x50 then some (decide (QUERY_FLAG cpu FLAG_OVERFLOW = 0))
  else if cpu.ir = 0x70 then some (decide (QUERY_FLAG cpu FLAG_OVERFLOW ≠ 0))
  else if cpu.ir = 0x90 then some (decide (QUERY_FLAG cpu FLAG_CARRY = 0))
  else if cpu.ir = 0xb0 then some (decide (QUERY_FLAG cpu FLAG_CARRY ≠ 0))
  else if cpu.ir = 0xd0 then some (decide (QUERY_FLAG cpu FLAG_ZERO = 0))
  else if cpu.ir = 0xf0 then some (decide (QUERY_FLAG cpu FLAG_ZERO ≠ 0))
  else none

/-- The handler `bra`.  `distance` is `arg8` read as an `int8_t`.  The statement `*cyc++`
of the taken path advances the local pointer `cyc`, not the count it points to, so the count
stays at the 2 stored just before. -/
def bra {D : Type} (s : system_t D) (cyc : Int) : op_result D :=
  let distance : Int := if 128 ≤ s.cpu.arg8 then (s.cpu.arg8 : Int) - 256 else s.cpu.arg8
  match bra_taken s.cpu with
  | none => ⟨RET_ERR_INSTR, cyc, s⟩
  | some taken =>
    if taken then
      ⟨RET_JUMP, 2,
        { s with cpu := { s.cpu with pc := (((s.cpu.pc : Int) + (distance + 2)) % 65536).toNat } }⟩
    else ⟨RET_OK, 2, s⟩

/-- The handler `brk`. -/
def brk {D : Type} (s : system_t D) (cyc : Int) : op_result D :=
  if s.cpu.ir ≠ 0x00 then ⟨RET_ERR_INSTR, cyc, s⟩
  else interrupt { s with cpu := SET_FLAG s.cpu FLAG_BREAK } BRK_VECTOR

/-- The addressing-mode switch of `cmp`. -/
def cmp_operand {D : Type} (s : system_t D) : Option (Nat × system_t D × Int) :=
  let cpu := s.cpu
  if cpu.ir = 0xc9 then some (cpu.arg8, s, 2)
  else if cpu.ir = 0xc5 then
    let r := read_mem s cpu.arg
    some (r.1, r.2, 3)
  else if cpu.ir = 0xd5 then
    let r := read_mem s (cpu.arg + cpu.x)
    some (r.1, r.2, 4)
  else if cpu.ir = 0xcd then
    let r := read_mem s cpu.arg
    some (r.1, r.2, 4)
  else if cpu.ir = 0xdd then
    let r := read_mem s (cpu.arg + cpu.x)
    some (r.1, r.2, 4)
  else if cpu.ir = 0xd9 then
    let r := read_mem s (cpu.arg + cpu.y)
    some (r.1, r.2, 4)
  else if cpu.ir = 0xc1 then
    let p := read_ptr_zp s (cpu.arg + cpu.x)
    let r := read_mem p.2 p.1
    some (r.1, r.2, 6)
  else if cpu.ir = 0xd1 then
    let p := read_ptr_zp s cpu.arg
    let r := read_mem p.2 (p.1 + cpu.y)
    some (r.1, r.2, 5)
  else none

/-- The handler `cmp`. -/
def cmp {D : Type} (s : system_t D) (cyc : Int) : op_result D :=
  match cmp_operand s with
  | none => ⟨RET_ERR_INSTR, cyc, s⟩
  | some (target, s1, c) => ⟨RET_OK, c, { s1 with cpu := cmp_flags s1.cpu s1.cpu.a target }⟩

/-- The addressing-mode switch of `cpx`. -/
def cpx_operand {D : Type} (s : system_t D) : Option (Nat × system_t D × Int) :=
  let cpu := s.cpu
  if cpu.ir = 0xe0 then some (cpu.arg8, s, 2)
  else if cpu.ir = 0xe4 then
    let r := read_mem s cpu.arg8
    some (r.1, r.2, 3)
  else if cpu.ir = 0xec then
    let r := read_mem s cpu.arg
    some (r.1, r.2, 4)
  else none

/-- The handler `cpx`. -/
def cpx {D : Type} (s : system_t D) (cyc : Int) : op_result D :=
  match cpx_operand s with
  | none => ⟨RET_ERR_INSTR, cyc, s⟩
  | some (target, s1, c) => ⟨RET_OK, c, { s1 with cpu := cmp_flags s1.cpu s1.cpu.x target }⟩

/-- The addressing-mode switch of `cpy`. -/
def cpy_operand {D : Type} (s : system_t D) : Option (Nat × system_t D × Int) :=
  let cpu := s.cpu
  if cpu.ir = 0xc0 then some (cpu.arg8, s, 2)
  else if cpu.ir = 0xc4 then
    let r := read_mem s cpu.arg
    some (r.1, r.2, 3)
  else if cpu.ir = 0xcc then
    let r := read_mem s cpu.arg
    some (r.1, r.2, 4)
  else none

/-- The handler `cpy`. -/
def cpy {D : Type} (s : system_t D) (cyc : Int) : op_result D :=
  match cpy_operand s with
  | none => ⟨RET_ERR_INSTR, cyc, s⟩
  | some (target, s1, c) => ⟨RET_OK, c, { s1 with cpu := cmp_flags s1.cpu s1.cpu.y target }⟩

/-- The addressing-mode switch of `eor`.  In `cpu->arg + cpu->x & 0xff` the addition binds
tighter than `&`. -/
def eor_operand {D : Type} (s : system_t D) : Option (Nat × system_t D × Int) :=
  let cpu := s.cpu
  if cpu.ir = 0x49 then some (cpu.arg8, s, 2)
  else if cpu.ir = 0x45 then
    let r := read_mem s cpu.arg
    some (r.1, r.2, 3)
  else if cpu.ir = 0x55 then
    let r := read_mem s ((cpu.arg + cpu.x) &&& 0xff)
    some (r.1, r.2, 4)
  else if cpu.ir = 0x4d then
    let r := read_mem s cpu.arg
    some (r.1, r.2, 4)
  else if cpu.ir = 0x5d then
    let r := read_mem s (cpu.arg + cpu.x)
    some (r.1, r.2, 4)
  else if cpu.ir = 0x59 then
    let r := read_mem s (cpu.arg + cpu.y)
    some (r.1, r.2, 4)
  else if cpu.ir = 0x41 then
    let p := read_ptr_zp s (cpu.arg + cpu.x)
    let r := read_mem p.2 p.1
    some (r.1, r.2, 6)
  else if cpu.ir = 0x51 then
    let p := read_ptr_zp s cpu.arg
    let r := read_mem p.2 (p.1 + cpu.y)
    some (r.1, r.2, 5)
  else none

/-- The handler `eor`. -/
def eor {D : Type} (s : system_t D) (cyc : Int) : op_result D :=
  match eor_operand s with
  | none => ⟨RET_ERR_INSTR, cyc, s⟩
  | some (operand, s1, c) =>
    let cpu1 := { s1.cpu with a := s1.cpu.a ^^^ operand }
    ⟨RET_OK, c, { s1 with cpu := flip_flags cpu1 cpu1.a }⟩

/-- The handler `flg`: CLC, SEC, CLI, SEI, CLV, CLD, SED. -/
def flg {D : Type} (s : system_t D) (cyc : Int) : op_result D :=
  if s.cpu.ir = 0x18 then ⟨RET_OK, 2, { s with cpu := CLEAR_FLAG s.cpu FLAG_CARRY }⟩
  else if s.cpu.ir = 0x38 then ⟨RET_OK, 2, { s with cpu := SET_FLAG s.cpu FLAG_CARRY }⟩
  else if s.cpu.ir = 0x58 then ⟨RET_OK, 2, { s with cpu := CLEAR_FLAG s.cpu FLAG_INTERRUPT }⟩
  else if s.cpu.ir = 0x78 then ⟨RET_OK, 2, { s with cpu := SET_FLAG s.cpu FLAG_INTERRUPT }⟩
  else if s.cpu.ir = 0xb8 then ⟨RET_OK, 2, { s with cpu := CLEAR_FLAG s.cpu FLAG_OVERFLOW }⟩
  else if s.cpu.ir = 0xd8 then ⟨RET_OK, 2, { s with cpu := CLEAR_FLAG s.cpu FLAG_DECIMAL }⟩
  else if s.cpu.ir = 0xf8 then ⟨RET_OK, 2, { s with cpu := SET_FLAG s.cpu FLAG_DECIMAL }⟩
  else ⟨RET_ERR_INSTR, cyc, s⟩

/-- The handler `jsr`. -/
def jsr {D : Type} (s : system_t D) (cyc : Int) : op_result D :=
  if s.cpu.ir ≠ 0x20 then ⟨RET_ERR_INSTR, cyc, s⟩
  else
    let s0 : system_t D := { s with cpu := { s.cpu with pc := (s.cpu.pc + 2) % 65536 } }
    let s1 := push s0 ((s0.cpu.pc >>> 8) &&& 0xff)
    let s2 := push s1 (s1.cpu.pc &&& 0xff)
    ⟨RET_JUMP, 6, { s2 with cpu := { s2.cpu with pc := s2.cpu.arg } }⟩

/-- The addressing-mode switch of `lda`: the byte loaded, the system after the reads, the
cycle count. -/
def lda_operand {D : Type} (s : system_t D) : Option (Nat × system_t D × Int) :=
  let cpu := s.cpu
  if cpu.ir = 0xa9 then some (cpu.arg8, s, 2)
  else if cpu.ir = 0xa5 then
    let r := read_mem s cpu.arg
    some (r.1, r.2, 3)
  else if cpu.ir = 0xb5 then
    let r := read_mem s ((cpu.arg + cpu.x) &&& 0xff)
    some (r.1, r.2, 4)
  else if cpu.ir = 0xad then
    let r := read_mem s cpu.arg
    some (r.1, r.2, 4)
  else if cpu.ir = 0xbd then
    let r := read_mem s (cpu.arg + cpu.x)
    some (r.1, r.2, 4)
  else if cpu.ir = 0xb9 then
    let r := read_mem s (cpu.arg + cpu.y)
    some (r.1, r.2, 4)
  else if cpu.ir = 0xa1 then
    let p := read_ptr_zp s (cpu.arg + cpu.x)
    let r := read_mem p.2 p.1
    some (r.1, r.2, 6)
  else if cpu.ir = 0xb1 then
    let p := read_ptr_zp s cpu.arg
    let r := read_mem p.2 (p.1 + cpu.y)
    some (r.1, r.2, 5)
  else none

/-- The handler `lda`. -/
def lda {D : Type} (s : system_t D) (cyc : Int) : op_result D :=
  match lda_operand s with
  | none => ⟨RET_ERR_INSTR, cyc, s⟩
  | some (v, s1, c) =>
    let cpu1 := { s1.cpu with a := v % 256 }
    ⟨RET_OK, c, { s1 with cpu := flip_flags cpu1 cpu1.a }⟩

/-- The addressing-mode switch of `ldx`. -/
def ldx_operand {D : Type} (s : system_t D) : Option (Nat × system_t D × Int) :=
  let cpu := s.cpu
  if cpu.ir = 0xa2 then some (cpu.arg8, s, 2)
  else if cpu.ir = 0xa6 then
    let r := read_mem s cpu.arg
    some (r.1, r.2, 3)
  else if cpu.ir = 0xb6 then
    let r := read_mem s ((cpu.arg + cpu.y) &&& 0xff)
    some (r.1, r.2, 4)
  else if cpu.ir = 0xae then
    let r := read_mem s cpu.arg
    some (r.1, r.2, 4)
  else if cpu.ir = 0xbe then
    let r := read_mem s (cpu.arg + cpu.y)
    some (r.1, r.2, 4)
  else none

/-- The handler `ldx`. -/
def ldx {D : Type} (s : system_t D) (cyc : Int) : op_result D :=
  match ldx_operand s with
  | none => ⟨RET_ERR_INSTR, cyc, s⟩
  | some (v, s1, c) =>
    let cpu1 := { s1.cpu with x := v % 256 }
    ⟨RET_OK, c, { s1 with cpu := flip_flags cpu1 cpu1.x }⟩

/-- The addressing-mode switch of `ldy`. -/
def ldy_operand {D : Type} (s : system_t D) : Option (Nat × system_t D × Int) :=
  let cpu := s.cpu
  if cpu.ir = 0xa0 then some (cpu.arg8, s, 2)
  else if cpu.ir = 0xa4 then
    let r := read_mem s cpu.arg
    some (r.1, r.2, 3)
  else if cpu.ir = 0xb4 then
    let r := read_mem s ((cpu.arg + cpu.x) &&& 0xff)
    some (r.1, r.2, 4)
  else if cpu.ir = 0xac then
    let r := read_mem s cpu.arg
    some (r.1, r.2, 4)
  else if cpu.ir = 0xbc then
    let r := read_mem s (cpu.arg + cpu.x)
    some (r.1, r.2, 4)
  else none

/-- The handler `ldy`. -/
def ldy {D : Type} (s : system_t D) (cyc : Int) : op_result D :=
  match ldy_operand s with
  | none => ⟨RET_ERR_INSTR, cyc, s⟩
  | some (v, s1, c) =>
    let cpu1 := { s1.cpu with y := v % 256 }
    ⟨RET_OK, c, { s1 with cpu := flip_flags cpu1 cpu1.y }⟩

/-- The handler `nop`. -/
def nop {D : Type} (s : system_t D) (cyc : Int) : op_result D :=
  if s.cpu.ir ≠ 0xea then ⟨RET_ERR_INSTR, cyc, s⟩ else ⟨RET_OK, 2, s⟩

/-- The addressing-mode switch of `ora`. -/
def ora_operand {D : Type} (s : system_t D) : Option (Nat × system_t D × Int) :=
  let cpu := s.cpu
  if cpu.ir = 0x09 then some (cpu.arg8, s, 2)
  else if cpu.ir = 0x05 then
    let r := read_mem s cpu.arg
    some (r.1, r.2, 3)
  else if cpu.ir = 0x15 then
    let r := read_mem s ((cpu.arg + cpu.x) &&& 0xff)
    some (r.1, r.2, 4)
  else if cpu.ir = 0x0d then
    let r := read_mem s cpu.arg
    some (r.1, r.2, 4)
  else if cpu.ir = 0x1d then
    let r := read_mem s (cpu.arg + cpu.x)
    some (r.1, r.2, 4)
  else if cpu.ir = 0x19 then
    let r := read_mem s (cpu.arg + cpu.y)
    some (r.1, r.2, 4)
  else if cpu.ir = 0x01 then
    let p := read_ptr_zp s (cpu.arg + cpu.x)
    let r := read_mem p.2 p.1
    some (r.1, r.2, 6)
  else if cpu.ir = 0x11 then
    let p := read_ptr_zp s cpu.arg
    let r := read_mem p.2 (p.1 + cpu.y)
    some (r.1, r.2, 5)
  else none

/-- The handler `ora`. -/
def ora {D : Type} (s : system_t D) (cyc : Int) : op_result D :=
  match ora_operand s with
  | none => ⟨RET_ERR_INSTR, cyc, s⟩
  | some (operand, s1, c) =>
    let cpu1 := { s1.cpu with a := s1.cpu.a ||| operand }
    ⟨RET_OK, c, { s1 with cpu := flip_flags cpu1 cpu1.a }⟩

/-- The register switch of `reg`: TAX, TXA, DEX, INX, TAY, TYA, DEY, INY; increments and
decrements wrap on a `uint8_t`. -/
def reg_cpu (cpu : cpu_6502_t) : Option cpu_6502_t :=
  if cpu.ir = 0xaa then
    let c := { cpu with x := cpu.a }
    some (flip_flags c c.x)
  else if cpu.ir = 0x8a then
    let c := { cpu with a := cpu.x }
    some (flip_flags c c.a)
  else if cpu.ir = 0xca then
    let c := { cpu with x := (cpu.x + 255) % 256 }
    some (flip_flags c c.x)
  else if cpu.ir = 0xe8 then
    let c := { cpu with x := (cpu.x + 1) % 256 }
    some (flip_flags c c.x)
  else if cpu.ir = 0xa8 then
    let c := { cpu with y := cpu.a }
    some (flip_flags c c.y)
  else if cpu.ir = 0x98 then
    let c := { cpu with a := cpu.y }
    some (flip_flags c c.a)
  else if cpu.ir = 0x88 then
    let c := { cpu with y := (cpu.y + 255) % 256 }
    some (flip_flags c c.y)
  else if cpu.ir = 0xc8 then
    let c := { cpu with y := (cpu.y + 1) % 256 }
    some (flip_flags c c.y)
  else none

/-- The handler `reg`. -/
def reg {D : Type} (s : system_t D) (cyc : Int) : op_result D :=
  match reg_cpu s.cpu with
  | none => ⟨RET_ERR_INSTR, cyc, s⟩
  | some cpu1 => ⟨RET_OK, 2, { s with cpu := cpu1 }⟩

/-- The handler `rti`: pull the flags, then the low and the high byte of the address. -/
def rti {D : Type} (s : system_t D) (cyc : Int) : op_result D :=
  if s.cpu.ir ≠ 0x40 then ⟨RET_ERR_INSTR, cyc, s⟩
  else
    let r0 := pull s
    let s1 : system_t D := { r0.2 with cpu := { r0.2.cpu with flags := r0.1 } }
    let lo := pull s1
    let hi := pull lo.2
    let addr := ((hi.1 <<< 8) ||| lo.1) % 65536
    ⟨RET_JUMP, 6, { hi.2 with cpu := { hi.2.cpu with pc := addr } }⟩

/-- The handler `rts`: pull the low and the high byte of the address, resume one byte
further. -/
def rts {D : Type} (s : system_t D) (cyc : Int) : op_result D :=
  if s.cpu.ir ≠ 0x60 then ⟨RET_ERR_INSTR, cyc, s⟩
  else
    let lo := pull s
    let hi := pull lo.2
    let addr := ((hi.1 <<< 8) ||| lo.1) % 65536
    ⟨RET_JUMP, 6, { hi.2 with cpu := { hi.2.cpu with pc := (addr + 1) % 65536 } }⟩

/-- The handler `sta`. -/
def sta {D : Type} (s : system_t D) (cyc : Int) : op_result D :=
  let cpu := s.cpu
  if cpu.ir = 0x85 then ⟨RET_OK, 3, write_mem s cpu.arg cpu.a⟩
  else if cpu.ir = 0x95 then ⟨RET_OK, 4, write_mem s ((cpu.arg + cpu.x) &&& 0xff) cpu.a⟩
  else if cpu.ir = 0x8d then ⟨RET_OK, 4, write_mem s cpu.arg cpu.a⟩
  else if cpu.ir = 0x9d then ⟨RET_OK, 5, write_mem s (cpu.arg + cpu.x) cpu.a⟩
  else if cpu.ir = 0x99 then ⟨RET_OK, 5, write_mem s (cpu.arg + cpu.y) cpu.a⟩
  else if cpu.ir = 0x81 then
    let p := read_ptr_zp s (cpu.arg + cpu.x)
    ⟨RET_OK, 6, write_mem p.2 p.1 cpu.a⟩
  else if cpu.ir = 0x91 then
    let p := read_ptr_zp s cpu.arg
    ⟨RET_OK, 6, write_mem p.2 (p.1 + cpu.y) cpu.a⟩
  else ⟨RET_ERR_INSTR, cyc, s⟩

/-- The handler `stx`. -/
def stx {D : Type} (s : system_t D) (cyc : Int) : op_result D :=
  let cpu := s.cpu
  if cpu.ir = 0x86 then ⟨RET_OK, 3, write_mem s cpu.arg cpu.x⟩
  else if cpu.ir = 0x96 then ⟨RET_OK, 4, write_mem s ((cpu.arg + cpu.y) &&& 0xff) cpu.x⟩
  else if cpu.ir = 0x8e then ⟨RET_OK, 4, write_mem s cpu.arg cpu.x⟩
  else ⟨RET_ERR_INSTR, cyc, s⟩

/-- The handler `sty`. -/
def sty {D : Type} (s : system_t D) (cyc : Int) : op_result D :=
  let cpu := s.cpu
  if cpu.ir = 0x84 then ⟨RET_OK, 3, write_mem s cpu.arg cpu.y⟩
  else if cpu.ir = 0x94 then ⟨RET_OK, 4, write_mem s ((cpu.arg + cpu.x) &&& 0xff) cpu.y⟩
  else if cpu.ir = 0x8c then ⟨RET_OK, 4, write_mem s cpu.arg cpu.y⟩
  else ⟨RET_ERR_INSTR, cyc, s⟩

/-- The handler `x` of the unassigned opcodes. -/
def x {D : Type} (s : system_t D) (cyc : Int) : op_result D :=
  ⟨RET_ERR_INSTR, cyc, s⟩

/-- The call through a slot of `instr_table`. -/
def call_proc {D : Type} : op_proc → system_t D → Int → op_result D
  | op_proc.asl => asl
  | op_proc.dec => dec
  | op_proc.inc => inc
  | op_proc.lsr => lsr
  | op_proc.rol => rol
  | op_proc.ror => ror
  | op_proc.adc => adc
  | op_proc.and => and
  | op_proc.bit => bit
  | op_proc.bra => bra
  | op_proc.brk => brk
  | op_proc.cmp => cmp
  | op_proc.cpx => cpx
  | op_proc.cpy => cpy
  | op_proc.eor => eor
  | op_proc.flg => flg
  | op_proc.jmp => jmp
  | op_proc.jsr => jsr
  | op_proc.lda => lda
  | op_proc.ldx => ldx
  | op_proc.ldy => ldy
  | op_proc.nop => nop
  | op_proc.ora => ora
  | op_proc.reg => reg
  | op_proc.rti => rti
  | op_proc.rts => rts
  | op_proc.sbc => sbc
  | op_proc.sta => sta
  | op_proc.stk => stk
  | op_proc.stx => stx
  | op_proc.sty => sty
  | op_proc.x => x

/-- Function `cpu_6502_fetch_instr(cpu)`. -/
def cpu_6502_fetch_instr {D : Type} (s : system_t D) : system_t D :=
  let r0 := read_mem s s.cpu.pc
  let s1 : system_t D := { r0.2 with cpu := { r0.2.cpu with ir := r0.1 } }
  let r1 := read_mem s1 ((s1.cpu.pc + 1) &&& 0xffff)
  let s2 : system_t D := { r1.2 with cpu := { r1.2.cpu with arg := r1.1 } }
  if len_at s2.cpu.ir = 3 then
    let r2 := read_mem s2 ((s2.cpu.pc + 2) &&& 0xffff)
    { r2.2 with cpu := { r2.2.cpu with arg := (r2.2.cpu.arg ||| (r2.1 <<< 8)) % 65536 } }
  else s2

/-- Function `cpu_6502_exec_instr(cpu, cyc)`. -/
def cpu_6502_exec_instr {D : Type} (s : system_t D) (cyc : Int) : op_result D :=
  let r := call_proc (instr_at s.cpu.ir) s cyc
  if r.status ≠ RET_JUMP then
    { r with
      sys :=
        { r.sys with
          cpu := { r.sys.cpu with pc := (r.sys.cpu.pc + len_at r.sys.cpu.ir) % 65536 } } }
  else r

/-- Function `cpu_6502_nmi(cpu, cyc)`. -/
def cpu_6502_nmi {D : Type} (s : system_t D) : op_result D := interrupt s NMI_VECTOR

/-- Function `cpu_6502_irq(cpu, cyc)`. -/
def cpu_6502_irq {D : Type} (s : system_t D) : op_result D := interrupt s BRK_VECTOR

/-- Function `cpu_6502_get_pc(cpu)`. -/
def cpu_6502_get_pc {D : Type} (s : system_t D) : Nat := s.cpu.pc

/-- Function `cpu_6502_reset(cpu)`. -/
def cpu_6502_reset {D : Type} (s : system_t D) : system_t D :=
  let s1 : system_t D :=
    { s with cpu := { s.cpu with a := 0, x := 0, y := 0, sp := 0xff, flags := FLAG_RESERVED } }
  let r := read_ptr s1 RES_VECTOR
  { r.2 with cpu := { r.2.cpu with pc := r.1 } }

/-! ## The orchestrator (`vm.c`) -/

/-- Function `vm_step(vm, status)` with the 6502 core plugged in.  `periph_step` stands for
the call `pia_step(vm)` the orchestrator makes after `exec`; `status` is the content
of `*status` on entry and `cycles` the content of the local `cycles`, which `exec` leaves
alone when the handler stores no count.  The result is `*status` on return and the system. -/
def vm_step {D : Type} (periph_step : system_t D → system_t D) (s : system_t D)
    (status : Int) (cycles : Int) : Int × system_t D :=
  let old_pc := cpu_6502_get_pc s
  let s1 := cpu_6502_fetch_instr s
  let r := cpu_6502_exec_instr s1 cycles
  let s2 := periph_step r.sys
  let s3 : system_t D :=
    { s2 with
      vm :=
        { s2.vm with
          step := (s2.vm.step + 1) % 4294967296
          cycle := (((s2.vm.cycle : Int) + r.cyc) % 4294967296).toNat } }
  let st1 := if r.status = RET_OK ∨ r.status = RET_JUMP then RET_OK else status
  let st2 := if cpu_6502_get_pc s3 = old_pc then RET_LOOP else st1
  let st3 := if s3.vm.quit ≠ 0 then RET_QUIT else st2
  (st3, s3)

/-! ## Hook registration (`mem.c`)

The registry `mmioproc_list_t` keeps, for each kind of hook, a count `n_*_reg`, a recorded
capacity `n_*_alloced` and a pointer to a heap buffer.  One kind is modelled by
`hook_list_t`; the buffer is the list of its slots (`none` for a slot never written), so its
length is the number of slots `malloc` was asked for.  `malloc` is taken to succeed.  A
store past the end of the buffer has no defined behaviour; the registration functions
return `none` there. -/

/-- Constant `PREALLOC_LIST`. -/
def PREALLOC_LIST : Nat := 16

/-- The fields of `mmioproc_list_t` for one kind of hook. -/
structure hook_list_t (α : Type) where
  /-- Field `n_read_reg` / `n_write_reg`. -/
  n_reg : Nat
  /-- Field `n_read_alloced` / `n_write_alloced`. -/
  n_alloced : Nat
  /-- The buffer `read_proc` / `write_proc` points to. -/
  buf : List (Option α)
  deriving DecidableEq, Repr

/-- Function `expandlist(list, n_reg, n_alloced)`: the buffer returned and the value left
in `*n_alloced`.  When `*n_reg == *n_alloced` a buffer of `*n_reg + PREALLOC_LIST` slots is
allocated and the first `*n_reg` entries are copied into it. -/
def expandlist {α : Type} (list : List (Option α)) (n_reg n_alloced : Nat) :
    List (Option α) × Nat :=
  if n_reg = n_alloced then
    ((List.range (n_reg + PREALLOC_LIST)).map
        (fun i => if i < n_reg then list.getD i none else none),
      n_alloced + PREALLOC_LIST)
  else (list, n_alloced)

/-- Function `readproc_reg(proc)`.  `n_reg` and `n_alloced` are local copies of the fields;
`expandlist` updates the copies, and only the buffer pointer and the count are written
back. -/
def readproc_reg {α : Type} (l : hook_list_t α) (proc : α) : Option (hook_list_t α) :=
  let n_reg := l.n_reg
  let n_alloced := l.n_alloced
  let procs := (expandlist l.buf n_reg n_alloced).1
  if n_reg < procs.length then
    some { n_reg := l.n_reg + 1, n_alloced := l.n_alloced, buf := procs.set n_reg (some proc) }
  else none

/-- Function `writeproc_reg(proc)`: the same statements on the write fields. -/
def writeproc_reg {α : Type} (l : hook_list_t α) (proc : α) : Option (hook_list_t α) :=
  let n_reg := l.n_reg
  let n_alloced := l.n_alloced
  let procs := (expandlist l.buf n_reg n_alloced).1
  if n_reg < procs.length then
    some { n_reg := l.n_reg + 1, n_alloced := l.n_alloced, buf := procs.set n_reg (some proc) }
  else none

/-- Function `mmio_init()`, for one kind of hook: a buffer of `PREALLOC_LIST` slots, no hook
registered. -/
def mmio_init {α : Type} : hook_list_t α :=
  { n_reg := 0, n_alloced := PREALLOC_LIST, buf := List.replicate PREALLOC_LIST none }


/-! ## The hooks of the 6820 peripheral (`io_6820.c`) -/

def KBD_DATA : Nat := 0xd010
def KBD_CR : Nat := 0xd011
def DSP_DATA : Nat := 0xd012
def DSP_CR : Nat := 0xd013

/-- The registers of the peripheral (`struct reginfo_t`). -/
structure reginfo_t where
  kbd_data : Nat
  kbd_cr : Nat
  dsp_data : Nat
  dsp_cr : Nat

/-- Function `hook_read`.  When the address is not one of the four registers `*res` is left alone and
the hook reports `MEM_IGNORED`; the byte slot of the result is then unused. -/
def hook_read : read_proc_t reginfo_t := fun addr reginfo =>
  if addr = KBD_DATA then (MEM_INTERCEPTED, reginfo.kbd_data, { reginfo with kbd_cr := 0x27 })
  else if addr = KBD_CR then (MEM_INTERCEPTED, reginfo.kbd_cr, reginfo)
  else if addr = DSP_DATA then (MEM_INTERCEPTED, reginfo.dsp_data, reginfo)
  else if addr = DSP_CR then (MEM_INTERCEPTED, reginfo.dsp_cr, reginfo)
  else (MEM_IGNORED, 0, reginfo)

/-- Function `hook_write`. -/
def hook_write : write_proc_t reginfo_t := fun addr val reginfo =>
  if addr = KBD_DATA then (MEM_USED, { reginfo with kbd_data := val })
  else if addr = KBD_CR then
    (MEM_USED,
      if reginfo.kbd_cr = 0 then { reginfo with kbd_cr := 0x27 }
      else { reginfo with kbd_cr := val })
  else if addr = DSP_DATA then
    (MEM_USED,
      if reginfo.dsp_cr &&& 0x04 ≠ 0 then { reginfo with dsp_data := (val ||| 0x80) % 256 }
      else reginfo)
  else if addr = DSP_CR then (MEM_USED, { reginfo with dsp_cr := val })
  else (MEM_IGNORED, reginfo)

/-- The peripheral registers after `pia_reset`. -/
def pia_reset : reginfo_t := { kbd_data := 0x80, kbd_cr := 0, dsp_data := 0, dsp_cr := 0 }

/-! ## Vocabulary of the statements -/

/-- The two's-complement value of a byte. -/
def signed8 (v : Nat) : Int := if 128 ≤ v then (v : Int) - 256 else v

/-- A byte is packed BCD when both of its nibbles are decimal digits. -/
def bcd_valid (v : Nat) : Prop := v / 16 ≤ 9 ∧ v % 16 ≤ 9

instance (v : Nat) : Decidable (bcd_valid v) := by unfold bcd_valid; infer_instance

/-- The number a packed BCD byte stands for. -/
def bcd_dec (v : Nat) : Nat := (v / 16) * 10 + v % 16

/-- The packed BCD byte of a number below 100. -/
def bcd_enc (n : Nat) : Nat := (n / 10) * 16 + n % 10

/-- A machine with zeroed storage, no hooks, no peripheral, and the given register file. -/
def blank_system (cpu : cpu_6502_t) : system_t Unit :=
  { cpu := cpu
    vm := { bytes := fun _ => 0, cycle := 0, step := 0, quit := 0 }
    mmioproc_list := { read_proc := [], write_proc := [] }
    dev := () }

/-- The example of the binary ADC test: `A = 0x50`, `ADC #$10`, Carry clear. -/
def adc_example_1 : system_t Unit := blank_system ⟨0x20, 0, 0xff, 0x69, 0x10, 0x50, 0, 0⟩

/-- The example of the signed-overflow test: `A = 0x50`, `ADC #$50`, Carry clear. -/
def adc_example_2 : system_t Unit := blank_system ⟨0x20, 0, 0xff, 0x69, 0x50, 0x50, 0, 0⟩

/-- An SBC immediate example: `A = 0x10`, `SBC #$20`, Carry set (no borrow in). -/
def sbc_example_1 : system_t Unit := blank_system ⟨0x21, 0, 0xff, 0xe9, 0x20, 0x10, 0, 0⟩

/-- The example of the decimal ADC test: `A = 0x19`, `ADC #$01`, Carry clear, Decimal set. -/
def adc_example_3 : system_t Unit := blank_system ⟨0x28, 0, 0xff, 0x69, 0x01, 0x19, 0, 0⟩

/-- A decimal SBC example: `A = 0x12`, `SBC #$34`, Carry set (no borrow in), Decimal set. -/
def sbc_example_2 : system_t Unit := blank_system ⟨0x29, 0, 0xff, 0xe9, 0x34, 0x12, 0, 0⟩

/-- No registered write hook answers `MEM_INTERCEPTED` at `addr`, whatever the value written
and the state of the peripheral. -/
def no_write_intercept {D : Type} (s : system_t D) (addr : Nat) : Prop :=
  ∀ h ∈ s.mmioproc_list.write_proc, ∀ (val : Nat) (d : D), (h addr val d).1 ≠ MEM_INTERCEPTED

/-- No registered read hook answers `MEM_INTERCEPTED` at `addr`, whatever the state of the
peripheral. -/
def no_read_intercept {D : Type} (s : system_t D) (addr : Nat) : Prop :=
  ∀ h ∈ s.mmioproc_list.read_proc, ∀ (d : D), (h addr d).1 ≠ MEM_INTERCEPTED

/-- A machine with zeroed storage and the peripheral attached as `pia_init` does: `hook_write`
and `hook_read` registered, the peripheral registers reset. -/
def pia_system (cpu : cpu_6502_t) : system_t reginfo_t :=
  { cpu := cpu
    vm := { bytes := fun _ => 0, cycle := 0, step := 0, quit := 0 }
    mmioproc_list := { read_proc := [hook_read], write_proc := [hook_write] }
    dev := pia_reset }

/-- A stack example: `SP = 0x00`, `A = 0x5a`, opcode PHA, the peripheral attached. -/
def stack_example : system_t reginfo_t := pia_system ⟨0x20, 0, 0x00, 0x48, 0, 0x5a, 0, 0⟩

/-- The system in which PLA is executed after a PHA that left `t`: the opcode register holds
0x68 and the accumulator may have been overwritten by `a'` in between. -/
def before_pla {D : Type} (t : system_t D) (a' : Nat) : system_t D :=
  { t with cpu := { t.cpu with ir := 0x68, a := a' } }

/-- Consecutive pushes of the bytes of `vs`, first element first. -/
def push_list {D : Type} (s : system_t D) (vs : List Nat) : system_t D :=
  vs.foldl push s

/-- A machine with `SP = 0x00`, zeroed storage and the peripheral attached. -/
def sp_zero_example : system_t reginfo_t := pia_system ⟨0x20, 0, 0x00, 0, 0, 0, 0, 0⟩

/-- The indirect-jump example: `JMP ($12FF)` with `0x34` at `0x12FF`, `0x12` at `0x1200` and
`0x56` at `0x1300`, the peripheral attached. -/
def jmp_example : system_t reginfo_t :=
  { cpu := ⟨0x20, 0x0400, 0xff, 0x6c, 0x12FF, 0, 0, 0⟩
    vm :=
      { bytes := fun i =>
          if i = 0x12FF then 0x34 else if i = 0x1200 then 0x12 else if i = 0x1300 then 0x56 else 0
        cycle := 0, step := 0, quit := 0 }
    mmioproc_list := { read_proc := [hook_read], write_proc := [hook_write] }
    dev := pia_reset }

/-- A bus whose composite view holds `1` everywhere, the ROM bank `2`, the RAM bank `3`, and
whose map tags are all `LOC_RAM`. -/
def bank_example : vm_t :=
  { bytes := fun i => if i < OFF_ROM then 1 else if i < OFF_RAM then 2 else if i < OFF_MAP then 3 else 0
    cycle := 0, step := 0, quit := 0 }

/-- The bus of `bank_example` with the peripheral attached. -/
def bank_system : system_t reginfo_t :=
  { cpu := ⟨0x20, 0x0400, 0xff, 0, 0, 0, 0, 0⟩
    vm := bank_example
    mmioproc_list := { read_proc := [hook_read], write_proc := [hook_write] }
    dev := pia_reset }

/-- The peripheral state after the read hooks of `hs` were called one after the other at
`addr`, starting from `d`. -/
def dev_after_reads {D : Type} : List (read_proc_t D) → Nat → D → D
  | [], _, d => d
  | f :: fs, addr, d => dev_after_reads fs addr (f addr d).2.2

/-- Called one after the other at `addr` starting from `d`, none of the read hooks of `hs`
answers `MEM_INTERCEPTED`. -/
def reads_ignored {D : Type} : List (read_proc_t D) → Nat → D → Prop
  | [], _, _ => True
  | f :: fs, addr, d => (f addr d).1 ≠ MEM_INTERCEPTED ∧ reads_ignored fs addr (f addr d).2.2

/-- The peripheral state after the write hooks of `hs` were called one after the other with
`addr` and `val`, starting from `d`. -/
def dev_after_writes {D : Type} : List (write_proc_t D) → Nat → Nat → D → D
  | [], _, _, d => d
  | f :: fs, addr, val, d => dev_after_writes fs addr val (f addr val d).2

/-- Called one after the other with `addr` and `val` starting from `d`, none of the write
hooks of `hs` answers `MEM_INTERCEPTED`. -/
def writes_passed {D : Type} : List (write_proc_t D) → Nat → Nat → D → Prop
  | [], _, _, _ => True
  | f :: fs, addr, val, d =>
    (f addr val d).1 ≠ MEM_INTERCEPTED ∧ writes_passed fs addr val (f addr val d).2

/-- A write hook that swallows every write to `0x0300` and counts how often it was called in
the `kbd_cr` register. -/
def guard_write : write_proc_t reginfo_t := fun addr _ reginfo =>
  if addr = 0x0300 then (MEM_INTERCEPTED, { reginfo with kbd_cr := reginfo.kbd_cr + 1 })
  else (MEM_IGNORED, { reginfo with kbd_cr := reginfo.kbd_cr + 1 })

/-- A read hook that answers `0x99` for every read. -/
def late_read : read_proc_t reginfo_t := fun _ reginfo =>
  (MEM_INTERCEPTED, 0x99, { reginfo with dsp_cr := 0xff })

/-- A machine with three write hooks (`hook_write`, `guard_write`, `guard_write`) and two read
hooks (`hook_read`, `late_read`) registered in this order, on the bus of `bank_example`. -/
def hooks_example : system_t reginfo_t :=
  { cpu := ⟨0x20, 0x0400, 0xff, 0, 0, 0, 0, 0⟩
    vm := bank_example
    mmioproc_list :=
      { read_proc := [hook_read, late_read], write_proc := [hook_write, guard_write, guard_write] }
    dev := pia_reset }

/-- The machine of `bank_system` after `mount_rom(0xFF00, 0x100)`. -/
def mounted_example : system_t reginfo_t :=
  { bank_system with vm := mount_rom bank_system.vm 0xFF00 0x100 }

/-- A machine with the peripheral attached, `PC = 0x0400`, a stale `ARG = 0xBEEF`, and the
three bytes `b0 b1 b2` at `0x0400 .. 0x0402`; every other byte is zero. -/
def code_system (b0 b1 b2 : Nat) : system_t reginfo_t :=
  { cpu := ⟨0x20, 0x0400, 0xff, 0, 0xBEEF, 0, 0, 0⟩
    vm :=
      { bytes := fun i =>
          if i = 0x0400 then b0 % 256 else if i = 0x0401 then b1 % 256
          else if i = 0x0402 then b2 % 256 else 0
        cycle := 0, step := 0, quit := 0 }
    mmioproc_list := { read_proc := [hook_read], write_proc := [hook_write] }
    dev := pia_reset }

/-- Function `pia_step(vm)`, as far as the peripheral registers go: when bit 7 of `dsp_data`
is set, `pia_chrout` runs and leaves `dsp_data & 0x7f` in the register.  The screen buffer
and the rendering are not modelled. -/
def pia_step (s : system_t reginfo_t) : system_t reginfo_t :=
  if s.dev.dsp_data &&& 0x80 ≠ 0 then
    { s with dev := { s.dev with dsp_data := (s.dev.dsp_data &&& 0x7f) &&& 0x7f } }
  else s

/-- The opcodes the switch of each handler has a case for (for the handlers that test one
opcode with `!=`, that opcode). -/
def handler_cases : op_proc → List Nat
  | op_proc.asl => [0x0a, 0x06, 0x16, 0x0e, 0x1e]
  | op_proc.dec => [0xc6, 0xd6, 0xce, 0xde]
  | op_proc.inc => [0xe6, 0xf6, 0xee, 0xfe]
  | op_proc.lsr => [0x4a, 0x46, 0x56, 0x4e, 0x5e]
  | op_proc.rol => [0x2a, 0x26, 0x36, 0x2e, 0x3e]
  | op_proc.ror => [0x6a, 0x66, 0x76, 0x6e, 0x7e]
  | op_proc.adc => [0x69, 0x65, 0x75, 0x6d, 0x7d, 0x79, 0x61, 0x71]
  | op_proc.and => [0x29, 0x25, 0x35, 0x2d, 0x3d, 0x39, 0x21, 0x31]
  | op_proc.bit => [0x24, 0x2c]
  | op_proc.bra => [0x10, 0x30, 0x50, 0x70, 0x90, 0xb0, 0xd0, 0xf0]
  | op_proc.brk => [0x00]
  | op_proc.cmp => [0xc9, 0xc5, 0xd5, 0xcd, 0xdd, 0xd9, 0xc1, 0xd1]
  | op_proc.cpx => [0xe0, 0xe4, 0xec]
  | op_proc.cpy => [0xc0, 0xc4, 0xcc]
  | op_proc.eor => [0x49, 0x45, 0x55, 0x4d, 0x5d, 0x59, 0x41, 0x51]
  | op_proc.flg => [0x18, 0x38, 0x58, 0x78, 0xb8, 0xd8, 0xf8]
  | op_proc.jmp => [0x4c, 0x6c]
  | op_proc.jsr => [0x20]
  | op_proc.lda => [0xa9, 0xa5, 0xb5, 0xad, 0xbd, 0xb9, 0xa1, 0xb1]
  | op_proc.ldx => [0xa2, 0xa6, 0xb6, 0xae, 0xbe]
  | op_proc.ldy => [0xa0, 0xa4, 0xb4, 0xac, 0xbc]
  | op_proc.nop => [0xea]
  | op_proc.ora => [0x09, 0x05, 0x15, 0x0d, 0x1d, 0x19, 0x01, 0x11]
  | op_proc.reg => [0xaa, 0x8a, 0xca, 0xe8, 0xa8, 0x98, 0x88, 0xc8]
  | op_proc.rti => [0x40]
  | op_proc.rts => [0x60]
  | op_proc.sbc => [0xe9, 0xe5, 0xf5, 0xed, 0xfd, 0xf9, 0xe1, 0xf1]
  | op_proc.sta => [0x85, 0x95, 0x8d, 0x9d, 0x99, 0x81, 0x91]
  | op_proc.stk => [0x9a, 0xba, 0x48, 0x68, 0x08, 0x28]
  | op_proc.stx => [0x86, 0x96, 0x8e]
  | op_proc.sty => [0x84, 0x94, 0x8c]
  | op_proc.x => []

/-- A peripheral step during which the Escape key arrives: `pia_keyboard` sets
`g_vm->quit = 1` and `pia_step` does its register work. -/
def escape_step (s : system_t reginfo_t) : system_t reginfo_t :=
  let t := pia_step s
  { t with vm := { t.vm with quit := 1 } }


/-- The branch condition as the specification tabulates it, opcode by opcode: BPL `N = 0`,
BMI `N = 1`, BVC `V = 0`, BVS `V = 1`, BCC `C = 0`, BCS `C = 1`, BNE `Z = 0`, BEQ `Z = 1`. -/
def spec_branch_condition (op : Nat) (cpu : cpu_6502_t) : Prop :=
  (op = 0x10 ∧ QUERY_FLAG cpu FLAG_NEGATIVE = 0) ∨ (op = 0x30 ∧ QUERY_FLAG cpu FLAG_NEGATIVE = 1) ∨
  (op = 0x50 ∧ QUERY_FLAG cpu FLAG_OVERFLOW = 0) ∨ (op = 0x70 ∧ QUERY_FLAG cpu FLAG_OVERFLOW = 1) ∨
  (op = 0x90 ∧ QUERY_FLAG cpu FLAG_CARRY = 0) ∨ (op = 0xb0 ∧ QUERY_FLAG cpu FLAG_CARRY = 1) ∨
  (op = 0xd0 ∧ QUERY_FLAG cpu FLAG_ZERO = 0) ∨ (op = 0xf0 ∧ QUERY_FLAG cpu FLAG_ZERO = 1)

instance (op : Nat) (cpu : cpu_6502_t) : Decidable (spec_branch_condition op cpu) := by
  unfold spec_branch_condition
  infer_instance

/-- A branch instruction `op d` at `PC = 0x0400`, fetched, with the given flags byte. -/
def branch_system (flags op d : Nat) : system_t reginfo_t :=
  let s := code_system op d 0
  cpu_6502_fetch_instr { s with cpu := { s.cpu with flags := flags } }


/-- The store `push` makes when no hook intercepts it: the byte lands in `ram` and in `mem`
at `0x0100 + sp`. -/
def stack_write (bytes : Nat → Nat) (sp val : Nat) : Nat → Nat :=
  poke (poke bytes (OFF_RAM + (0x0100 + sp)) val) (OFF_MEM + (0x0100 + sp)) val

/-- No registered hook intercepts a write or a read in the stack page `0x0100..0x01FF`. -/
def stack_unhooked {D : Type} (s : system_t D) : Prop :=
  ∀ a, 0x0100 ≤ a → a ≤ 0x01ff → no_write_intercept s a ∧ no_read_intercept s a

/-- No registered read hook intercepts either byte of the vector at `v`. -/
def vector_unhooked {D : Type} (s : system_t D) (v : Nat) : Prop :=
  no_read_intercept s v ∧ no_read_intercept s (v + 1)

/-- The system `u` in which the closing instruction `op` of a routine entered in `t` is
executed with the stack undisturbed: `op` is in the opcode register, and the stack pointer,
the hooks and the stack page are those of `t`; everything else is free. -/
def stack_undisturbed {D : Type} (t u : system_t D) (op : Nat) : Prop :=
  u.cpu.ir = op ∧ u.cpu.sp = t.cpu.sp ∧ u.mmioproc_list = t.mmioproc_list ∧
  ∀ a, 0x0100 ≤ a → a ≤ 0x01ff → u.vm.mem a = t.vm.mem a


/-- The system `t` once the opcode `op` has been fetched into the opcode register and nothing
else has changed. -/
def with_ir {D : Type} (t : system_t D) (op : Nat) : system_t D :=
  { t with cpu := { t.cpu with ir := op } }

/-- A machine stopped on a BRK at `PC = 0x0400`: flags `0x21` (Reserved, Carry), `SP = 0xff`,
the BRK/IRQ vector pointing to `0x0500`, the NMI vector to `0x0600`, the peripheral
attached. -/
def vector_example : system_t reginfo_t :=
  { cpu := ⟨0x21, 0x0400, 0xff, 0x00, 0, 0x11, 0x22, 0x33⟩
    vm :=
      { bytes := fun i =>
          if i = 0xfffa then 0x00 else if i = 0xfffb then 0x06
          else if i = 0xfffe then 0x00 else if i = 0xffff then 0x05 else 0
        cycle := 0, step := 0, quit := 0 }
    mmioproc_list := { read_proc := [hook_read], write_proc := [hook_write] }
    dev := pia_reset }

/-- A machine about to execute `JSR $1234` fetched at `PC = 0x0400`, with `SP = 0xff` and the
peripheral attached. -/
def jsr_example : system_t reginfo_t :=
  pia_system ⟨0x21, 0x0400, 0xff, 0x20, 0x1234, 0x11, 0x22, 0x33⟩

/-- A machine whose reset vector points to `0x0400`, where an RTI (`0x40`) sits; the rest of
the storage, the stack page included, is zero; the peripheral is attached. -/
def reset_example : system_t reginfo_t :=
  { cpu := ⟨0, 0, 0, 0, 0, 0, 0, 0⟩
    vm :=
      { bytes := fun i =>
          if i = 0xfffc then 0x00 else if i = 0xfffd then 0x04
          else if i = 0x0400 then 0x40 else 0
        cycle := 0, step := 0, quit := 0 }
    mmioproc_list := { read_proc := [hook_read], write_proc := [hook_write] }
    dev := pia_reset }


/-- A machine about to execute ROL A with `A = 0x81` and Carry clear. -/
def rol_example : system_t Unit := blank_system ⟨0x20, 0, 0xff, 0x2a, 0, 0x81, 0, 0⟩

/-- A machine about to execute ROR A with `A = 0x81` and Carry clear. -/
def ror_example : system_t Unit := blank_system ⟨0x20, 0, 0xff, 0x6a, 0, 0x81, 0, 0⟩


/-- The outcome of a compare as the specification words it, for register value `r`,
operand `m`, the register file before (`cpu`) and after (`cpu'`): Carry is 1 iff `r ≥ m`,
Zero is 1 iff `r = m`, Negative is bit 7 of `(r - m) mod 256`; `A`, `X`, `Y`, `SP` and the
flags Overflow, Decimal, Interrupt-disable and Break are as before. -/
def spec_compare (r m : Nat) (cpu cpu' : cpu_6502_t) : Prop :=
  (QUERY_FLAG cpu' FLAG_CARRY = 1 ↔ r ≥ m) ∧
  (QUERY_FLAG cpu' FLAG_ZERO = 1 ↔ r = m) ∧
  (QUERY_FLAG cpu' FLAG_NEGATIVE : Int) = (((r : Int) - (m : Int)) % 256) / 128 ∧
  cpu'.a = cpu.a ∧ cpu'.x = cpu.x ∧ cpu'.y = cpu.y ∧ cpu'.sp = cpu.sp ∧
  ∀ f ∈ [FLAG_OVERFLOW, FLAG_DECIMAL, FLAG_INTERRUPT, FLAG_BREAK],
    QUERY_FLAG cpu' f = QUERY_FLAG cpu f

/-- A machine about to execute `CMP $10` with `A = 0x30` and the byte `0x40` at `0x0010`,
flags Reserved and Overflow set. -/
def cmp_example : system_t Unit :=
  let s := blank_system ⟨0x60, 0, 0xff, 0xc5, 0x10, 0x30, 0, 0⟩
  { s with vm := { s.vm with bytes := fun i => if i = 0x0010 then 0x40 else 0 } }


/-- A machine with a NOP (`0xEA`, length 1) at `PC = 0xD00F`, the byte before the keyboard
data register `0xD010`; the peripheral is attached and reset, `ARG` holds a stale value. -/
def kbd_fetch_example : system_t reginfo_t :=
  { cpu := ⟨0x20, 0xd00f, 0xff, 0, 0xBEEF, 0, 0, 0⟩
    vm := { bytes := fun i => if i = 0xd00f then 0xea else 0, cycle := 0, step := 0, quit := 0 }
    mmioproc_list := { read_proc := [hook_read], write_proc := [hook_write] }
    dev := pia_reset }


/-- Consecutive calls `mmio_reg(p, MMIO_READ)` for the hooks of `ps`, first element first;
`none` once a call has stored past the end of its buffer. -/
def reg_all {α : Type} (l : hook_list_t α) : List α → Option (hook_list_t α)
  | [] => some l
  | p :: ps =>
    match readproc_reg l p with
    | none => none
    | some l' => reg_all l' ps


/-- A machine with operand byte `0xF0` and `X = 0x20` (sum `0x110`), `A = 0x22`, the byte
`0x11` at `0x0010` and the byte `0x22` at `0x0110`; no hooks.  The opcode register holds
CMP $xx,X (`0xD5`). -/
def zp_example : system_t Unit :=
  let s := blank_system ⟨0x20, 0, 0xff, 0xd5, 0xf0, 0x22, 0x20, 0⟩
  { s with
    vm := { s.vm with bytes := fun i => if i = 0x0010 then 0x11 else if i = 0x0110 then 0x22 else 0 } }

/-- A machine about to execute `INC $FFFF,X` (`0xFE`) with `X = 1`: composite byte `0x55` at
`0x0000`, ROM bank byte `0x07` at `rom[0]`; no hooks. -/
def rom_rmw_example : system_t Unit :=
  let s := blank_system ⟨0x20, 0, 0xff, 0xfe, 0xffff, 0, 0x01, 0⟩
  { s with
    vm := { s.vm with bytes := fun i => if i = 0 then 0x55 else if i = OFF_ROM then 0x07 else 0 } }

/-- A machine about to execute `INC $10` (`0xE6`) on a bus that is in sync: the byte `5` at
`0x0010` of the composite and of the RAM bank, zero elsewhere, every map tag RAM; no hooks. -/
def inc_example : system_t Unit :=
  let s := blank_system ⟨0x20, 0, 0xff, 0xe6, 0x10, 0, 0, 0⟩
  { s with
    vm := { s.vm with bytes := fun i => if i = 0x0010 ∨ i = OFF_RAM + 0x0010 then 5 else 0 } }


/-- The 16-bit pointer stored in the zero page at `z mod 256`, low byte first, the high byte
taken from the next zero-page location (wrapping from `0xFF` to `0x00`). -/
def zp_word (vm : vm_t) (z : Nat) : Nat := vm.mem (z % 256) + 256 * vm.mem ((z + 1) % 256)


/-! ## Theorems -/

/-! ### Bit-level facts about the status byte -/

/-- The eight single-bit masks of the status byte. -/
def flag_masks : List Nat := [0x01, 0x02, 0x04, 0x08, 0x10, 0x20, 0x40, 0x80]

theorem mask_ne_zero_iff (f i : Nat) : f &&& 2 ^ i ≠ 0 ↔ f.testBit i = true := by
  rw [Nat.and_two_pow]
  cases h : f.testBit i <;> simp [Nat.pos_iff_ne_zero.mp (Nat.two_pow_pos i)]

theorem mem_flag_masks {m : Nat} (h : m ∈ flag_masks) : ∃ i, i < 8 ∧ m = 2 ^ i := by
  simp only [flag_masks, List.mem_cons, List.mem_singleton, List.not_mem_nil, or_false] at h
  rcases h with h | h | h | h | h | h | h | h
  · exact ⟨0, by omega, by simp [h]⟩
  · exact ⟨1, by omega, by simp [h]⟩
  · exact ⟨2, by omega, by simp [h]⟩
  · exact ⟨3, by omega, by simp [h]⟩
  · exact ⟨4, by omega, by simp [h]⟩
  · exact ⟨5, by omega, by simp [h]⟩
  · exact ⟨6, by omega, by simp [h]⟩
  · exact ⟨7, by omega, by simp [h]⟩

theorem two_pow_inj_lt {i j : Nat} (h : 2 ^ i = 2 ^ j) : i = j :=
  Nat.pow_right_injective (le_refl 2) h

theorem QUERY_FLAG_eq_one_iff (cpu : cpu_6502_t) (m : Nat) :
    QUERY_FLAG cpu m = 1 ↔ cpu.flags &&& m ≠ 0 := by
  unfold QUERY_FLAG; split_ifs with h <;> simp [h]

theorem QUERY_FLAG_eq_zero_iff (cpu : cpu_6502_t) (m : Nat) :
    QUERY_FLAG cpu m = 0 ↔ cpu.flags &&& m = 0 := by
  unfold QUERY_FLAG; split_ifs with h <;> simp_all

theorem QUERY_FLAG_le_one (cpu : cpu_6502_t) (m : Nat) : QUERY_FLAG cpu m ≤ 1 := by
  unfold QUERY_FLAG; split_ifs <;> omega

theorem QUERY_SET (cpu : cpu_6502_t) (m m' : Nat) (hm : m ∈ flag_masks) (hm' : m' ∈ flag_masks) :
    QUERY_FLAG (SET_FLAG cpu m) m' = if m = m' then 1 else QUERY_FLAG cpu m' := by
  obtain ⟨i, _, rfl⟩ := mem_flag_masks hm
  obtain ⟨j, _, rfl⟩ := mem_flag_masks hm'
  by_cases hij : i = j
  · subst hij
    simp [QUERY_FLAG, SET_FLAG, mask_ne_zero_iff]
  · have hne : (2:Nat) ^ i ≠ 2 ^ j := fun h => hij (two_pow_inj_lt h)
    have hji : ¬ j = i := fun h => hij h.symm
    simp [QUERY_FLAG, SET_FLAG, mask_ne_zero_iff, hne, Nat.testBit_two_pow, hij]

theorem QUERY_CLEAR (cpu : cpu_6502_t) (m m' : Nat) (hm : m ∈ flag_masks)
    (hm' : m' ∈ flag_masks) :
    QUERY_FLAG (CLEAR_FLAG cpu m) m' = if m = m' then 0 else QUERY_FLAG cpu m' := by
  obtain ⟨i, hi, rfl⟩ := mem_flag_masks hm
  obtain ⟨j, hj, rfl⟩ := mem_flag_masks hm'
  have hff : (0xff : Nat) = 2 ^ 8 - 1 := by norm_num
  by_cases hij : i = j
  · subst hij
    simp only [QUERY_FLAG, CLEAR_FLAG, mask_ne_zero_iff, hff, Nat.testBit_and, Nat.testBit_xor,
      Nat.testBit_two_pow_sub_one, Nat.testBit_two_pow]
    simp [hi]
  · have hne : (2:Nat) ^ i ≠ 2 ^ j := fun h => hij (two_pow_inj_lt h)
    simp only [QUERY_FLAG, CLEAR_FLAG, mask_ne_zero_iff, hff, Nat.testBit_and, Nat.testBit_xor,
      Nat.testBit_two_pow_sub_one, Nat.testBit_two_pow]
    simp [hj, hij, hne]

theorem bit7_iff (v : Nat) : v &&& 0x80 ≠ 0 ↔ v / 128 % 2 = 1 := by
  have h80 : (0x80 : Nat) = 2 ^ 7 := by norm_num
  rw [h80, mask_ne_zero_iff, Nat.testBit_to_div_mod]
  simp

theorem adc_overflow_bits (a b c : Nat) (ha : a < 256) (hb : b < 256) (hc : c ≤ 1) :
    ((a ^^^ ((a + b + c) % 256)) &&& (b ^^^ ((a + b + c) % 256)) &&& 0x80 ≠ 0) ↔
      (signed8 a + signed8 b + c < -128 ∨ 127 < signed8 a + signed8 b + c) := by
  have h80 : (0x80 : Nat) = 2 ^ 7 := by norm_num
  rw [h80, mask_ne_zero_iff]
  simp only [Nat.testBit_and, Nat.testBit_xor]
  simp only [Nat.testBit_to_div_mod, signed8]
  simp
  split_ifs <;> omega

theorem carry_in_eq (cpu : cpu_6502_t) :
    (if QUERY_FLAG cpu FLAG_CARRY ≠ 0 then 1 else 0) = QUERY_FLAG cpu FLAG_CARRY := by
  unfold QUERY_FLAG; split_ifs <;> simp_all

@[simp] theorem SET_FLAG_regs (cpu : cpu_6502_t) (m : Nat) :
    (SET_FLAG cpu m).a = cpu.a ∧ (SET_FLAG cpu m).x = cpu.x ∧ (SET_FLAG cpu m).y = cpu.y ∧
    (SET_FLAG cpu m).sp = cpu.sp ∧ (SET_FLAG cpu m).pc = cpu.pc ∧ (SET_FLAG cpu m).ir = cpu.ir ∧
    (SET_FLAG cpu m).arg = cpu.arg := by
  simp [SET_FLAG]

@[simp] theorem CLEAR_FLAG_regs (cpu : cpu_6502_t) (m : Nat) :
    (CLEAR_FLAG cpu m).a = cpu.a ∧ (CLEAR_FLAG cpu m).x = cpu.x ∧ (CLEAR_FLAG cpu m).y = cpu.y ∧
    (CLEAR_FLAG cpu m).sp = cpu.sp ∧ (CLEAR_FLAG cpu m).pc = cpu.pc ∧
    (CLEAR_FLAG cpu m).ir = cpu.ir ∧ (CLEAR_FLAG cpu m).arg = cpu.arg := by
  simp [CLEAR_FLAG]

theorem flip_flags_regs (cpu : cpu_6502_t) (v : Nat) :
    (flip_flags cpu v).a = cpu.a ∧ (flip_flags cpu v).x = cpu.x ∧ (flip_flags cpu v).y = cpu.y ∧
    (flip_flags cpu v).sp = cpu.sp ∧ (flip_flags cpu v).pc = cpu.pc ∧
    (flip_flags cpu v).ir = cpu.ir ∧ (flip_flags cpu v).arg = cpu.arg := by
  unfold flip_flags
  simp only
  split_ifs <;> simp [SET_FLAG, CLEAR_FLAG]

theorem QUERY_flip_negative (cpu : cpu_6502_t) (v : Nat) :
    QUERY_FLAG (flip_flags cpu v) FLAG_NEGATIVE = v % 256 / 128 % 2 := by
  unfold flip_flags
  simp only
  have hN : FLAG_NEGATIVE ∈ flag_masks := by decide
  have hZ : FLAG_ZERO ∈ flag_masks := by decide
  have hne : ¬ FLAG_ZERO = FLAG_NEGATIVE := by decide
  have hb := bit7_iff (v % 256)
  by_cases hn : v % 256 &&& 0x80 ≠ 0
  · have h1 : v % 256 / 128 % 2 = 1 := hb.mp hn
    rw [if_pos hn]
    by_cases hz : v % 256 = 0
    · rw [if_pos hz, QUERY_SET _ _ _ hZ hN, if_neg hne, QUERY_SET _ _ _ hN hN, if_pos rfl, h1]
    · rw [if_neg hz, QUERY_CLEAR _ _ _ hZ hN, if_neg hne, QUERY_SET _ _ _ hN hN, if_pos rfl, h1]
  · have h0 : v % 256 / 128 % 2 = 0 := by
      have : ¬ (v % 256 / 128 % 2 = 1) := fun h => hn (hb.mpr h)
      omega
    rw [if_neg hn]
    by_cases hz : v % 256 = 0
    · rw [if_pos hz, QUERY_SET _ _ _ hZ hN, if_neg hne, QUERY_CLEAR _ _ _ hN hN, if_pos rfl, h0]
    · rw [if_neg hz, QUERY_CLEAR _ _ _ hZ hN, if_neg hne, QUERY_CLEAR _ _ _ hN hN, if_pos rfl,
        h0]

theorem QUERY_flip_zero (cpu : cpu_6502_t) (v : Nat) :
    QUERY_FLAG (flip_flags cpu v) FLAG_ZERO = if v % 256 = 0 then 1 else 0 := by
  unfold flip_flags
  simp only
  have hZ : FLAG_ZERO ∈ flag_masks := by decide
  split_ifs with h1 h2 h2 <;>
    simp only [QUERY_SET _ _ _ hZ hZ, QUERY_CLEAR _ _ _ hZ hZ, if_true]

theorem QUERY_flip_other (cpu : cpu_6502_t) (v m : Nat) (hm : m ∈ flag_masks)
    (h1 : m ≠ FLAG_NEGATIVE) (h2 : m ≠ FLAG_ZERO) :
    QUERY_FLAG (flip_flags cpu v) m = QUERY_FLAG cpu m := by
  unfold flip_flags
  simp only
  have hN : FLAG_NEGATIVE ∈ flag_masks := by decide
  have hZ : FLAG_ZERO ∈ flag_masks := by decide
  have h1' : ¬ FLAG_NEGATIVE = m := fun h => h1 h.symm
  have h2' : ¬ FLAG_ZERO = m := fun h => h2 h.symm
  split_ifs <;>
    simp only [QUERY_SET _ _ _ hZ hm, QUERY_CLEAR _ _ _ hZ hm, QUERY_SET _ _ _ hN hm,
      QUERY_CLEAR _ _ _ hN hm, h1', h2', if_false]

theorem QUERY_FLAG_with_a (cpu : cpu_6502_t) (v m : Nat) :
    QUERY_FLAG { cpu with a := v } m = QUERY_FLAG cpu m := rfl

/-! ### Binary addition -/

theorem adc_binary_a (cpu : cpu_6502_t) (b : Nat) :
    (adc_binary cpu b).a = (cpu.a + b % 256 + QUERY_FLAG cpu FLAG_CARRY) % 256 := by
  unfold adc_binary
  simp only [carry_in_eq]

theorem adc_binary_carry (cpu : cpu_6502_t) (b : Nat) (ha : cpu.a < 256) :
    QUERY_FLAG (adc_binary cpu b) FLAG_CARRY =
      if cpu.a + b % 256 + QUERY_FLAG cpu FLAG_CARRY > 255 then 1 else 0 := by
  unfold adc_binary
  simp only [carry_in_eq, QUERY_FLAG_with_a]
  have hC : FLAG_CARRY ∈ flag_masks := by decide
  have hc := QUERY_FLAG_le_one cpu FLAG_CARRY
  have hb : b % 256 < 256 := Nat.mod_lt _ (by norm_num)
  have hmod : (cpu.a + b % 256 + QUERY_FLAG cpu FLAG_CARRY) % 65536 =
      cpu.a + b % 256 + QUERY_FLAG cpu FLAG_CARRY := Nat.mod_eq_of_lt (by omega)
  rw [hmod]
  by_cases h : cpu.a + b % 256 + QUERY_FLAG cpu FLAG_CARRY > 255
  · rw [if_pos h, if_pos h, QUERY_SET _ _ _ hC hC, if_pos rfl]
  · rw [if_neg h, if_neg h, QUERY_CLEAR _ _ _ hC hC, if_pos rfl]

theorem adc_binary_overflow (cpu : cpu_6502_t) (b : Nat) (ha : cpu.a < 256) :
    QUERY_FLAG (adc_binary cpu b) FLAG_OVERFLOW =
      if signed8 cpu.a + signed8 (b % 256) + QUERY_FLAG cpu FLAG_CARRY < -128 ∨
         127 < signed8 cpu.a + signed8 (b % 256) + QUERY_FLAG cpu FLAG_CARRY then 1 else 0 := by
  unfold adc_binary
  simp only [carry_in_eq, QUERY_FLAG_with_a]
  have hC : FLAG_CARRY ∈ flag_masks := by decide
  have hV : FLAG_OVERFLOW ∈ flag_masks := by decide
  have hne : ¬ FLAG_CARRY = FLAG_OVERFLOW := by decide
  have hc := QUERY_FLAG_le_one cpu FLAG_CARRY
  have hb : b % 256 < 256 := Nat.mod_lt _ (by norm_num)
  have key := adc_overflow_bits cpu.a (b % 256) (QUERY_FLAG cpu FLAG_CARRY) ha hb hc
  have hq : ∀ c1 : cpu_6502_t,
      QUERY_FLAG (if (cpu.a + b % 256 + QUERY_FLAG cpu FLAG_CARRY) % 65536 > 255
        then SET_FLAG c1 FLAG_CARRY else CLEAR_FLAG c1 FLAG_CARRY) FLAG_OVERFLOW =
      QUERY_FLAG c1 FLAG_OVERFLOW := by
    intro c1
    split_ifs
    · rw [QUERY_SET _ _ _ hC hV, if_neg hne]
    · rw [QUERY_CLEAR _ _ _ hC hV, if_neg hne]
  rw [hq]
  by_cases h : (cpu.a ^^^ (cpu.a + b % 256 + QUERY_FLAG cpu FLAG_CARRY) % 256) &&&
      (b % 256 ^^^ (cpu.a + b % 256 + QUERY_FLAG cpu FLAG_CARRY) % 256) &&& 0x80 ≠ 0
  · rw [if_pos h, if_pos (key.mp h), QUERY_SET _ _ _ hV hV, if_pos rfl]
  · rw [if_neg h, if_neg (fun h' => h (key.mpr h')), QUERY_CLEAR _ _ _ hV hV, if_pos rfl]

theorem adc_binary_regs (cpu : cpu_6502_t) (b : Nat) :
    (adc_binary cpu b).x = cpu.x ∧ (adc_binary cpu b).y = cpu.y ∧
    (adc_binary cpu b).sp = cpu.sp ∧ (adc_binary cpu b).pc = cpu.pc := by
  unfold adc_binary
  simp only
  split_ifs <;> simp [SET_FLAG, CLEAR_FLAG]

theorem adc_immediate_binary {D : Type} (s : system_t D) (cyc : Int) (hir : s.cpu.ir = 0x69)
    (hdec : QUERY_FLAG s.cpu FLAG_DECIMAL = 0) :
    adc s cyc =
      ⟨RET_OK, 2,
        { s with
          cpu := flip_flags (adc_binary s.cpu s.cpu.arg8) (adc_binary s.cpu s.cpu.arg8).a }⟩ := by
  simp [adc, adc_operand, hir, hdec]

/-! ### Binary subtraction -/

theorem borrow_in_eq (cpu : cpu_6502_t) :
    (if QUERY_FLAG cpu FLAG_CARRY ≠ 0 then (0 : Int) else 1) =
      1 - (QUERY_FLAG cpu FLAG_CARRY : Int) := by
  unfold QUERY_FLAG; split_ifs <;> simp_all

theorem sbc_binary_a (cpu : cpu_6502_t) (b : Nat) :
    ((sbc_binary cpu b).a : Int) =
      ((cpu.a : Int) - ((b % 256 : Nat) : Int) - (1 - (QUERY_FLAG cpu FLAG_CARRY : Int))) % 256 := by
  unfold sbc_binary
  simp only [borrow_in_eq]
  omega

theorem sbc_binary_carry (cpu : cpu_6502_t) (b : Nat) (ha : cpu.a < 256) :
    QUERY_FLAG (sbc_binary cpu b) FLAG_CARRY =
      if b % 256 + (1 - QUERY_FLAG cpu FLAG_CARRY) ≤ cpu.a then 1 else 0 := by
  unfold sbc_binary
  simp only [borrow_in_eq, QUERY_FLAG_with_a]
  have hC : FLAG_CARRY ∈ flag_masks := by decide
  have hc := QUERY_FLAG_le_one cpu FLAG_CARRY
  have hb : b % 256 < 256 := Nat.mod_lt _ (by norm_num)
  by_cases h : b % 256 + (1 - QUERY_FLAG cpu FLAG_CARRY) ≤ cpu.a
  · have h16 : ¬ ((((cpu.a : Int) - ((b % 256 : Nat) : Int) -
        (1 - (QUERY_FLAG cpu FLAG_CARRY : Int))) % 65536).toNat > 0xff) := by omega
    rw [if_neg h16, if_pos h, QUERY_SET _ _ _ hC hC, if_pos rfl]
  · have h16 : (((cpu.a : Int) - ((b % 256 : Nat) : Int) -
        (1 - (QUERY_FLAG cpu FLAG_CARRY : Int))) % 65536).toNat > 0xff := by omega
    rw [if_pos h16, if_neg h, QUERY_CLEAR _ _ _ hC hC, if_pos rfl]

theorem sbc_immediate_binary {D : Type} (s : system_t D) (cyc : Int) (hir : s.cpu.ir = 0xe9)
    (hdec : QUERY_FLAG s.cpu FLAG_DECIMAL = 0) :
    sbc s cyc =
      ⟨RET_OK, 2,
        { s with
          cpu := flip_flags (sbc_binary s.cpu s.cpu.arg8) (sbc_binary s.cpu s.cpu.arg8).a }⟩ := by
  simp [sbc, sbc_operand, hir, hdec]

theorem sbc_binary_a_lt (cpu : cpu_6502_t) (b : Nat) : (sbc_binary cpu b).a < 256 := by
  unfold sbc_binary
  simp only
  omega

/-! ### Decimal arithmetic -/

theorem nibble_hi (v : Nat) : v >>> 4 = v / 16 := by
  rw [Nat.shiftRight_eq_div_pow]

theorem nibble_lo (v : Nat) : v &&& 0x0f = v % 16 := by
  have h : (0x0f : Nat) = 2 ^ 4 - 1 := by norm_num
  rw [h, Nat.and_pow_two_sub_one_eq_mod]

theorem bcd_pack : ∀ h, h < 10 → ∀ l, l < 10 → (h <<< 4) ||| l = h * 16 + l := by decide

theorem bcd_pack_enc (n : Nat) (h : n < 100) :
    ((((n % 100) / 10) <<< 4) ||| (n % 10)) % 256 = bcd_enc n := by
  rw [bcd_pack _ (by omega) _ (by omega)]
  unfold bcd_enc
  omega

theorem bcd_enc_valid (n : Nat) (h : n < 100) : bcd_valid (bcd_enc n) := by
  unfold bcd_valid bcd_enc
  omega

theorem bcd_dec_lt (v : Nat) (h : bcd_valid v) : bcd_dec v < 100 := by
  unfold bcd_valid at h
  unfold bcd_dec
  omega

theorem bcd_dec_enc (n : Nat) : bcd_dec (bcd_enc n) = n := by
  unfold bcd_dec bcd_enc
  omega

theorem adc_decimal_a (cpu : cpu_6502_t) (b : Nat) :
    (adc_decimal cpu b).a =
      bcd_enc ((bcd_dec cpu.a + bcd_dec (b % 256) + QUERY_FLAG cpu FLAG_CARRY) % 100) := by
  unfold adc_decimal
  simp only [carry_in_eq, nibble_hi, nibble_lo]
  have h := bcd_pack_enc ((bcd_dec cpu.a + bcd_dec (b % 256) + QUERY_FLAG cpu FLAG_CARRY) % 100)
    (Nat.mod_lt _ (by norm_num))
  unfold bcd_dec at h ⊢
  show (((cpu.a / 16 * 10 + cpu.a % 16 + (b % 256 / 16 * 10 + b % 256 % 16) +
    QUERY_FLAG cpu FLAG_CARRY) % 100 / 10) <<< 4 |||
    (cpu.a / 16 * 10 + cpu.a % 16 + (b % 256 / 16 * 10 + b % 256 % 16) +
    QUERY_FLAG cpu FLAG_CARRY) % 10) % 256 = _
  rw [← h, Nat.mod_mod, Nat.mod_mod_of_dvd _ (by norm_num : 10 ∣ 100)]

theorem adc_decimal_carry (cpu : cpu_6502_t) (b : Nat) :
    QUERY_FLAG (adc_decimal cpu b) FLAG_CARRY =
      if bcd_dec cpu.a + bcd_dec (b % 256) + QUERY_FLAG cpu FLAG_CARRY > 99 then 1 else 0 := by
  unfold adc_decimal
  simp only [carry_in_eq, nibble_hi, nibble_lo, QUERY_FLAG_with_a]
  have hC : FLAG_CARRY ∈ flag_masks := by decide
  unfold bcd_dec
  split_ifs with h
  · rw [QUERY_SET _ _ _ hC hC, if_pos rfl]
  · rw [QUERY_CLEAR _ _ _ hC hC, if_pos rfl]

theorem adc_immediate_decimal {D : Type} (s : system_t D) (cyc : Int) (hir : s.cpu.ir = 0x69)
    (hdec : QUERY_FLAG s.cpu FLAG_DECIMAL = 1) :
    adc s cyc =
      ⟨RET_OK, 2,
        { s with
          cpu := flip_flags (adc_decimal s.cpu s.cpu.arg8) (adc_decimal s.cpu s.cpu.arg8).a }⟩ := by
  simp [adc, adc_operand, hir, hdec]

theorem sbc_decimal_digits (r : Int) (h0 : 0 ≤ r) :
    (Int.tdiv (Int.tmod r 100) 10).toNat = r.toNat % 100 / 10 ∧
    (Int.tmod r 10).toNat = r.toNat % 10 := by
  rw [Int.tmod_eq_emod h0 (by norm_num), Int.tmod_eq_emod h0 (by norm_num),
    Int.tdiv_eq_ediv (Int.emod_nonneg _ (by norm_num)) (by norm_num)]
  omega

theorem sbc_decimal_a (cpu : cpu_6502_t) (b : Nat) (hA : bcd_valid cpu.a)
    (hB : bcd_valid (b % 256)) :
    (sbc_decimal cpu b).a =
      bcd_enc (if (bcd_dec cpu.a : Int) - bcd_dec (b % 256) -
          (1 - (QUERY_FLAG cpu FLAG_CARRY : Int)) < 0
        then ((bcd_dec cpu.a : Int) - bcd_dec (b % 256) -
          (1 - (QUERY_FLAG cpu FLAG_CARRY : Int)) + 100).toNat
        else ((bcd_dec cpu.a : Int) - bcd_dec (b % 256) -
          (1 - (QUERY_FLAG cpu FLAG_CARRY : Int))).toNat) := by
  have hc := QUERY_FLAG_le_one cpu FLAG_CARRY
  have h1 := bcd_dec_lt _ hA
  have h2 := bcd_dec_lt _ hB
  unfold sbc_decimal
  simp only [borrow_in_eq, nibble_hi, nibble_lo]
  unfold bcd_dec at h1 h2 ⊢
  by_cases h : ((cpu.a / 16 * 10 + cpu.a % 16 : Nat) : Int) -
      ((b % 256 / 16 * 10 + b % 256 % 16 : Nat) : Int) -
      (1 - (QUERY_FLAG cpu FLAG_CARRY : Int)) < 0
  · simp only [if_pos h]
    obtain ⟨e1, e2⟩ := sbc_decimal_digits (((cpu.a / 16 * 10 + cpu.a % 16 : Nat) : Int) -
      ((b % 256 / 16 * 10 + b % 256 % 16 : Nat) : Int) -
      (1 - (QUERY_FLAG cpu FLAG_CARRY : Int)) + 100) (by omega)
    show ((Int.tdiv (Int.tmod _ 100) 10).toNat <<< 4 ||| (Int.tmod _ 10).toNat) % 256 = _
    rw [e1, e2]
    exact bcd_pack_enc _ (by omega)
  · simp only [if_neg h]
    obtain ⟨e1, e2⟩ := sbc_decimal_digits (((cpu.a / 16 * 10 + cpu.a % 16 : Nat) : Int) -
      ((b % 256 / 16 * 10 + b % 256 % 16 : Nat) : Int) -
      (1 - (QUERY_FLAG cpu FLAG_CARRY : Int))) (by omega)
    show ((Int.tdiv (Int.tmod _ 100) 10).toNat <<< 4 ||| (Int.tmod _ 10).toNat) % 256 = _
    rw [e1, e2]
    exact bcd_pack_enc _ (by omega)

theorem sbc_decimal_carry (cpu : cpu_6502_t) (b : Nat) :
    QUERY_FLAG (sbc_decimal cpu b) FLAG_CARRY =
      if (bcd_dec cpu.a : Int) - bcd_dec (b % 256) -
          (1 - (QUERY_FLAG cpu FLAG_CARRY : Int)) < 0 then 0 else 1 := by
  unfold sbc_decimal
  simp only [borrow_in_eq, nibble_hi, nibble_lo, QUERY_FLAG_with_a]
  have hC : FLAG_CARRY ∈ flag_masks := by decide
  unfold bcd_dec
  split_ifs with h
  · rw [QUERY_CLEAR _ _ _ hC hC, if_pos rfl]
  · rw [QUERY_SET _ _ _ hC hC, if_pos rfl]

theorem sbc_immediate_decimal {D : Type} (s : system_t D) (cyc : Int) (hir : s.cpu.ir = 0xe9)
    (hdec : QUERY_FLAG s.cpu FLAG_DECIMAL = 1) :
    sbc s cyc =
      ⟨RET_OK, 2,
        { s with
          cpu := flip_flags (sbc_decimal s.cpu s.cpu.arg8) (sbc_decimal s.cpu s.cpu.arg8).a }⟩ := by
  simp [sbc, sbc_operand, hir, hdec]

/-! ### The bus without interception -/

theorem write_hooks_no_intercept {D : Type} (hs : List (write_proc_t D)) (addr val : Nat) (d : D)
    (h : ∀ f ∈ hs, ∀ (v : Nat) (e : D), (f addr v e).1 ≠ MEM_INTERCEPTED) :
    (write_hooks hs addr val d).1 = false := by
  induction hs generalizing d with
  | nil => rfl
  | cons f fs ih =>
    have hf := h f (List.mem_cons_self _ _) val d
    simp only [write_hooks, if_neg hf]
    exact ih _ (fun g hg => h g (List.mem_cons_of_mem _ hg))

theorem read_hooks_no_intercept {D : Type} (hs : List (read_proc_t D)) (addr : Nat) (d : D)
    (h : ∀ f ∈ hs, ∀ (e : D), (f addr e).1 ≠ MEM_INTERCEPTED) :
    (read_hooks hs addr d).1 = none := by
  induction hs generalizing d with
  | nil => rfl
  | cons f fs ih =>
    have hf := h f (List.mem_cons_self _ _) d
    simp only [read_hooks, if_neg hf]
    exact ih _ (fun g hg => h g (List.mem_cons_of_mem _ hg))

theorem write_mem_cpu {D : Type} (s : system_t D) (addr val : Nat) :
    (write_mem s addr val).cpu = s.cpu ∧
    (write_mem s addr val).mmioproc_list = s.mmioproc_list := by
  unfold write_mem
  simp only
  split_ifs <;> exact ⟨rfl, rfl⟩

theorem write_mem_bytes {D : Type} (s : system_t D) (addr val : Nat)
    (h : no_write_intercept s (addr % 65536)) :
    (write_mem s addr val).vm.bytes =
      poke (poke s.vm.bytes (OFF_RAM + addr % 65536) (val % 256)) (OFF_MEM + addr % 65536)
        (val % 256) := by
  unfold write_mem
  simp only
  rw [write_hooks_no_intercept _ _ _ _ h]
  simp

theorem read_mem_cpu {D : Type} (s : system_t D) (addr : Nat) :
    (read_mem s addr).2.cpu = s.cpu ∧ (read_mem s addr).2.vm = s.vm ∧
    (read_mem s addr).2.mmioproc_list = s.mmioproc_list := by
  unfold read_mem
  simp only
  split <;> exact ⟨rfl, rfl, rfl⟩

theorem read_mem_value {D : Type} (s : system_t D) (addr : Nat)
    (h : no_read_intercept s (addr % 65536)) :
    (read_mem s addr).1 = s.vm.mem (addr % 65536) % 256 := by
  unfold read_mem
  simp only
  rw [read_hooks_no_intercept _ _ _ h]

theorem poke_same (bytes : Nat → Nat) (off val : Nat) : poke bytes off val off = val % 256 := by
  simp [poke]

theorem poke_other (bytes : Nat → Nat) (off val i : Nat) (h : i ≠ off) :
    poke bytes off val i = bytes i := by
  simp [poke, h]

/-! ### The stack -/

theorem push_spec {D : Type} (s : system_t D) (v : Nat) (hsp : s.cpu.sp < 256)
    (hw : no_write_intercept s (0x0100 + s.cpu.sp)) :
    (push s v).cpu = { s.cpu with sp := (s.cpu.sp + 255) % 256 } ∧
    (push s v).mmioproc_list = s.mmioproc_list ∧
    (push s v).vm.bytes =
      poke (poke s.vm.bytes (OFF_RAM + (0x0100 + s.cpu.sp)) (v % 256))
        (OFF_MEM + (0x0100 + s.cpu.sp)) (v % 256) := by
  have haddr : (s.cpu.sp + 0x0100) % 65536 = 0x0100 + s.cpu.sp := by omega
  have hw' : no_write_intercept s ((s.cpu.sp + 0x0100) % 65536) := by rw [haddr]; exact hw
  have hb := write_mem_bytes s (s.cpu.sp + 0x0100) v hw'
  rw [haddr] at hb
  obtain ⟨hc, hm⟩ := write_mem_cpu s (s.cpu.sp + 0x0100) v
  unfold push
  dsimp only
  rw [hc]
  exact ⟨rfl, hm, hb⟩

theorem push_sp {D : Type} (s : system_t D) (v : Nat) :
    (push s v).cpu.sp = (s.cpu.sp + 255) % 256 := by
  unfold push
  simp only [(write_mem_cpu _ _ _).1]

theorem pull_spec {D : Type} (s : system_t D)
    (hr : no_read_intercept s (0x0100 + (s.cpu.sp + 1) % 256)) :
    (pull s).1 = s.vm.mem (0x0100 + (s.cpu.sp + 1) % 256) % 256 ∧
    (pull s).2.cpu = { s.cpu with sp := (s.cpu.sp + 1) % 256 } ∧
    (pull s).2.vm = s.vm ∧ (pull s).2.mmioproc_list = s.mmioproc_list := by
  have haddr : ((s.cpu.sp + 1) % 256 + 0x100) % 65536 = 0x0100 + (s.cpu.sp + 1) % 256 := by omega
  unfold pull
  simp only
  obtain ⟨h1, h2, h3⟩ := read_mem_cpu
    ({ s with cpu := { s.cpu with sp := (s.cpu.sp + 1) % 256 } } : system_t D)
    ((s.cpu.sp + 1) % 256 + 0x100)
  refine ⟨?_, h1, h2, h3⟩
  rw [read_mem_value _ _ (by rw [haddr]; exact hr), haddr]

theorem pull_of_push {D : Type} (s t : system_t D) (v : Nat) (hsp : s.cpu.sp < 256)
    (hv : v < 256) (hw : no_write_intercept s (0x0100 + s.cpu.sp))
    (hr : no_read_intercept s (0x0100 + s.cpu.sp))
    (ht_sp : t.cpu.sp = (push s v).cpu.sp) (ht_vm : t.vm = (push s v).vm)
    (ht_hooks : t.mmioproc_list = (push s v).mmioproc_list) :
    (pull t).1 = v ∧ (pull t).2.cpu = { t.cpu with sp := s.cpu.sp } := by
  obtain ⟨hc, hm, hb⟩ := push_spec s v hsp hw
  have hsp' : (t.cpu.sp + 1) % 256 = s.cpu.sp := by rw [ht_sp, hc]; simp only; omega
  have hr' : no_read_intercept t (0x0100 + (t.cpu.sp + 1) % 256) := by
    rw [hsp']
    unfold no_read_intercept
    rw [ht_hooks, hm]
    exact hr
  obtain ⟨p1, p2, _, _⟩ := pull_spec t hr'
  refine ⟨?_, ?_⟩
  · rw [p1, hsp', ht_vm]
    unfold vm_t.mem
    rw [hb, poke_same]
    omega
  · rw [p2, hsp']

theorem stk_pha {D : Type} (s : system_t D) (cyc : Int) (hir : s.cpu.ir = 0x48) :
    stk s cyc = ⟨RET_OK, 3, push s s.cpu.a⟩ := by
  simp [stk, hir]

theorem stk_pla {D : Type} (s : system_t D) (cyc : Int) (hir : s.cpu.ir = 0x68) :
    stk s cyc =
      ⟨RET_OK, 4,
        { (pull s).2 with
          cpu := flip_flags { (pull s).2.cpu with a := (pull s).1 } (pull s).1 }⟩ := by
  simp [stk, hir]

theorem push_list_sp {D : Type} (vs : List Nat) (s : system_t D) :
    (push_list s vs).cpu.sp = (s.cpu.sp % 256 + 255 * vs.length) % 256 ∨
    (vs = [] ∧ (push_list s vs).cpu.sp = s.cpu.sp) := by
  induction vs generalizing s with
  | nil => exact Or.inr ⟨rfl, rfl⟩
  | cons v vs ih =>
    left
    have hstep : push_list s (v :: vs) = push_list (push s v) vs := rfl
    rw [hstep]
    rcases ih (push s v) with h | ⟨hnil, h⟩
    · rw [h, push_sp, List.length_cons]
      omega
    · rw [h, push_sp, hnil, List.length_cons, List.length_nil]
      omega

theorem push_list_sp_of_lt {D : Type} (vs : List Nat) (s : system_t D) (h : s.cpu.sp < 256) :
    (push_list s vs).cpu.sp = (s.cpu.sp + 255 * vs.length) % 256 := by
  rcases push_list_sp vs s with h1 | ⟨hnil, h1⟩
  · rw [h1]
    omega
  · rw [h1, hnil, List.length_nil]
    omega

/-! ### Pointer reads -/

theorem and_ff (a : Nat) : a &&& 0xff = a % 256 := by
  have h : (0xff : Nat) = 2 ^ 8 - 1 := by norm_num
  rw [h, Nat.and_pow_two_sub_one_eq_mod]

theorem and_ff00 (a : Nat) : a &&& 0xff00 = a / 256 % 256 * 256 := by
  have h : (0xff00 : Nat) = (2 ^ 8 - 1) <<< 8 := by decide
  have h2 : a / 256 % 256 * 256 = ((a >>> 8) % 2 ^ 8) <<< 8 := by
    rw [Nat.shiftLeft_eq, Nat.shiftRight_eq_div_pow]; norm_num
  rw [h, h2]
  apply Nat.eq_of_testBit_eq
  intro i
  simp only [Nat.testBit_and, Nat.testBit_shiftLeft, Nat.testBit_two_pow_sub_one,
    Nat.testBit_mod_two_pow, Nat.testBit_shiftRight]
  by_cases hi : i ≥ 8
  · have : 8 + (i - 8) = i := by omega
    simp [hi, this, Bool.and_comm]
  · simp [hi]

theorem word_lt (lo hi : Nat) (h1 : lo < 256) (h2 : hi < 256) : (lo ||| (hi <<< 8)) < 65536 := by
  have : hi <<< 8 < 2 ^ 16 := by rw [Nat.shiftLeft_eq]; omega
  exact Nat.or_lt_two_pow (by omega) this

theorem read_ptr_wrap_value {D : Type} (s : system_t D) (addr : Nat) (haddr : addr < 65536)
    (hvm : s.vm.wf) (hr1 : no_read_intercept s addr)
    (hr2 : no_read_intercept s ((addr &&& 0xff00) + ((addr + 1) &&& 0xff))) :
    (read_ptr_wrap s addr).1 =
      s.vm.mem addr ||| (s.vm.mem ((addr &&& 0xff00) + ((addr + 1) &&& 0xff)) <<< 8) ∧
    (read_ptr_wrap s addr).2.cpu = s.cpu := by
  have ha : addr % 65536 = addr := Nat.mod_eq_of_lt haddr
  have hh : ((addr &&& 0xff00) + ((addr + 1) &&& 0xff)) % 65536 =
      (addr &&& 0xff00) + ((addr + 1) &&& 0xff) := by
    rw [and_ff00, and_ff]; omega
  obtain ⟨c1, v1, m1⟩ := read_mem_cpu s addr
  have hr2' : no_read_intercept (read_mem s addr).2
      (((addr &&& 0xff00) + ((addr + 1) &&& 0xff)) % 65536) := by
    unfold no_read_intercept
    rw [m1, hh]
    exact hr2
  obtain ⟨c2, _, _⟩ := read_mem_cpu (read_mem s addr).2 ((addr &&& 0xff00) + ((addr + 1) &&& 0xff))
  have e1 := read_mem_value s addr (by rw [ha]; exact hr1)
  have e2 := read_mem_value (read_mem s addr).2 ((addr &&& 0xff00) + ((addr + 1) &&& 0xff)) hr2'
  rw [ha] at e1
  rw [hh, v1] at e2
  have b1 : s.vm.mem addr < 256 := hvm _
  have b2 : s.vm.mem ((addr &&& 0xff00) + ((addr + 1) &&& 0xff)) < 256 := hvm _
  rw [Nat.mod_eq_of_lt b1] at e1
  rw [Nat.mod_eq_of_lt b2] at e2
  unfold read_ptr_wrap
  simp only [ha, hh]
  rw [e1, e2, c2, c1, Nat.mod_eq_of_lt (word_lt _ _ b1 b2)]
  exact ⟨rfl, rfl⟩

theorem jmp_indirect {D : Type} (s : system_t D) (cyc : Int) (hir : s.cpu.ir = 0x6c) :
    jmp s cyc =
      ⟨RET_JUMP, 5,
        { (read_ptr_wrap s s.cpu.arg).2 with
          cpu := { (read_ptr_wrap s s.cpu.arg).2.cpu with pc := (read_ptr_wrap s s.cpu.arg).1 } }⟩ := by
  simp [jmp, hir]

/-! ### Mounting and unmounting ROM -/

theorem mount_rom_bytes (vm : vm_t) (addr size i : Nat) (h : addr + size ≤ 65536) :
    (mount_rom vm addr size).bytes i =
      if OFF_MAP ≤ i ∧ i < OFF_MAP + size then LOC_ROM
      else if addr ≤ i ∧ i < addr + size then vm.bytes (OFF_ROM + i)
      else vm.bytes i := by
  have ha : addr % 65536 = addr ∨ size = 0 := by omega
  unfold mount_rom memset memcpy OFF_MAP OFF_MEM OFF_ROM LOC_ROM
  simp only
  rcases ha with ha | ha
  · rw [ha]
    split_ifs <;> first | rfl | omega | (congr 1; omega)
  · subst ha
    split_ifs <;> first | rfl | omega

theorem umount_rom_bytes (vm : vm_t) (addr size i : Nat) (h : addr + size ≤ 65536) :
    (umount_rom vm addr size).bytes i =
      if OFF_MAP ≤ i ∧ i < OFF_MAP + size then LOC_RAM
      else if addr ≤ i ∧ i < addr + size then vm.bytes (OFF_RAM + i)
      else vm.bytes i := by
  have ha : addr % 65536 = addr ∨ size = 0 := by omega
  unfold umount_rom memset memcpy OFF_MAP OFF_MEM OFF_RAM LOC_RAM
  simp only
  rcases ha with ha | ha
  · rw [ha]
    split_ifs <;> first | rfl | omega | (congr 1; omega)
  · subst ha
    split_ifs <;> first | rfl | omega

theorem mount_rom_mem (vm : vm_t) (addr size a : Nat) (h : addr + size ≤ 65536)
    (ha : a < 65536) :
    (mount_rom vm addr size).mem a =
      if addr ≤ a ∧ a < addr + size then vm.rom a else vm.mem a := by
  unfold vm_t.mem vm_t.rom
  rw [mount_rom_bytes _ _ _ _ h]
  unfold OFF_MAP OFF_MEM OFF_ROM
  simp only [Nat.zero_add]
  rw [if_neg (by omega)]

theorem mount_rom_banks (vm : vm_t) (addr size a : Nat) (h : addr + size ≤ 65536)
    (ha : a < 65536) :
    (mount_rom vm addr size).rom a = vm.rom a ∧ (mount_rom vm addr size).ram a = vm.ram a := by
  unfold vm_t.rom vm_t.ram
  rw [mount_rom_bytes _ _ _ _ h, mount_rom_bytes _ _ _ _ h]
  unfold OFF_MAP OFF_RAM OFF_ROM
  rw [if_neg (by omega), if_neg (by omega), if_neg (by omega), if_neg (by omega)]
  exact ⟨rfl, rfl⟩

theorem umount_rom_mem (vm : vm_t) (addr size a : Nat) (h : addr + size ≤ 65536)
    (ha : a < 65536) :
    (umount_rom vm addr size).mem a =
      if addr ≤ a ∧ a < addr + size then vm.ram a else vm.mem a := by
  unfold vm_t.mem vm_t.ram
  rw [umount_rom_bytes _ _ _ _ h]
  unfold OFF_MAP OFF_MEM OFF_RAM
  simp only [Nat.zero_add]
  rw [if_neg (by omega)]

theorem umount_rom_banks (vm : vm_t) (addr size a : Nat) (h : addr + size ≤ 65536)
    (ha : a < 65536) :
    (umount_rom vm addr size).rom a = vm.rom a ∧
    (umount_rom vm addr size).ram a = vm.ram a := by
  unfold vm_t.rom vm_t.ram
  rw [umount_rom_bytes _ _ _ _ h, umount_rom_bytes _ _ _ _ h]
  unfold OFF_MAP OFF_RAM OFF_ROM
  rw [if_neg (by omega), if_neg (by omega), if_neg (by omega), if_neg (by omega)]
  exact ⟨rfl, rfl⟩

theorem mount_rom_map (vm : vm_t) (addr size a : Nat) (h : addr + size ≤ 65536) :
    (mount_rom vm addr size).mem_map a = if a < size then LOC_ROM else vm.mem_map a := by
  unfold vm_t.mem_map
  rw [mount_rom_bytes _ _ _ _ h]
  unfold OFF_MAP
  by_cases ha : a < size
  · rw [if_pos (by omega), if_pos ha]
  · rw [if_neg (by omega), if_neg (by omega), if_neg ha]

theorem umount_rom_map (vm : vm_t) (addr size a : Nat) (h : addr + size ≤ 65536) :
    (umount_rom vm addr size).mem_map a = if a < size then LOC_RAM else vm.mem_map a := by
  unfold vm_t.mem_map
  rw [umount_rom_bytes _ _ _ _ h]
  unfold OFF_MAP
  by_cases ha : a < size
  · rw [if_pos (by omega), if_pos ha]
  · rw [if_neg (by omega), if_neg (by omega), if_neg ha]

theorem bank_example_wf : bank_example.wf := by
  intro i
  simp only [bank_example]
  split_ifs <;> omega

theorem pia_hook_read_ignores (a : Nat) (ha : a < 0xd010 ∨ 0xd013 < a) (d : reginfo_t) :
    (hook_read a d).1 ≠ MEM_INTERCEPTED := by
  have h1 : a ≠ KBD_DATA := by unfold KBD_DATA; omega
  have h2 : a ≠ KBD_CR := by unfold KBD_CR; omega
  have h3 : a ≠ DSP_DATA := by unfold DSP_DATA; omega
  have h4 : a ≠ DSP_CR := by unfold DSP_CR; omega
  simp [hook_read, h1, h2, h3, h4, MEM_IGNORED, MEM_INTERCEPTED]

theorem pia_hook_write_passes (a v : Nat) (d : reginfo_t) :
    (hook_write a v d).1 ≠ MEM_INTERCEPTED := by
  unfold hook_write
  split_ifs <;> simp [MEM_IGNORED, MEM_USED, MEM_INTERCEPTED]

theorem bank_system_no_read_intercept (a : Nat) (ha : a < 0xd010 ∨ 0xd013 < a) :
    no_read_intercept bank_system a := by
  intro h hh d
  simp only [bank_system, List.mem_singleton] at hh
  subst hh
  exact pia_hook_read_ignores a ha d

theorem bank_system_no_write_intercept (a : Nat) : no_write_intercept bank_system a := by
  intro h hh v d
  simp only [bank_system, List.mem_singleton] at hh
  subst hh
  exact pia_hook_write_passes a v d

/-! ### Hook order -/

theorem read_hooks_split {D : Type} (pre post : List (read_proc_t D)) (addr : Nat) (d : D)
    (h : reads_ignored pre addr d) :
    read_hooks (pre ++ post) addr d = read_hooks post addr (dev_after_reads pre addr d) := by
  induction pre generalizing d with
  | nil => rfl
  | cons f fs ih =>
    obtain ⟨h1, h2⟩ := h
    simp only [List.cons_append, read_hooks, if_neg h1, dev_after_reads]
    exact ih _ h2

theorem write_hooks_split {D : Type} (pre post : List (write_proc_t D)) (addr val : Nat) (d : D)
    (h : writes_passed pre addr val d) :
    write_hooks (pre ++ post) addr val d =
      write_hooks post addr val (dev_after_writes pre addr val d) := by
  induction pre generalizing d with
  | nil => rfl
  | cons f fs ih =>
    obtain ⟨h1, h2⟩ := h
    simp only [List.cons_append, write_hooks, if_neg h1, dev_after_writes]
    exact ih _ h2

theorem read_mem_of_hooks {D : Type} (s : system_t D) (addr : Nat) (r : Option Nat) (d : D)
    (h : read_hooks s.mmioproc_list.read_proc (addr % 65536) s.dev = (r, d)) :
    (read_mem s addr).1 = r.getD (s.vm.mem (addr % 65536) % 256) ∧
    (read_mem s addr).2.dev = d := by
  unfold read_mem
  simp only
  rw [h]
  cases r <;> exact ⟨rfl, rfl⟩

theorem write_mem_of_hooks {D : Type} (s : system_t D) (addr val : Nat) (b : Bool) (d : D)
    (h : write_hooks s.mmioproc_list.write_proc (addr % 65536) (val % 256) s.dev = (b, d)) :
    (write_mem s addr val).dev = d ∧
    (write_mem s addr val).vm.bytes =
      if b then s.vm.bytes
      else poke (poke s.vm.bytes (OFF_RAM + addr % 65536) (val % 256)) (OFF_MEM + addr % 65536)
        (val % 256) := by
  unfold write_mem
  simp only
  rw [h]
  cases b <;> exact ⟨rfl, rfl⟩

theorem bank_ram_mem (bytes : Nat → Nat) (a v : Nat) :
    poke (poke bytes (OFF_RAM + a) v) (OFF_MEM + a) v (OFF_RAM + a) = v % 256 ∧
    poke (poke bytes (OFF_RAM + a) v) (OFF_MEM + a) v (OFF_MEM + a) = v % 256 := by
  unfold poke OFF_RAM OFF_MEM
  constructor
  · rw [if_neg (by omega), if_pos rfl]
  · rw [if_pos rfl]

/-! ### What the bus and the flag helpers leave alone in the register file -/

@[simp] theorem read_mem_snd_cpu {D : Type} (s : system_t D) (addr : Nat) :
    (read_mem s addr).2.cpu = s.cpu := (read_mem_cpu s addr).1

@[simp] theorem read_mem_snd_vm {D : Type} (s : system_t D) (addr : Nat) :
    (read_mem s addr).2.vm = s.vm := (read_mem_cpu s addr).2.1

@[simp] theorem read_mem_snd_hooks {D : Type} (s : system_t D) (addr : Nat) :
    (read_mem s addr).2.mmioproc_list = s.mmioproc_list := (read_mem_cpu s addr).2.2

@[simp] theorem write_mem_fst_cpu {D : Type} (s : system_t D) (addr val : Nat) :
    (write_mem s addr val).cpu = s.cpu := (write_mem_cpu s addr val).1

@[simp] theorem write_mem_hooks {D : Type} (s : system_t D) (addr val : Nat) :
    (write_mem s addr val).mmioproc_list = s.mmioproc_list := (write_mem_cpu s addr val).2

@[simp] theorem read_ptr_snd_cpu {D : Type} (s : system_t D) (addr : Nat) :
    (read_ptr s addr).2.cpu = s.cpu := by
  simp [read_ptr]

@[simp] theorem read_ptr_wrap_snd_cpu {D : Type} (s : system_t D) (addr : Nat) :
    (read_ptr_wrap s addr).2.cpu = s.cpu := by
  simp [read_ptr_wrap]

@[simp] theorem read_ptr_zp_snd_cpu {D : Type} (s : system_t D) (addr : Nat) :
    (read_ptr_zp s addr).2.cpu = s.cpu := by
  simp [read_ptr_zp]

@[simp] theorem push_cpu_pc_ir {D : Type} (s : system_t D) (v : Nat) :
    (push s v).cpu.pc = s.cpu.pc ∧ (push s v).cpu.ir = s.cpu.ir ∧
    (push s v).cpu.arg = s.cpu.arg ∧ (push s v).cpu.flags = s.cpu.flags := by
  simp [push]

@[simp] theorem pull_cpu_pc_ir {D : Type} (s : system_t D) :
    (pull s).2.cpu.pc = s.cpu.pc ∧ (pull s).2.cpu.ir = s.cpu.ir := by
  simp [pull]

@[simp] theorem flip_flags_pc_ir (cpu : cpu_6502_t) (v : Nat) :
    (flip_flags cpu v).pc = cpu.pc ∧ (flip_flags cpu v).ir = cpu.ir :=
  ⟨(flip_flags_regs cpu v).2.2.2.2.1, (flip_flags_regs cpu v).2.2.2.2.2.1⟩

@[simp] theorem cmp_flags_pc_ir (cpu : cpu_6502_t) (r t : Nat) :
    (cmp_flags cpu r t).pc = cpu.pc ∧ (cmp_flags cpu r t).ir = cpu.ir := by
  unfold cmp_flags
  simp only
  split_ifs <;> simp [SET_FLAG, CLEAR_FLAG]

@[simp] theorem adc_binary_pc_ir (cpu : cpu_6502_t) (b : Nat) :
    (adc_binary cpu b).pc = cpu.pc ∧ (adc_binary cpu b).ir = cpu.ir := by
  unfold adc_binary
  simp only
  split_ifs <;> simp [SET_FLAG, CLEAR_FLAG]

@[simp] theorem adc_decimal_pc_ir (cpu : cpu_6502_t) (b : Nat) :
    (adc_decimal cpu b).pc = cpu.pc ∧ (adc_decimal cpu b).ir = cpu.ir := by
  unfold adc_decimal
  simp only
  split_ifs <;> simp [SET_FLAG, CLEAR_FLAG]

@[simp] theorem sbc_binary_pc_ir (cpu : cpu_6502_t) (b : Nat) :
    (sbc_binary cpu b).pc = cpu.pc ∧ (sbc_binary cpu b).ir = cpu.ir := by
  unfold sbc_binary
  simp only
  split_ifs <;> simp [SET_FLAG, CLEAR_FLAG]

@[simp] theorem sbc_decimal_pc_ir (cpu : cpu_6502_t) (b : Nat) :
    (sbc_decimal cpu b).pc = cpu.pc ∧ (sbc_decimal cpu b).ir = cpu.ir := by
  unfold sbc_decimal
  simp only
  split_ifs <;> simp [SET_FLAG, CLEAR_FLAG]

@[simp] theorem target_store_pc_ir {D : Type} (s : system_t D) (t : rmw_target) (v : Nat) :
    (target_store s t v).cpu.pc = s.cpu.pc ∧ (target_store s t v).cpu.ir = s.cpu.ir := by
  cases t <;> simp [target_store]

/-! ### Handlers leave the opcode register alone, and the program counter unless they jump -/

theorem adc_operand_cpu {D : Type} (s s1 : system_t D) (v : Nat) (c : Int)
    (h : adc_operand s = some (v, s1, c)) : s1.cpu = s.cpu := by
  unfold adc_operand at h
  dsimp only at h
  split_ifs at h <;> simp only [Option.some.injEq, Prod.mk.injEq, reduceCtorEq] at h <;>
    obtain ⟨_, rfl, _⟩ := h <;> simp

theorem adc_frame {D : Type} (s : system_t D) (cyc : Int) :
    (adc s cyc).sys.cpu.ir = s.cpu.ir ∧
    ((adc s cyc).status ≠ RET_JUMP → (adc s cyc).sys.cpu.pc = s.cpu.pc) := by
  unfold adc
  cases h : adc_operand s with
  | none => exact ⟨rfl, fun _ => rfl⟩
  | some p =>
    obtain ⟨v, s1, c⟩ := p
    have hc := adc_operand_cpu s s1 v c h
    dsimp only
    split_ifs <;> simp [hc]

theorem sbc_operand_cpu {D : Type} (s s1 : system_t D) (v : Nat) (c : Int)
    (h : sbc_operand s = some (v, s1, c)) : s1.cpu = s.cpu := by
  unfold sbc_operand at h
  dsimp only at h
  split_ifs at h <;> simp only [Option.some.injEq, Prod.mk.injEq, reduceCtorEq] at h <;>
    obtain ⟨_, rfl, _⟩ := h <;> simp

theorem sbc_frame {D : Type} (s : system_t D) (cyc : Int) :
    (sbc s cyc).sys.cpu.ir = s.cpu.ir ∧
    ((sbc s cyc).status ≠ RET_JUMP → (sbc s cyc).sys.cpu.pc = s.cpu.pc) := by
  unfold sbc
  cases h : sbc_operand s with
  | none => exact ⟨rfl, fun _ => rfl⟩
  | some p =>
    obtain ⟨v, s1, c⟩ := p
    have hc := sbc_operand_cpu s s1 v c h
    dsimp only
    split_ifs <;> simp [hc]

theorem and_operand_cpu {D : Type} (s s1 : system_t D) (v : Nat) (c : Int)
    (h : and_operand s = some (v, s1, c)) : s1.cpu = s.cpu := by
  unfold and_operand at h
  dsimp only at h
  split_ifs at h <;> simp only [Option.some.injEq, Prod.mk.injEq, reduceCtorEq] at h <;>
    obtain ⟨_, rfl, _⟩ := h <;> simp

theorem and_frame {D : Type} (s : system_t D) (cyc : Int) :
    (and s cyc).sys.cpu.ir = s.cpu.ir ∧
    ((and s cyc).status ≠ RET_JUMP → (and s cyc).sys.cpu.pc = s.cpu.pc) := by
  unfold and
  cases h : and_operand s with
  | none => exact ⟨rfl, fun _ => rfl⟩
  | some p =>
    obtain ⟨v, s1, c⟩ := p
    have hc := and_operand_cpu s s1 v c h
    dsimp only
    simp [hc]

theorem bit_operand_cpu {D : Type} (s s1 : system_t D) (v : Nat) (c : Int)
    (h : bit_operand s = some (v, s1, c)) : s1.cpu = s.cpu := by
  unfold bit_operand at h
  dsimp only at h
  split_ifs at h <;> simp only [Option.some.injEq, Prod.mk.injEq, reduceCtorEq] at h <;>
    obtain ⟨_, rfl, _⟩ := h <;> simp

theorem bit_frame {D : Type} (s : system_t D) (cyc : Int) :
    (bit s cyc).sys.cpu.ir = s.cpu.ir ∧
    ((bit s cyc).status ≠ RET_JUMP → (bit s cyc).sys.cpu.pc = s.cpu.pc) := by
  unfold bit
  cases h : bit_operand s with
  | none => exact ⟨rfl, fun _ => rfl⟩
  | some p =>
    obtain ⟨v, s1, c⟩ := p
    have hc := bit_operand_cpu s s1 v c h
    dsimp only
    split_ifs <;> simp [hc]

theorem cmp_operand_cpu {D : Type} (s s1 : system_t D) (v : Nat) (c : Int)
    (h : cmp_operand s = some (v, s1, c)) : s1.cpu = s.cpu := by
  unfold cmp_operand at h
  dsimp only at h
  split_ifs at h <;> simp only [Option.some.injEq, Prod.mk.injEq, reduceCtorEq] at h <;>
    obtain ⟨_, rfl, _⟩ := h <;> simp

theorem cmp_frame {D : Type} (s : system_t D) (cyc : Int) :
    (cmp s cyc).sys.cpu.ir = s.cpu.ir ∧
    ((cmp s cyc).status ≠ RET_JUMP → (cmp s cyc).sys.cpu.pc = s.cpu.pc) := by
  unfold cmp
  cases h : cmp_operand s with
  | none => exact ⟨rfl, fun _ => rfl⟩
  | some p =>
    obtain ⟨v, s1, c⟩ := p
    have hc := cmp_operand_cpu s s1 v c h
    dsimp only
    simp [hc]

theorem cpx_operand_cpu {D : Type} (s s1 : system_t D) (v : Nat) (c : Int)
    (h : cpx_operand s = some (v, s1, c)) : s1.cpu = s.cpu := by
  unfold cpx_operand at h
  dsimp only at h
  split_ifs at h <;> simp only [Option.some.injEq, Prod.mk.injEq, reduceCtorEq] at h <;>
    obtain ⟨_, rfl, _⟩ := h <;> simp

theorem cpx_frame {D : Type} (s : system_t D) (cyc : Int) :
    (cpx s cyc).sys.cpu.ir = s.cpu.ir ∧
    ((cpx s cyc).status ≠ RET_JUMP → (cpx s cyc).sys.cpu.pc = s.cpu.pc) := by
  unfold cpx
  cases h : cpx_operand s with
  | none => exact ⟨rfl, fun _ => rfl⟩
  | some p =>
    obtain ⟨v, s1, c⟩ := p
    have hc := cpx_operand_cpu s s1 v c h
    dsimp only
    simp [hc]

theorem cpy_operand_cpu {D : Type} (s s1 : system_t D) (v : Nat) (c : Int)
    (h : cpy_operand s = some (v, s1, c)) : s1.cpu = s.cpu := by
  unfold cpy_operand at h
  dsimp only at h
  split_ifs at h <;> simp only [Option.some.injEq, Prod.mk.injEq, reduceCtorEq] at h <;>
    obtain ⟨_, rfl, _⟩ := h <;> simp

theorem cpy_frame {D : Type} (s : system_t D) (cyc : Int) :
    (cpy s cyc).sys.cpu.ir = s.cpu.ir ∧
    ((cpy s cyc).status ≠ RET_JUMP → (cpy s cyc).sys.cpu.pc = s.cpu.pc) := by
  unfold cpy
  cases h : cpy_operand s with
  | none => exact ⟨rfl, fun _ => rfl⟩
  | some p =>
    obtain ⟨v, s1, c⟩ := p
    have hc := cpy_operand_cpu s s1 v c h
    dsimp only
    simp [hc]

theorem eor_operand_cpu {D : Type} (s s1 : system_t D) (v : Nat) (c : Int)
    (h : eor_operand s = some (v, s1, c)) : s1.cpu = s.cpu := by
  unfold eor_operand at h
  dsimp only at h
  split_ifs at h <;> simp only [Option.some.injEq, Prod.mk.injEq, reduceCtorEq] at h <;>
    obtain ⟨_, rfl, _⟩ := h <;> simp

theorem eor_frame {D : Type} (s : system_t D) (cyc : Int) :
    (eor s cyc).sys.cpu.ir = s.cpu.ir ∧
    ((eor s cyc).status ≠ RET_JUMP → (eor s cyc).sys.cpu.pc = s.cpu.pc) := by
  unfold eor
  cases h : eor_operand s with
  | none => exact ⟨rfl, fun _ => rfl⟩
  | some p =>
    obtain ⟨v, s1, c⟩ := p
    have hc := eor_operand_cpu s s1 v c h
    dsimp only
    simp [hc]

theorem lda_operand_cpu {D : Type} (s s1 : system_t D) (v : Nat) (c : Int)
    (h : lda_operand s = some (v, s1, c)) : s1.cpu = s.cpu := by
  unfold lda_operand at h
  dsimp only at h
  split_ifs at h <;> simp only [Option.some.injEq, Prod.mk.injEq, reduceCtorEq] at h <;>
    obtain ⟨_, rfl, _⟩ := h <;> simp

theorem lda_frame {D : Type} (s : system_t D) (cyc : Int) :
    (lda s cyc).sys.cpu.ir = s.cpu.ir ∧
    ((lda s cyc).status ≠ RET_JUMP → (lda s cyc).sys.cpu.pc = s.cpu.pc) := by
  unfold lda
  cases h : lda_operand s with
  | none => exact ⟨rfl, fun _ => rfl⟩
  | some p =>
    obtain ⟨v, s1, c⟩ := p
    have hc := lda_operand_cpu s s1 v c h
    dsimp only
    simp [hc]

theorem ldx_operand_cpu {D : Type} (s s1 : system_t D) (v : Nat) (c : Int)
    (h : ldx_operand s = some (v, s1, c)) : s1.cpu = s.cpu := by
  unfold ldx_operand at h
  dsimp only at h
  split_ifs at h <;> simp only [Option.some.injEq, Prod.mk.injEq, reduceCtorEq] at h <;>
    obtain ⟨_, rfl, _⟩ := h <;> simp

theorem ldx_frame {D : Type} (s : system_t D) (cyc : Int) :
    (ldx s cyc).sys.cpu.ir = s.cpu.ir ∧
    ((ldx s cyc).status ≠ RET_JUMP → (ldx s cyc).sys.cpu.pc = s.cpu.pc) := by
  unfold ldx
  cases h : ldx_operand s with
  | none => exact ⟨rfl, fun _ => rfl⟩
  | some p =>
    obtain ⟨v, s1, c⟩ := p
    have hc := ldx_operand_cpu s s1 v c h
    dsimp only
    simp [hc]

theorem ldy_operand_cpu {D : Type} (s s1 : system_t D) (v : Nat) (c : Int)
    (h : ldy_operand s = some (v, s1, c)) : s1.cpu = s.cpu := by
  unfold ldy_operand at h
  dsimp only at h
  split_ifs at h <;> simp only [Option.some.injEq, Prod.mk.injEq, reduceCtorEq] at h <;>
    obtain ⟨_, rfl, _⟩ := h <;> simp

theorem ldy_frame {D : Type} (s : system_t D) (cyc : Int) :
    (ldy s cyc).sys.cpu.ir = s.cpu.ir ∧
    ((ldy s cyc).status ≠ RET_JUMP → (ldy s cyc).sys.cpu.pc = s.cpu.pc) := by
  unfold ldy
  cases h : ldy_operand s with
  | none => exact ⟨rfl, fun _ => rfl⟩
  | some p =>
    obtain ⟨v, s1, c⟩ := p
    have hc := ldy_operand_cpu s s1 v c h
    dsimp only
    simp [hc]

theorem ora_operand_cpu {D : Type} (s s1 : system_t D) (v : Nat) (c : Int)
    (h : ora_operand s = some (v, s1, c)) : s1.cpu = s.cpu := by
  unfold ora_operand at h
  dsimp only at h
  split_ifs at h <;> simp only [Option.some.injEq, Prod.mk.injEq, reduceCtorEq] at h <;>
    obtain ⟨_, rfl, _⟩ := h <;> simp

theorem ora_frame {D : Type} (s : system_t D) (cyc : Int) :
    (ora s cyc).sys.cpu.ir = s.cpu.ir ∧
    ((ora s cyc).status ≠ RET_JUMP → (ora s cyc).sys.cpu.pc = s.cpu.pc) := by
  unfold ora
  cases h : ora_operand s with
  | none => exact ⟨rfl, fun _ => rfl⟩
  | some p =>
    obtain ⟨v, s1, c⟩ := p
    have hc := ora_operand_cpu s s1 v c h
    dsimp only
    simp [hc]

theorem asl_frame {D : Type} (s : system_t D) (cyc : Int) :
    (asl s cyc).sys.cpu.ir = s.cpu.ir ∧
    ((asl s cyc).status ≠ RET_JUMP → (asl s cyc).sys.cpu.pc = s.cpu.pc) := by
  unfold asl
  cases h : asl_target s with
  | none => exact ⟨rfl, fun _ => rfl⟩
  | some p =>
    obtain ⟨t, c⟩ := p
    dsimp only
    split_ifs <;> simp

theorem dec_frame {D : Type} (s : system_t D) (cyc : Int) :
    (dec s cyc).sys.cpu.ir = s.cpu.ir ∧
    ((dec s cyc).status ≠ RET_JUMP → (dec s cyc).sys.cpu.pc = s.cpu.pc) := by
  unfold dec
  cases h : dec_target s with
  | none => exact ⟨rfl, fun _ => rfl⟩
  | some p =>
    obtain ⟨t, c⟩ := p
    dsimp only
    simp

theorem inc_frame {D : Type} (s : system_t D) (cyc : Int) :
    (inc s cyc).sys.cpu.ir = s.cpu.ir ∧
    ((inc s cyc).status ≠ RET_JUMP → (inc s cyc).sys.cpu.pc = s.cpu.pc) := by
  unfold inc
  cases h : inc_target s with
  | none => exact ⟨rfl, fun _ => rfl⟩
  | some p =>
    obtain ⟨t, c⟩ := p
    dsimp only
    simp

theorem lsr_frame {D : Type} (s : system_t D) (cyc : Int) :
    (lsr s cyc).sys.cpu.ir = s.cpu.ir ∧
    ((lsr s cyc).status ≠ RET_JUMP → (lsr s cyc).sys.cpu.pc = s.cpu.pc) := by
  unfold lsr
  cases h : lsr_target s with
  | none => exact ⟨rfl, fun _ => rfl⟩
  | some p =>
    obtain ⟨t, c⟩ := p
    dsimp only
    split_ifs <;> simp

theorem rol_frame {D : Type} (s : system_t D) (cyc : Int) :
    (rol s cyc).sys.cpu.ir = s.cpu.ir ∧
    ((rol s cyc).status ≠ RET_JUMP → (rol s cyc).sys.cpu.pc = s.cpu.pc) := by
  unfold rol
  cases h : rol_target s with
  | none => exact ⟨rfl, fun _ => rfl⟩
  | some p =>
    obtain ⟨t, c⟩ := p
    dsimp only
    split_ifs <;> simp

theorem ror_frame {D : Type} (s : system_t D) (cyc : Int) :
    (ror s cyc).sys.cpu.ir = s.cpu.ir ∧
    ((ror s cyc).status ≠ RET_JUMP → (ror s cyc).sys.cpu.pc = s.cpu.pc) := by
  unfold ror
  cases h : ror_target s with
  | none => exact ⟨rfl, fun _ => rfl⟩
  | some p =>
    obtain ⟨t, c⟩ := p
    dsimp only
    split_ifs <;> simp

theorem bra_frame {D : Type} (s : system_t D) (cyc : Int) :
    (bra s cyc).sys.cpu.ir = s.cpu.ir ∧
    ((bra s cyc).status ≠ RET_JUMP → (bra s cyc).sys.cpu.pc = s.cpu.pc) := by
  unfold bra
  cases h : bra_taken s.cpu with
  | none => exact ⟨rfl, fun _ => rfl⟩
  | some t =>
    cases t <;> simp

theorem brk_frame {D : Type} (s : system_t D) (cyc : Int) :
    (brk s cyc).sys.cpu.ir = s.cpu.ir ∧
    ((brk s cyc).status ≠ RET_JUMP → (brk s cyc).sys.cpu.pc = s.cpu.pc) := by
  unfold brk interrupt
  dsimp only
  split_ifs <;> simp

theorem flg_frame {D : Type} (s : system_t D) (cyc : Int) :
    (flg s cyc).sys.cpu.ir = s.cpu.ir ∧
    ((flg s cyc).status ≠ RET_JUMP → (flg s cyc).sys.cpu.pc = s.cpu.pc) := by
  unfold flg
  split_ifs <;> simp

theorem jmp_frame {D : Type} (s : system_t D) (cyc : Int) :
    (jmp s cyc).sys.cpu.ir = s.cpu.ir ∧
    ((jmp s cyc).status ≠ RET_JUMP → (jmp s cyc).sys.cpu.pc = s.cpu.pc) := by
  unfold jmp
  dsimp only
  split_ifs <;> simp

theorem jsr_frame {D : Type} (s : system_t D) (cyc : Int) :
    (jsr s cyc).sys.cpu.ir = s.cpu.ir ∧
    ((jsr s cyc).status ≠ RET_JUMP → (jsr s cyc).sys.cpu.pc = s.cpu.pc) := by
  unfold jsr
  dsimp only
  split_ifs <;> simp

theorem nop_frame {D : Type} (s : system_t D) (cyc : Int) :
    (nop s cyc).sys.cpu.ir = s.cpu.ir ∧
    ((nop s cyc).status ≠ RET_JUMP → (nop s cyc).sys.cpu.pc = s.cpu.pc) := by
  unfold nop
  split_ifs <;> simp

theorem reg_frame {D : Type} (s : system_t D) (cyc : Int) :
    (reg s cyc).sys.cpu.ir = s.cpu.ir ∧
    ((reg s cyc).status ≠ RET_JUMP → (reg s cyc).sys.cpu.pc = s.cpu.pc) := by
  unfold reg reg_cpu
  dsimp only
  split_ifs <;> simp

theorem rti_frame {D : Type} (s : system_t D) (cyc : Int) :
    (rti s cyc).sys.cpu.ir = s.cpu.ir ∧
    ((rti s cyc).status ≠ RET_JUMP → (rti s cyc).sys.cpu.pc = s.cpu.pc) := by
  unfold rti
  dsimp only
  split_ifs <;> simp

theorem rts_frame {D : Type} (s : system_t D) (cyc : Int) :
    (rts s cyc).sys.cpu.ir = s.cpu.ir ∧
    ((rts s cyc).status ≠ RET_JUMP → (rts s cyc).sys.cpu.pc = s.cpu.pc) := by
  unfold rts
  dsimp only
  split_ifs <;> simp

theorem sta_frame {D : Type} (s : system_t D) (cyc : Int) :
    (sta s cyc).sys.cpu.ir = s.cpu.ir ∧
    ((sta s cyc).status ≠ RET_JUMP → (sta s cyc).sys.cpu.pc = s.cpu.pc) := by
  unfold sta
  dsimp only
  split_ifs <;> simp

theorem stk_frame {D : Type} (s : system_t D) (cyc : Int) :
    (stk s cyc).sys.cpu.ir = s.cpu.ir ∧
    ((stk s cyc).status ≠ RET_JUMP → (stk s cyc).sys.cpu.pc = s.cpu.pc) := by
  unfold stk
  dsimp only
  split_ifs <;> simp

theorem stx_frame {D : Type} (s : system_t D) (cyc : Int) :
    (stx s cyc).sys.cpu.ir = s.cpu.ir ∧
    ((stx s cyc).status ≠ RET_JUMP → (stx s cyc).sys.cpu.pc = s.cpu.pc) := by
  unfold stx
  dsimp only
  split_ifs <;> simp

theorem sty_frame {D : Type} (s : system_t D) (cyc : Int) :
    (sty s cyc).sys.cpu.ir = s.cpu.ir ∧
    ((sty s cyc).status ≠ RET_JUMP → (sty s cyc).sys.cpu.pc = s.cpu.pc) := by
  unfold sty
  dsimp only
  split_ifs <;> simp

theorem x_frame {D : Type} (s : system_t D) (cyc : Int) :
    (x s cyc).sys.cpu.ir = s.cpu.ir ∧
    ((x s cyc).status ≠ RET_JUMP → (x s cyc).sys.cpu.pc = s.cpu.pc) := by
  unfold x
  dsimp only
  simp

theorem call_proc_frame {D : Type} (h : op_proc) (s : system_t D) (cyc : Int) :
    (call_proc h s cyc).sys.cpu.ir = s.cpu.ir ∧
    ((call_proc h s cyc).status ≠ RET_JUMP → (call_proc h s cyc).sys.cpu.pc = s.cpu.pc) := by
  cases h
  · exact asl_frame s cyc
  · exact dec_frame s cyc
  · exact inc_frame s cyc
  · exact lsr_frame s cyc
  · exact rol_frame s cyc
  · exact ror_frame s cyc
  · exact adc_frame s cyc
  · exact and_frame s cyc
  · exact bit_frame s cyc
  · exact bra_frame s cyc
  · exact brk_frame s cyc
  · exact cmp_frame s cyc
  · exact cpx_frame s cyc
  · exact cpy_frame s cyc
  · exact eor_frame s cyc
  · exact flg_frame s cyc
  · exact jmp_frame s cyc
  · exact jsr_frame s cyc
  · exact lda_frame s cyc
  · exact ldx_frame s cyc
  · exact ldy_frame s cyc
  · exact nop_frame s cyc
  · exact ora_frame s cyc
  · exact reg_frame s cyc
  · exact rti_frame s cyc
  · exact rts_frame s cyc
  · exact sbc_frame s cyc
  · exact sta_frame s cyc
  · exact stk_frame s cyc
  · exact stx_frame s cyc
  · exact sty_frame s cyc
  · exact x_frame s cyc

/-! ### Fetch and execute -/

theorem and_ffff (a : Nat) : a &&& 0xffff = a % 65536 := by
  have h : (0xffff : Nat) = 2 ^ 16 - 1 := by norm_num
  rw [h, Nat.and_pow_two_sub_one_eq_mod]

theorem read_mem_value_of {D : Type} (t s : system_t D) (a : Nat)
    (hh : t.mmioproc_list = s.mmioproc_list) (hv : t.vm = s.vm)
    (hr : no_read_intercept s (a % 65536)) (hvm : s.vm.wf) :
    (read_mem t a).1 = s.vm.mem (a % 65536) := by
  have hr' : no_read_intercept t (a % 65536) := by
    unfold no_read_intercept
    rw [hh]
    exact hr
  rw [read_mem_value t a hr', hv]
  exact Nat.mod_eq_of_lt (hvm _)

theorem fetch_ir {D : Type} (s : system_t D) :
    (cpu_6502_fetch_instr s).cpu.ir = (read_mem s s.cpu.pc).1 ∧
    (cpu_6502_fetch_instr s).cpu.pc = s.cpu.pc ∧
    (cpu_6502_fetch_instr s).vm = s.vm ∧
    (cpu_6502_fetch_instr s).mmioproc_list = s.mmioproc_list := by
  unfold cpu_6502_fetch_instr
  dsimp only
  split_ifs <;> simp

theorem code_system_wf (b0 b1 b2 : Nat) : (code_system b0 b1 b2).vm.wf := by
  intro i
  simp only [code_system]
  split_ifs <;> omega

theorem code_system_no_read_intercept (b0 b1 b2 a : Nat) (ha : a < 0xd010 ∨ 0xd013 < a) :
    no_read_intercept (code_system b0 b1 b2) a := by
  intro h hh d
  simp only [code_system, List.mem_singleton] at hh
  subst hh
  exact pia_hook_read_ignores a ha d

theorem len_at_illegal_lt : ∀ op, op < 256 → instr_at op = op_proc.x → len_at op = 0 := by
  decide

theorem len_at_illegal (op : Nat) (h : instr_at op = op_proc.x) : len_at op = 0 := by
  by_cases hop : op < 256
  · exact len_at_illegal_lt op hop h
  · unfold len_at
    exact List.getD_eq_default _ _ (by simp only [len, List.length_cons, List.length_nil]; omega)

theorem exec_status {D : Type} (s : system_t D) (cyc : Int) :
    (cpu_6502_exec_instr s cyc).status = (call_proc (instr_at s.cpu.ir) s cyc).status ∧
    (cpu_6502_exec_instr s cyc).cyc = (call_proc (instr_at s.cpu.ir) s cyc).cyc := by
  unfold cpu_6502_exec_instr
  dsimp only
  split_ifs <;> exact ⟨rfl, rfl⟩

theorem exec_pc_no_jump {D : Type} (s : system_t D) (cyc : Int)
    (h : (call_proc (instr_at s.cpu.ir) s cyc).status ≠ RET_JUMP) :
    (cpu_6502_exec_instr s cyc).sys.cpu.pc = (s.cpu.pc + len_at s.cpu.ir) % 65536 := by
  obtain ⟨hir, hpc⟩ := call_proc_frame (instr_at s.cpu.ir) s cyc
  unfold cpu_6502_exec_instr
  dsimp only
  rw [if_pos h]
  dsimp only
  rw [hir, hpc h]

theorem exec_jump {D : Type} (s : system_t D) (cyc : Int)
    (h : (call_proc (instr_at s.cpu.ir) s cyc).status = RET_JUMP) :
    cpu_6502_exec_instr s cyc = call_proc (instr_at s.cpu.ir) s cyc := by
  unfold cpu_6502_exec_instr
  dsimp only
  rw [if_neg (fun hn => hn h)]

theorem exec_illegal {D : Type} (s : system_t D) (cyc : Int) (hpc : s.cpu.pc < 65536)
    (hill : instr_at s.cpu.ir = op_proc.x) :
    cpu_6502_exec_instr s cyc = ⟨RET_ERR_INSTR, cyc, s⟩ := by
  have hlen := len_at_illegal _ hill
  unfold cpu_6502_exec_instr
  rw [hill]
  have hx : call_proc op_proc.x s cyc = ⟨RET_ERR_INSTR, cyc, s⟩ := rfl
  rw [hx]
  dsimp only
  rw [if_pos (by decide), hlen, Nat.add_zero, Nat.mod_eq_of_lt hpc]

/-! ### Handlers accept the opcodes of their switch -/

theorem asl_accepts {D : Type} (s : system_t D) (cyc : Int)
    (h : s.cpu.ir ∈ handler_cases op_proc.asl) : (asl s cyc).status = RET_OK := by
  simp only [handler_cases, List.mem_cons, List.mem_singleton, List.not_mem_nil, or_false] at h
  rcases h with h | h | h | h | h <;> simp [asl, asl_target, h]

theorem dec_accepts {D : Type} (s : system_t D) (cyc : Int)
    (h : s.cpu.ir ∈ handler_cases op_proc.dec) : (dec s cyc).status = RET_OK := by
  simp only [handler_cases, List.mem_cons, List.mem_singleton, List.not_mem_nil, or_false] at h
  rcases h with h | h | h | h <;> simp [dec, dec_target, h]

theorem inc_accepts {D : Type} (s : system_t D) (cyc : Int)
    (h : s.cpu.ir ∈ handler_cases op_proc.inc) : (inc s cyc).status = RET_OK := by
  simp only [handler_cases, List.mem_cons, List.mem_singleton, List.not_mem_nil, or_false] at h
  rcases h with h | h | h | h <;> simp [inc, inc_target, h]

theorem lsr_accepts {D : Type} (s : system_t D) (cyc : Int)
    (h : s.cpu.ir ∈ handler_cases op_proc.lsr) : (lsr s cyc).status = RET_OK := by
  simp only [handler_cases, List.mem_cons, List.mem_singleton, List.not_mem_nil, or_false] at h
  rcases h with h | h | h | h | h <;> simp [lsr, lsr_target, h]

theorem rol_accepts {D : Type} (s : system_t D) (cyc : Int)
    (h : s.cpu.ir ∈ handler_cases op_proc.rol) : (rol s cyc).status = RET_OK := by
  simp only [handler_cases, List.mem_cons, List.mem_singleton, List.not_mem_nil, or_false] at h
  rcases h with h | h | h | h | h <;> simp [rol, rol_target, h]

theorem ror_accepts {D : Type} (s : system_t D) (cyc : Int)
    (h : s.cpu.ir ∈ handler_cases op_proc.ror) : (ror s cyc).status = RET_OK := by
  simp only [handler_cases, List.mem_cons, List.mem_singleton, List.not_mem_nil, or_false] at h
  rcases h with h | h | h | h | h <;> simp [ror, ror_target, h]

theorem adc_accepts {D : Type} (s : system_t D) (cyc : Int)
    (h : s.cpu.ir ∈ handler_cases op_proc.adc) : (adc s cyc).status = RET_OK := by
  simp only [handler_cases, List.mem_cons, List.mem_singleton, List.not_mem_nil, or_false] at h
  rcases h with h | h | h | h | h | h | h | h <;> simp [adc, adc_operand, h]

theorem and_accepts {D : Type} (s : system_t D) (cyc : Int)
    (h : s.cpu.ir ∈ handler_cases op_proc.and) : (and s cyc).status = RET_OK := by
  simp only [handler_cases, List.mem_cons, List.mem_singleton, List.not_mem_nil, or_false] at h
  rcases h with h | h | h | h | h | h | h | h <;> simp [and, and_operand, h]

theorem bit_accepts {D : Type} (s : system_t D) (cyc : Int)
    (h : s.cpu.ir ∈ handler_cases op_proc.bit) : (bit s cyc).status = RET_OK := by
  simp only [handler_cases, List.mem_cons, List.mem_singleton, List.not_mem_nil, or_false] at h
  rcases h with h | h <;> simp [bit, bit_operand, h]

theorem bra_accepts {D : Type} (s : system_t D) (cyc : Int)
    (h : s.cpu.ir ∈ handler_cases op_proc.bra) : (bra s cyc).status = RET_OK ∨ (bra s cyc).status = RET_JUMP := by
  simp only [handler_cases, List.mem_cons, List.mem_singleton, List.not_mem_nil, or_false] at h
  rcases h with h | h | h | h | h | h | h | h <;> simp only [bra, bra_taken, h] <;> simp <;> split_ifs <;> simp

theorem brk_accepts {D : Type} (s : system_t D) (cyc : Int)
    (h : s.cpu.ir ∈ handler_cases op_proc.brk) : (brk s cyc).status = RET_JUMP := by
  simp only [handler_cases, List.mem_singleton] at h
  simp [brk, interrupt, h]

theorem cmp_accepts {D : Type} (s : system_t D) (cyc : Int)
    (h : s.cpu.ir ∈ handler_cases op_proc.cmp) : (cmp s cyc).status = RET_OK := by
  simp only [handler_cases, List.mem_cons, List.mem_singleton, List.not_mem_nil, or_false] at h
  rcases h with h | h | h | h | h | h | h | h <;> simp [cmp, cmp_operand, h]

theorem cpx_accepts {D : Type} (s : system_t D) (cyc : Int)
    (h : s.cpu.ir ∈ handler_cases op_proc.cpx) : (cpx s cyc).status = RET_OK := by
  simp only [handler_cases, List.mem_cons, List.mem_singleton, List.not_mem_nil, or_false] at h
  rcases h with h | h | h <;> simp [cpx, cpx_operand, h]

theorem cpy_accepts {D : Type} (s : system_t D) (cyc : Int)
    (h : s.cpu.ir ∈ handler_cases op_proc.cpy) : (cpy s cyc).status = RET_OK := by
  simp only [handler_cases, List.mem_cons, List.mem_singleton, List.not_mem_nil, or_false] at h
  rcases h with h | h | h <;> simp [cpy, cpy_operand, h]

theorem eor_accepts {D : Type} (s : system_t D) (cyc : Int)
    (h : s.cpu.ir ∈ handler_cases op_proc.eor) : (eor s cyc).status = RET_OK := by
  simp only [handler_cases, List.mem_cons, List.mem_singleton, List.not_mem_nil, or_false] at h
  rcases h with h | h | h | h | h | h | h | h <;> simp [eor, eor_operand, h]

theorem flg_accepts {D : Type} (s : system_t D) (cyc : Int)
    (h : s.cpu.ir ∈ handler_cases op_proc.flg) : (flg s cyc).status = RET_OK := by
  simp only [handler_cases, List.mem_cons, List.mem_singleton, List.not_mem_nil, or_false] at h
  rcases h with h | h | h | h | h | h | h <;> simp [flg, h]

theorem jmp_accepts {D : Type} (s : system_t D) (cyc : Int)
    (h : s.cpu.ir ∈ handler_cases op_proc.jmp) : (jmp s cyc).status = RET_JUMP := by
  simp only [handler_cases, List.mem_cons, List.mem_singleton, List.not_mem_nil, or_false] at h
  rcases h with h | h <;> simp [jmp, h]

theorem jsr_accepts {D : Type} (s : system_t D) (cyc : Int)
    (h : s.cpu.ir ∈ handler_cases op_proc.jsr) : (jsr s cyc).status = RET_JUMP := by
  simp only [handler_cases, List.mem_singleton] at h
  simp [jsr, h]

theorem lda_accepts {D : Type} (s : system_t D) (cyc : Int)
    (h : s.cpu.ir ∈ handler_cases op_proc.lda) : (lda s cyc).status = RET_OK := by
  simp only [handler_cases, List.mem_cons, List.mem_singleton, List.not_mem_nil, or_false] at h
  rcases h with h | h | h | h | h | h | h | h <;> simp [lda, lda_operand, h]

theorem ldx_accepts {D : Type} (s : system_t D) (cyc : Int)
    (h : s.cpu.ir ∈ handler_cases op_proc.ldx) : (ldx s cyc).status = RET_OK := by
  simp only [handler_cases, List.mem_cons, List.mem_singleton, List.not_mem_nil, or_false] at h
  rcases h with h | h | h | h | h <;> simp [ldx, ldx_operand, h]

theorem ldy_accepts {D : Type} (s : system_t D) (cyc : Int)
    (h : s.cpu.ir ∈ handler_cases op_proc.ldy) : (ldy s cyc).status = RET_OK := by
  simp only [handler_cases, List.mem_cons, List.mem_singleton, List.not_mem_nil, or_false] at h
  rcases h with h | h | h | h | h <;> simp [ldy, ldy_operand, h]

theorem nop_accepts {D : Type} (s : system_t D) (cyc : Int)
    (h : s.cpu.ir ∈ handler_cases op_proc.nop) : (nop s cyc).status = RET_OK := by
  simp only [handler_cases, List.mem_singleton] at h
  simp [nop, h]

theorem ora_accepts {D : Type} (s : system_t D) (cyc : Int)
    (h : s.cpu.ir ∈ handler_cases op_proc.ora) : (ora s cyc).status = RET_OK := by
  simp only [handler_cases, List.mem_cons, List.mem_singleton, List.not_mem_nil, or_false] at h
  rcases h with h | h | h | h | h | h | h | h <;> simp [ora, ora_operand, h]

theorem reg_accepts {D : Type} (s : system_t D) (cyc : Int)
    (h : s.cpu.ir ∈ handler_cases op_proc.reg) : (reg s cyc).status = RET_OK := by
  simp only [handler_cases, List.mem_cons, List.mem_singleton, List.not_mem_nil, or_false] at h
  rcases h with h | h | h | h | h | h | h | h <;> simp [reg, reg_cpu, h]

theorem rti_accepts {D : Type} (s : system_t D) (cyc : Int)
    (h : s.cpu.ir ∈ handler_cases op_proc.rti) : (rti s cyc).status = RET_JUMP := by
  simp only [handler_cases, List.mem_singleton] at h
  simp [rti, h]

theorem rts_accepts {D : Type} (s : system_t D) (cyc : Int)
    (h : s.cpu.ir ∈ handler_cases op_proc.rts) : (rts s cyc).status = RET_JUMP := by
  simp only [handler_cases, List.mem_singleton] at h
  simp [rts, h]

theorem sbc_accepts {D : Type} (s : system_t D) (cyc : Int)
    (h : s.cpu.ir ∈ handler_cases op_proc.sbc) : (sbc s cyc).status = RET_OK := by
  simp only [handler_cases, List.mem_cons, List.mem_singleton, List.not_mem_nil, or_false] at h
  rcases h with h | h | h | h | h | h | h | h <;> simp [sbc, sbc_operand, h]

theorem sta_accepts {D : Type} (s : system_t D) (cyc : Int)
    (h : s.cpu.ir ∈ handler_cases op_proc.sta) : (sta s cyc).status = RET_OK := by
  simp only [handler_cases, List.mem_cons, List.mem_singleton, List.not_mem_nil, or_false] at h
  rcases h with h | h | h | h | h | h | h <;> simp [sta, h]

theorem stk_accepts {D : Type} (s : system_t D) (cyc : Int)
    (h : s.cpu.ir ∈ handler_cases op_proc.stk) : (stk s cyc).status = RET_OK := by
  simp only [handler_cases, List.mem_cons, List.mem_singleton, List.not_mem_nil, or_false] at h
  rcases h with h | h | h | h | h | h <;> simp [stk, h]

theorem stx_accepts {D : Type} (s : system_t D) (cyc : Int)
    (h : s.cpu.ir ∈ handler_cases op_proc.stx) : (stx s cyc).status = RET_OK := by
  simp only [handler_cases, List.mem_cons, List.mem_singleton, List.not_mem_nil, or_false] at h
  rcases h with h | h | h <;> simp [stx, h]

theorem sty_accepts {D : Type} (s : system_t D) (cyc : Int)
    (h : s.cpu.ir ∈ handler_cases op_proc.sty) : (sty s cyc).status = RET_OK := by
  simp only [handler_cases, List.mem_cons, List.mem_singleton, List.not_mem_nil, or_false] at h
  rcases h with h | h | h <;> simp [sty, h]

theorem table_agrees :
    ∀ op, op < 256 → instr_at op ≠ op_proc.x → op ∈ handler_cases (instr_at op) := by
  decide

theorem call_proc_accepts {D : Type} (p : op_proc) (s : system_t D) (cyc : Int)
    (h : s.cpu.ir ∈ handler_cases p) :
    (call_proc p s cyc).status = RET_OK ∨ (call_proc p s cyc).status = RET_JUMP := by
  cases p
  · exact Or.inl (asl_accepts s cyc h)
  · exact Or.inl (dec_accepts s cyc h)
  · exact Or.inl (inc_accepts s cyc h)
  · exact Or.inl (lsr_accepts s cyc h)
  · exact Or.inl (rol_accepts s cyc h)
  · exact Or.inl (ror_accepts s cyc h)
  · exact Or.inl (adc_accepts s cyc h)
  · exact Or.inl (and_accepts s cyc h)
  · exact Or.inl (bit_accepts s cyc h)
  · exact bra_accepts s cyc h
  · exact Or.inr (brk_accepts s cyc h)
  · exact Or.inl (cmp_accepts s cyc h)
  · exact Or.inl (cpx_accepts s cyc h)
  · exact Or.inl (cpy_accepts s cyc h)
  · exact Or.inl (eor_accepts s cyc h)
  · exact Or.inl (flg_accepts s cyc h)
  · exact Or.inr (jmp_accepts s cyc h)
  · exact Or.inr (jsr_accepts s cyc h)
  · exact Or.inl (lda_accepts s cyc h)
  · exact Or.inl (ldx_accepts s cyc h)
  · exact Or.inl (ldy_accepts s cyc h)
  · exact Or.inl (nop_accepts s cyc h)
  · exact Or.inl (ora_accepts s cyc h)
  · exact Or.inl (reg_accepts s cyc h)
  · exact Or.inr (rti_accepts s cyc h)
  · exact Or.inr (rts_accepts s cyc h)
  · exact Or.inl (sbc_accepts s cyc h)
  · exact Or.inl (sta_accepts s cyc h)
  · exact Or.inl (stk_accepts s cyc h)
  · exact Or.inl (stx_accepts s cyc h)
  · exact Or.inl (sty_accepts s cyc h)
  · simp [handler_cases] at h

theorem exec_legal {D : Type} (s : system_t D) (cyc : Int)
    (hleg : instr_at s.cpu.ir ≠ op_proc.x) :
    (cpu_6502_exec_instr s cyc).status = RET_OK ∨
    (cpu_6502_exec_instr s cyc).status = RET_JUMP := by
  have hlt : s.cpu.ir < 256 := by
    by_contra hge
    apply hleg
    unfold instr_at
    exact List.getD_eq_default _ _
      (by simp only [instr_table, List.length_cons, List.length_nil]; omega)
  rw [(exec_status s cyc).1]
  exact call_proc_accepts _ s cyc (table_agrees _ hlt hleg)

theorem pia_step_cpu (t : system_t reginfo_t) : (pia_step t).cpu = t.cpu := by
  unfold pia_step
  split_ifs <;> rfl

theorem vm_step_status {D : Type} (periph_step : system_t D → system_t D)
    (s : system_t D) (status cycles : Int) (hstep : ∀ t, (periph_step t).cpu = t.cpu) :
    (vm_step periph_step s status cycles).1 =
      (if (vm_step periph_step s status cycles).2.vm.quit ≠ 0 then RET_QUIT
       else if (cpu_6502_exec_instr (cpu_6502_fetch_instr s) cycles).sys.cpu.pc
                 = cpu_6502_get_pc s then RET_LOOP
       else if (cpu_6502_exec_instr (cpu_6502_fetch_instr s) cycles).status = RET_OK ∨
               (cpu_6502_exec_instr (cpu_6502_fetch_instr s) cycles).status = RET_JUMP
            then RET_OK
       else status) := by
  unfold vm_step
  dsimp only
  unfold cpu_6502_get_pc
  dsimp only
  rw [hstep]

theorem bra_taken_spec (cpu : cpu_6502_t) (hop : cpu.ir ∈ handler_cases op_proc.bra) :
    bra_taken cpu = some (decide (spec_branch_condition cpu.ir cpu)) := by
  simp only [handler_cases, List.mem_cons, List.mem_singleton, List.not_mem_nil, or_false] at hop
  have hN := QUERY_FLAG_le_one cpu FLAG_NEGATIVE
  have hV := QUERY_FLAG_le_one cpu FLAG_OVERFLOW
  have hC := QUERY_FLAG_le_one cpu FLAG_CARRY
  have hZ := QUERY_FLAG_le_one cpu FLAG_ZERO
  have e : ∀ q : Nat, q ≤ 1 → (¬ q = 0 ↔ q = 1) := fun q hq => by omega
  rcases hop with h | h | h | h | h | h | h | h <;>
    simp only [bra_taken, spec_branch_condition, h] <;> simp [e _ hN, e _ hV, e _ hC, e _ hZ]

theorem bra_spec {D : Type} (s : system_t D) (cyc : Int)
    (hop : s.cpu.ir ∈ handler_cases op_proc.bra) :
    bra s cyc =
      if spec_branch_condition s.cpu.ir s.cpu then
        ⟨RET_JUMP, 2,
          { s with
            cpu := { s.cpu with
                     pc := (((s.cpu.pc : Int) + (signed8 s.cpu.arg8 + 2)) % 65536).toNat } }⟩
      else ⟨RET_OK, 2, s⟩ := by
  unfold bra signed8
  rw [bra_taken_spec s.cpu hop]
  dsimp only
  by_cases hc : spec_branch_condition s.cpu.ir s.cpu
  · rw [if_pos hc, if_pos (decide_eq_true hc)]
  · rw [if_neg hc, if_neg (by simpa using hc)]

theorem bra_table (op : Nat) (hop : op ∈ handler_cases op_proc.bra) :
    instr_at op = op_proc.bra ∧ len_at op = 2 := by
  simp only [handler_cases, List.mem_cons, List.mem_singleton, List.not_mem_nil, or_false] at hop
  rcases hop with h | h | h | h | h | h | h | h <;> subst h <;> exact ⟨rfl, rfl⟩

theorem exec_bra {D : Type} (s : system_t D) (cyc : Int)
    (hop : s.cpu.ir ∈ handler_cases op_proc.bra) :
    cpu_6502_exec_instr s cyc =
      if spec_branch_condition s.cpu.ir s.cpu then
        ⟨RET_JUMP, 2,
          { s with
            cpu := { s.cpu with
                     pc := (((s.cpu.pc : Int) + (signed8 s.cpu.arg8 + 2)) % 65536).toNat } }⟩
      else ⟨RET_OK, 2, { s with cpu := { s.cpu with pc := (s.cpu.pc + 2) % 65536 } }⟩ := by
  obtain ⟨hi, hl⟩ := bra_table _ hop
  unfold cpu_6502_exec_instr
  have hb : call_proc op_proc.bra s cyc = bra s cyc := rfl
  rw [hi, hb, bra_spec s cyc hop]
  by_cases hc : spec_branch_condition s.cpu.ir s.cpu
  · rw [if_pos hc]
    dsimp only
    rw [if_neg (by decide), if_pos hc]
  · rw [if_neg hc]
    dsimp only
    rw [if_pos (by decide), hl, if_neg hc]


/-! ### The stack page without hooks: interrupt entry, `jsr`, `rti`, `rts` -/

theorem poke_mod (bytes : Nat → Nat) (off val : Nat) :
    poke bytes off (val % 256) = poke bytes off val := by
  funext i
  unfold poke
  rw [Nat.mod_mod]

theorem stack_write_mem (bytes : Nat → Nat) (sp v a : Nat) (ha : a < 65536) (hsp : sp < 256) :
    stack_write bytes sp v (OFF_MEM + a)
      = if a = 0x0100 + sp then v % 256 else bytes (OFF_MEM + a) := by
  unfold stack_write poke
  simp only [OFF_MEM, OFF_RAM]
  split_ifs <;> first | rfl | omega

theorem no_write_intercept_congr {D : Type} (t s : system_t D) (a : Nat)
    (h : t.mmioproc_list = s.mmioproc_list) (hs : no_write_intercept s a) :
    no_write_intercept t a := by
  unfold no_write_intercept at hs ⊢
  rw [h]
  exact hs

theorem no_read_intercept_congr {D : Type} (t s : system_t D) (a : Nat)
    (h : t.mmioproc_list = s.mmioproc_list) (hs : no_read_intercept s a) :
    no_read_intercept t a := by
  unfold no_read_intercept at hs ⊢
  rw [h]
  exact hs

theorem stack_unhooked_congr {D : Type} (t s : system_t D)
    (h : t.mmioproc_list = s.mmioproc_list) (hs : stack_unhooked s) : stack_unhooked t :=
  fun a h1 h2 =>
    ⟨no_write_intercept_congr t s a h (hs a h1 h2).1, no_read_intercept_congr t s a h (hs a h1 h2).2⟩

theorem push_full {D : Type} (s : system_t D) (v : Nat) (hsp : s.cpu.sp < 256)
    (hs : stack_unhooked s) :
    (push s v).cpu = { s.cpu with sp := (s.cpu.sp + 255) % 256 } ∧
    (push s v).mmioproc_list = s.mmioproc_list ∧
    (push s v).vm.bytes = stack_write s.vm.bytes s.cpu.sp v ∧
    stack_unhooked (push s v) ∧ (push s v).cpu.sp < 256 := by
  obtain ⟨hc, hm, hb⟩ := push_spec s v hsp (hs _ (by omega) (by omega)).1
  refine ⟨hc, hm, ?_, stack_unhooked_congr _ s hm hs, ?_⟩
  · rw [hb]
    unfold stack_write
    rw [poke_mod, poke_mod]
  · rw [hc]
    exact Nat.mod_lt _ (by decide)

theorem pull_full {D : Type} (s : system_t D) (hs : stack_unhooked s) :
    (pull s).1 = s.vm.mem (0x0100 + (s.cpu.sp + 1) % 256) % 256 ∧
    (pull s).2.cpu = { s.cpu with sp := (s.cpu.sp + 1) % 256 } ∧
    (pull s).2.vm = s.vm ∧ (pull s).2.mmioproc_list = s.mmioproc_list ∧
    stack_unhooked (pull s).2 := by
  obtain ⟨h1, h2, h3, h4⟩ := pull_spec s (hs _ (by omega) (by omega)).2
  exact ⟨h1, h2, h3, h4, stack_unhooked_congr _ s h4 hs⟩

theorem read_ptr_value {D : Type} (s : system_t D) (addr : Nat) (haddr : addr + 1 < 65536)
    (hv : vector_unhooked s addr) :
    (read_ptr s addr).1
      = (s.vm.mem addr % 256 ||| ((s.vm.mem (addr + 1) % 256) <<< 8)) % 65536 ∧
    (read_ptr s addr).2.cpu = s.cpu ∧ (read_ptr s addr).2.vm = s.vm ∧
    (read_ptr s addr).2.mmioproc_list = s.mmioproc_list := by
  have ha : addr % 65536 = addr := Nat.mod_eq_of_lt (by omega)
  have ha1 : (addr + 1) % 65536 = addr + 1 := Nat.mod_eq_of_lt haddr
  obtain ⟨c1, v1, m1⟩ := read_mem_cpu s addr
  obtain ⟨c2, v2, m2⟩ := read_mem_cpu (read_mem s addr).2 (addr + 1)
  have e1 := read_mem_value s addr (by rw [ha]; exact hv.1)
  have e2 := read_mem_value (read_mem s addr).2 (addr + 1)
    (by rw [ha1]; exact no_read_intercept_congr _ s _ m1 hv.2)
  rw [ha] at e1
  rw [ha1, v1] at e2
  unfold read_ptr
  simp only [ha]
  rw [e1, e2, c2, c1, v2, v1, m2, m1]
  exact ⟨rfl, rfl, rfl, rfl⟩

theorem word_eq (lo hi : Nat) (h : lo < 256) : lo ||| (hi <<< 8) = lo + 256 * hi := by
  rw [Nat.shiftLeft_eq, Nat.lor_comm, Nat.mul_comm]
  have := Nat.mul_add_lt_is_or (show lo < 2 ^ 8 from h) hi
  omega

theorem push2_full {D : Type} (s : system_t D) (v1 v2 : Nat) (hsp : s.cpu.sp < 256)
    (hs : stack_unhooked s) :
    (push (push s v1) v2).cpu = { s.cpu with sp := (s.cpu.sp + 254) % 256 } ∧
    (push (push s v1) v2).mmioproc_list = s.mmioproc_list ∧
    (push (push s v1) v2).vm.bytes =
      stack_write (stack_write s.vm.bytes s.cpu.sp v1) ((s.cpu.sp + 255) % 256) v2 ∧
    stack_unhooked (push (push s v1) v2) ∧ (push (push s v1) v2).cpu.sp < 256 := by
  obtain ⟨c1, m1, b1, u1, l1⟩ := push_full s v1 hsp hs
  obtain ⟨c2, m2, b2, u2, l2⟩ := push_full (push s v1) v2 l1 u1
  have e1 : (push s v1).cpu.sp = (s.cpu.sp + 255) % 256 := by rw [c1]
  have e : ((s.cpu.sp + 255) % 256 + 255) % 256 = (s.cpu.sp + 254) % 256 := by omega
  refine ⟨?_, by rw [m2, m1], by rw [b2, b1, e1], u2, l2⟩
  rw [c2, c1]
  dsimp only
  rw [e]

theorem push3_full {D : Type} (s : system_t D) (v1 v2 v3 : Nat) (hsp : s.cpu.sp < 256)
    (hs : stack_unhooked s) :
    (push (push (push s v1) v2) v3).cpu = { s.cpu with sp := (s.cpu.sp + 253) % 256 } ∧
    (push (push (push s v1) v2) v3).mmioproc_list = s.mmioproc_list ∧
    (push (push (push s v1) v2) v3).vm.bytes =
      stack_write (stack_write (stack_write s.vm.bytes s.cpu.sp v1) ((s.cpu.sp + 255) % 256) v2)
        ((s.cpu.sp + 254) % 256) v3 := by
  obtain ⟨c2, m2, b2, u2, l2⟩ := push2_full s v1 v2 hsp hs
  obtain ⟨c3, m3, b3, _, _⟩ := push_full (push (push s v1) v2) v3 l2 u2
  have e2 : (push (push s v1) v2).cpu.sp = (s.cpu.sp + 254) % 256 := by rw [c2]
  have e : ((s.cpu.sp + 254) % 256 + 255) % 256 = (s.cpu.sp + 253) % 256 := by omega
  refine ⟨?_, by rw [m3, m2], by rw [b3, b2, e2]⟩
  rw [c3, c2]
  dsimp only
  rw [e]

theorem interrupt_eq {D : Type} (s : system_t D) (vector : Nat) :
    interrupt s vector =
      ⟨RET_JUMP, 6,
        { (read_ptr
            { push (push (push
                  ({ s with cpu := { s.cpu with pc := (s.cpu.pc + 2) % 65536 } } : system_t D)
                  ((((s.cpu.pc + 2) % 65536) >>> 8) &&& 0xff))
                (((s.cpu.pc + 2) % 65536) &&& 0xff)) s.cpu.flags with
              cpu := SET_FLAG (push (push (push
                  ({ s with cpu := { s.cpu with pc := (s.cpu.pc + 2) % 65536 } } : system_t D)
                  ((((s.cpu.pc + 2) % 65536) >>> 8) &&& 0xff))
                (((s.cpu.pc + 2) % 65536) &&& 0xff)) s.cpu.flags).cpu FLAG_INTERRUPT }
            vector).2 with
          cpu :=
            { SET_FLAG (push (push (push
                  ({ s with cpu := { s.cpu with pc := (s.cpu.pc + 2) % 65536 } } : system_t D)
                  ((((s.cpu.pc + 2) % 65536) >>> 8) &&& 0xff))
                (((s.cpu.pc + 2) % 65536) &&& 0xff)) s.cpu.flags).cpu FLAG_INTERRUPT with
              pc := (read_ptr
                { push (push (push
                      ({ s with cpu := { s.cpu with pc := (s.cpu.pc + 2) % 65536 } } : system_t D)
                      ((((s.cpu.pc + 2) % 65536) >>> 8) &&& 0xff))
                    (((s.cpu.pc + 2) % 65536) &&& 0xff)) s.cpu.flags with
                  cpu := SET_FLAG (push (push (push
                      ({ s with cpu := { s.cpu with pc := (s.cpu.pc + 2) % 65536 } } : system_t D)
                      ((((s.cpu.pc + 2) % 65536) >>> 8) &&& 0xff))
                    (((s.cpu.pc + 2) % 65536) &&& 0xff)) s.cpu.flags).cpu FLAG_INTERRUPT }
                vector).1 } }⟩ := by
  unfold interrupt
  simp only [push_cpu_pc_ir, read_ptr_snd_cpu]


theorem interrupt_spec {D : Type} (s : system_t D) (vector : Nat) (hsp : s.cpu.sp < 256)
    (hs : stack_unhooked s) (hvec : vector + 1 < 65536) (hv : vector_unhooked s vector) :
    (interrupt s vector).status = RET_JUMP ∧ (interrupt s vector).cyc = 6 ∧
    (interrupt s vector).sys.mmioproc_list = s.mmioproc_list ∧
    (interrupt s vector).sys.vm.bytes =
      stack_write (stack_write (stack_write s.vm.bytes s.cpu.sp
          ((((s.cpu.pc + 2) % 65536) >>> 8) &&& 0xff))
        ((s.cpu.sp + 255) % 256) (((s.cpu.pc + 2) % 65536) &&& 0xff))
        ((s.cpu.sp + 254) % 256) s.cpu.flags ∧
    (interrupt s vector).sys.cpu =
      { s.cpu with
        flags := s.cpu.flags ||| FLAG_INTERRUPT
        sp := (s.cpu.sp + 253) % 256
        pc := ((interrupt s vector).sys.vm.mem vector % 256 |||
                (((interrupt s vector).sys.vm.mem (vector + 1) % 256) <<< 8)) % 65536 } := by
  obtain ⟨c3, m3, b3⟩ := push3_full
    ({ s with cpu := { s.cpu with pc := (s.cpu.pc + 2) % 65536 } } : system_t D)
    ((((s.cpu.pc + 2) % 65536) >>> 8) &&& 0xff) (((s.cpu.pc + 2) % 65536) &&& 0xff)
    s.cpu.flags hsp hs
  rw [interrupt_eq]
  generalize push (push (push
      ({ s with cpu := { s.cpu with pc := (s.cpu.pc + 2) % 65536 } } : system_t D)
      ((((s.cpu.pc + 2) % 65536) >>> 8) &&& 0xff))
    (((s.cpu.pc + 2) % 65536) &&& 0xff)) s.cpu.flags = t at c3 m3 b3 ⊢
  have hv4 : vector_unhooked
      ({ t with cpu := SET_FLAG t.cpu FLAG_INTERRUPT } : system_t D) vector :=
    ⟨no_read_intercept_congr _ s _ m3 hv.1, no_read_intercept_congr _ s _ m3 hv.2⟩
  obtain ⟨r1, _, r3, r4⟩ := read_ptr_value _ vector hvec hv4
  dsimp only at c3 m3 b3 r1 r3 r4 ⊢
  refine ⟨rfl, rfl, by rw [r4, m3], by rw [r3, b3], ?_⟩
  rw [r1, r3, c3]
  rfl


theorem jsr_spec {D : Type} (s : system_t D) (cyc : Int) (hir : s.cpu.ir = 0x20)
    (hsp : s.cpu.sp < 256) (hs : stack_unhooked s) :
    (jsr s cyc).status = RET_JUMP ∧ (jsr s cyc).cyc = 6 ∧
    (jsr s cyc).sys.mmioproc_list = s.mmioproc_list ∧
    (jsr s cyc).sys.vm.bytes =
      stack_write (stack_write s.vm.bytes s.cpu.sp ((((s.cpu.pc + 2) % 65536) >>> 8) &&& 0xff))
        ((s.cpu.sp + 255) % 256) (((s.cpu.pc + 2) % 65536) &&& 0xff) ∧
    (jsr s cyc).sys.cpu = { s.cpu with pc := s.cpu.arg, sp := (s.cpu.sp + 254) % 256 } := by
  obtain ⟨c2, m2, b2, _, _⟩ := push2_full
    ({ s with cpu := { s.cpu with pc := (s.cpu.pc + 2) % 65536 } } : system_t D)
    ((((s.cpu.pc + 2) % 65536) >>> 8) &&& 0xff) (((s.cpu.pc + 2) % 65536) &&& 0xff) hsp hs
  unfold jsr
  rw [if_neg (fun h => h hir)]
  simp only [push_cpu_pc_ir]
  generalize push (push
      ({ s with cpu := { s.cpu with pc := (s.cpu.pc + 2) % 65536 } } : system_t D)
      ((((s.cpu.pc + 2) % 65536) >>> 8) &&& 0xff))
    (((s.cpu.pc + 2) % 65536) &&& 0xff) = t at c2 m2 b2 ⊢
  dsimp only at c2 m2 b2 ⊢
  refine ⟨trivial, trivial, m2, b2, ?_⟩
  rw [c2]

theorem pull2_full {D : Type} (s : system_t D) (hs : stack_unhooked s) :
    (pull s).1 = s.vm.mem (0x0100 + (s.cpu.sp + 1) % 256) % 256 ∧
    (pull (pull s).2).1 = s.vm.mem (0x0100 + (s.cpu.sp + 2) % 256) % 256 ∧
    (pull (pull s).2).2.cpu = { s.cpu with sp := (s.cpu.sp + 2) % 256 } ∧
    (pull (pull s).2).2.vm = s.vm ∧
    (pull (pull s).2).2.mmioproc_list = s.mmioproc_list := by
  obtain ⟨p1, c1, v1, m1, u1⟩ := pull_full s hs
  obtain ⟨p2, c2, v2, m2, _⟩ := pull_full _ u1
  have e2 : ((s.cpu.sp + 1) % 256 + 1) % 256 = (s.cpu.sp + 2) % 256 := by omega
  rw [v1, c1] at p2
  rw [c1] at c2
  dsimp only at p2 c2
  rw [e2] at p2 c2
  exact ⟨p1, p2, c2, v2.trans v1, m2.trans m1⟩

theorem rti_spec {D : Type} (u : system_t D) (cyc : Int) (hir : u.cpu.ir = 0x40)
    (hs : stack_unhooked u) :
    (rti u cyc).status = RET_JUMP ∧ (rti u cyc).cyc = 6 ∧
    (rti u cyc).sys.mmioproc_list = u.mmioproc_list ∧ (rti u cyc).sys.vm = u.vm ∧
    (rti u cyc).sys.cpu =
      { u.cpu with
        flags := u.vm.mem (0x0100 + (u.cpu.sp + 1) % 256) % 256
        sp := (u.cpu.sp + 3) % 256
        pc := (((u.vm.mem (0x0100 + (u.cpu.sp + 3) % 256) % 256) <<< 8) |||
                u.vm.mem (0x0100 + (u.cpu.sp + 2) % 256) % 256) % 65536 } := by
  obtain ⟨p1, c1, v1, m1, u1⟩ := pull_full u hs
  have hs1 : stack_unhooked
      ({ (pull u).2 with cpu := { (pull u).2.cpu with flags := (pull u).1 } } : system_t D) :=
    stack_unhooked_congr _ _ rfl u1
  obtain ⟨q1, q2, c2, v2, m2⟩ := pull2_full _ hs1
  have e2 : ((u.cpu.sp + 1) % 256 + 1) % 256 = (u.cpu.sp + 2) % 256 := by omega
  have e3 : ((u.cpu.sp + 1) % 256 + 2) % 256 = (u.cpu.sp + 3) % 256 := by omega
  have hq1 : (pull ({ (pull u).2 with
        cpu := { (pull u).2.cpu with flags := (pull u).1 } } : system_t D)).1
      = u.vm.mem (0x0100 + (u.cpu.sp + 2) % 256) % 256 := by
    refine q1.trans ?_
    dsimp only
    rw [v1, c1]
    dsimp only
    rw [e2]
  have hq2 : (pull (pull ({ (pull u).2 with
        cpu := { (pull u).2.cpu with flags := (pull u).1 } } : system_t D)).2).1
      = u.vm.mem (0x0100 + (u.cpu.sp + 3) % 256) % 256 := by
    refine q2.trans ?_
    dsimp only
    rw [v1, c1]
    dsimp only
    rw [e3]
  have hc2 : (pull (pull ({ (pull u).2 with
        cpu := { (pull u).2.cpu with flags := (pull u).1 } } : system_t D)).2).2.cpu
      = { u.cpu with flags := u.vm.mem (0x0100 + (u.cpu.sp + 1) % 256) % 256
                     sp := (u.cpu.sp + 3) % 256 } := by
    refine c2.trans ?_
    dsimp only
    rw [c1, p1]
    dsimp only
    rw [e3]
  unfold rti
  rw [if_neg (fun h => h hir)]
  refine ⟨rfl, rfl, m2.trans m1, v2.trans v1, ?_⟩
  show ({ (pull (pull ({ (pull u).2 with
        cpu := { (pull u).2.cpu with flags := (pull u).1 } } : system_t D)).2).2.cpu with
      pc := (((pull (pull ({ (pull u).2 with
        cpu := { (pull u).2.cpu with flags := (pull u).1 } } : system_t D)).2).1 <<< 8) |||
        (pull ({ (pull u).2 with
        cpu := { (pull u).2.cpu with flags := (pull u).1 } } : system_t D)).1) % 65536 }
      : cpu_6502_t) = _
  rw [hq1, hq2, hc2]

theorem rts_spec {D : Type} (u : system_t D) (cyc : Int) (hir : u.cpu.ir = 0x60)
    (hs : stack_unhooked u) :
    (rts u cyc).status = RET_JUMP ∧ (rts u cyc).cyc = 6 ∧
    (rts u cyc).sys.mmioproc_list = u.mmioproc_list ∧ (rts u cyc).sys.vm = u.vm ∧
    (rts u cyc).sys.cpu =
      { u.cpu with
        sp := (u.cpu.sp + 2) % 256
        pc := ((((u.vm.mem (0x0100 + (u.cpu.sp + 2) % 256) % 256) <<< 8) |||
                u.vm.mem (0x0100 + (u.cpu.sp + 1) % 256) % 256) % 65536 + 1) % 65536 } := by
  obtain ⟨p1, p2, c2, v2, m2⟩ := pull2_full u hs
  unfold rts
  rw [if_neg (fun h => h hir)]
  refine ⟨rfl, rfl, m2, v2, ?_⟩
  show ({ (pull (pull u).2).2.cpu with
      pc := ((((pull (pull u).2).1 <<< 8) ||| (pull u).1) % 65536 + 1) % 65536 }
      : cpu_6502_t) = _
  rw [p1, p2, c2]

theorem stack3_mem (bytes : Nat → Nat) (sp v1 v2 v3 : Nat) (hsp : sp < 256) :
    stack_write (stack_write (stack_write bytes sp v1) ((sp + 255) % 256) v2)
        ((sp + 254) % 256) v3 (OFF_MEM + (0x0100 + sp)) = v1 % 256 ∧
    stack_write (stack_write (stack_write bytes sp v1) ((sp + 255) % 256) v2)
        ((sp + 254) % 256) v3 (OFF_MEM + (0x0100 + (sp + 255) % 256)) = v2 % 256 ∧
    stack_write (stack_write (stack_write bytes sp v1) ((sp + 255) % 256) v2)
        ((sp + 254) % 256) v3 (OFF_MEM + (0x0100 + (sp + 254) % 256)) = v3 % 256 ∧
    ∀ a, a < 65536 → (a < 0x0100 ∨ 0x01ff < a) →
      stack_write (stack_write (stack_write bytes sp v1) ((sp + 255) % 256) v2)
        ((sp + 254) % 256) v3 (OFF_MEM + a) = bytes (OFF_MEM + a) := by
  have l1 : (sp + 255) % 256 < 256 := Nat.mod_lt _ (by decide)
  have l2 : (sp + 254) % 256 < 256 := Nat.mod_lt _ (by decide)
  refine ⟨?_, ?_, ?_, ?_⟩
  · rw [stack_write_mem _ _ _ _ (by omega) l2, if_neg (by omega),
      stack_write_mem _ _ _ _ (by omega) l1, if_neg (by omega),
      stack_write_mem _ _ _ _ (by omega) hsp, if_pos rfl]
  · rw [stack_write_mem _ _ _ _ (by omega) l2, if_neg (by omega),
      stack_write_mem _ _ _ _ (by omega) l1, if_pos rfl]
  · rw [stack_write_mem _ _ _ _ (by omega) l2, if_pos rfl]
  · intro a ha hout
    rw [stack_write_mem _ _ _ _ ha l2, if_neg (by omega),
      stack_write_mem _ _ _ _ ha l1, if_neg (by omega),
      stack_write_mem _ _ _ _ ha hsp, if_neg (by omega)]

theorem stack2_mem (bytes : Nat → Nat) (sp v1 v2 : Nat) (hsp : sp < 256) :
    stack_write (stack_write bytes sp v1) ((sp + 255) % 256) v2 (OFF_MEM + (0x0100 + sp))
      = v1 % 256 ∧
    stack_write (stack_write bytes sp v1) ((sp + 255) % 256) v2
      (OFF_MEM + (0x0100 + (sp + 255) % 256)) = v2 % 256 := by
  have l1 : (sp + 255) % 256 < 256 := Nat.mod_lt _ (by decide)
  refine ⟨?_, ?_⟩
  · rw [stack_write_mem _ _ _ _ (by omega) l1, if_neg (by omega),
      stack_write_mem _ _ _ _ (by omega) hsp, if_pos rfl]
  · rw [stack_write_mem _ _ _ _ (by omega) l1, if_pos rfl]

theorem QUERY_FLAG_flags (c c' : cpu_6502_t) (m : Nat) (h : c.flags = c'.flags) :
    QUERY_FLAG c m = QUERY_FLAG c' m := by
  unfold QUERY_FLAG
  rw [h]

/-- The interrupt sequence on a stack page and a vector without hooks: the three bytes
pushed, the register file and the target. -/
theorem interrupt_entry {D : Type} (s : system_t D) (vector : Nat) (hwf : s.cpu.wf)
    (hvm : s.vm.wf) (hs : stack_unhooked s) (hlo : 0x0200 ≤ vector) (hhi : vector + 1 < 65536)
    (hv : vector_unhooked s vector) :
    (interrupt s vector).status = RET_JUMP ∧ (interrupt s vector).cyc = 6 ∧
    (interrupt s vector).sys.mmioproc_list = s.mmioproc_list ∧
    (interrupt s vector).sys.vm.mem (0x0100 + s.cpu.sp) = (s.cpu.pc + 2) % 65536 / 256 ∧
    (interrupt s vector).sys.vm.mem (0x0100 + (s.cpu.sp + 255) % 256)
      = (s.cpu.pc + 2) % 65536 % 256 ∧
    (interrupt s vector).sys.vm.mem (0x0100 + (s.cpu.sp + 254) % 256) = s.cpu.flags ∧
    (interrupt s vector).sys.cpu =
      { s.cpu with
        flags := s.cpu.flags ||| FLAG_INTERRUPT
        sp := (s.cpu.sp + 253) % 256
        pc := s.vm.mem vector + 256 * s.vm.mem (vector + 1) } := by
  obtain ⟨hf, _, hsp, _⟩ := hwf
  obtain ⟨h1, h2, h3, h4, h5⟩ := interrupt_spec s vector hsp hs hhi hv
  obtain ⟨e1, e2, e3, e4⟩ := stack3_mem s.vm.bytes s.cpu.sp
    ((((s.cpu.pc + 2) % 65536) >>> 8) &&& 0xff) (((s.cpu.pc + 2) % 65536) &&& 0xff)
    s.cpu.flags hsp
  have b1 : s.vm.mem vector < 256 := hvm _
  have b2 : s.vm.mem (vector + 1) < 256 := hvm _
  have m1 : (interrupt s vector).sys.vm.mem vector = s.vm.mem vector := by
    unfold vm_t.mem
    rw [h4, e4 vector (by omega) (Or.inr (by omega))]
  have m2 : (interrupt s vector).sys.vm.mem (vector + 1) = s.vm.mem (vector + 1) := by
    unfold vm_t.mem
    rw [h4, e4 (vector + 1) hhi (Or.inr (by omega))]
  refine ⟨h1, h2, h3, ?_, ?_, ?_, ?_⟩
  · unfold vm_t.mem
    rw [h4, e1, and_ff, Nat.shiftRight_eq_div_pow]
    omega
  · unfold vm_t.mem
    rw [h4, e2, and_ff]
    omega
  · unfold vm_t.mem
    rw [h4, e3]
    exact Nat.mod_eq_of_lt hf
  · rw [h5, m1, m2, Nat.mod_eq_of_lt b1, Nat.mod_eq_of_lt b2, word_eq _ _ b1]
    have : s.vm.mem vector + 256 * s.vm.mem (vector + 1) < 65536 := by omega
    rw [Nat.mod_eq_of_lt this]

/-- RTI on a frame of three bytes (flags `f`, return address `p`) left below the stack
pointer `s0`, on a stack page without hooks. -/
theorem rti_resume {D : Type} (u : system_t D) (cyc : Int) (f p s0 : Nat)
    (hir : u.cpu.ir = 0x40) (hs : stack_unhooked u) (hs0 : s0 < 256)
    (hsp : u.cpu.sp = (s0 + 253) % 256) (hf : f < 256) (hp : p < 65536)
    (hbf : u.vm.mem (0x0100 + (s0 + 254) % 256) = f)
    (hbl : u.vm.mem (0x0100 + (s0 + 255) % 256) = p % 256)
    (hbh : u.vm.mem (0x0100 + s0) = p / 256) :
    (rti u cyc).sys.cpu = { u.cpu with flags := f, sp := s0, pc := p } := by
  obtain ⟨_, _, _, _, hc⟩ := rti_spec u cyc hir hs
  have e1 : (u.cpu.sp + 1) % 256 = (s0 + 254) % 256 := by omega
  have e2 : (u.cpu.sp + 2) % 256 = (s0 + 255) % 256 := by omega
  have e3 : (u.cpu.sp + 3) % 256 = s0 := by omega
  rw [hc, e1, e2, e3, hbf, hbl, hbh, Nat.lor_comm,
    word_eq _ _ (Nat.mod_lt _ (by decide)), Nat.mod_eq_of_lt hf]
  have : p % 256 % 256 + 256 * (p / 256 % 256) = p := by omega
  rw [this, Nat.mod_eq_of_lt hp]

/-- RTS on a frame of two bytes (return address `p`) left below the stack pointer `s0`. -/
theorem rts_resume {D : Type} (u : system_t D) (cyc : Int) (p s0 : Nat)
    (hir : u.cpu.ir = 0x60) (hs : stack_unhooked u) (hs0 : s0 < 256)
    (hsp : u.cpu.sp = (s0 + 254) % 256) (hp : p < 65536)
    (hbl : u.vm.mem (0x0100 + (s0 + 255) % 256) = p % 256)
    (hbh : u.vm.mem (0x0100 + s0) = p / 256) :
    (rts u cyc).sys.cpu = { u.cpu with sp := s0, pc := (p + 1) % 65536 } := by
  obtain ⟨_, _, _, _, hc⟩ := rts_spec u cyc hir hs
  have e1 : (u.cpu.sp + 1) % 256 = (s0 + 255) % 256 := by omega
  have e2 : (u.cpu.sp + 2) % 256 = s0 := by omega
  rw [hc, e1, e2, hbl, hbh, Nat.lor_comm, word_eq _ _ (Nat.mod_lt _ (by decide))]
  have : p % 256 % 256 + 256 * (p / 256 % 256) = p := by omega
  rw [this, Nat.mod_eq_of_lt hp]

theorem pia_hooks_stack_unhooked (s : system_t reginfo_t)
    (h : s.mmioproc_list = { read_proc := [hook_read], write_proc := [hook_write] }) :
    stack_unhooked s := by
  intro a _ h2
  constructor
  · intro f hf v d
    rw [h] at hf
    simp only [List.mem_singleton] at hf
    subst hf
    exact pia_hook_write_passes a v d
  · intro f hf d
    rw [h] at hf
    simp only [List.mem_singleton] at hf
    subst hf
    exact pia_hook_read_ignores a (Or.inl (by omega)) d

theorem pia_hooks_vector_unhooked (s : system_t reginfo_t) (v : Nat) (hv : 0xd013 < v)
    (h : s.mmioproc_list = { read_proc := [hook_read], write_proc := [hook_write] }) :
    vector_unhooked s v := by
  constructor <;>
  · intro f hf d
    rw [h] at hf
    simp only [List.mem_singleton] at hf
    subst hf
    exact pia_hook_read_ignores _ (Or.inr (by omega)) d

theorem vector_example_wf : vector_example.vm.wf := by
  intro i
  simp only [vector_example]
  split_ifs <;> omega


theorem SET_FLAG_wf (cpu : cpu_6502_t) (m : Nat) (hm : m < 256) (h : cpu.wf) :
    (SET_FLAG cpu m).wf := by
  obtain ⟨hf, hrest⟩ := h
  exact ⟨Nat.or_lt_two_pow (show cpu.flags < 2 ^ 8 from hf) (show m < 2 ^ 8 from hm), hrest⟩

theorem QUERY_or_interrupt (cpu c : cpu_6502_t) (h : c.flags = cpu.flags ||| FLAG_INTERRUPT) :
    QUERY_FLAG c FLAG_INTERRUPT = 1 ∧ QUERY_FLAG c FLAG_BREAK = QUERY_FLAG cpu FLAG_BREAK := by
  have e : ∀ m, QUERY_FLAG c m = QUERY_FLAG (SET_FLAG cpu FLAG_INTERRUPT) m :=
    fun m => QUERY_FLAG_flags _ _ m h
  rw [e, e, QUERY_SET _ _ _ (by decide) (by decide), QUERY_SET _ _ _ (by decide) (by decide)]
  exact ⟨rfl, rfl⟩

theorem brk_eq {D : Type} (s : system_t D) (cyc : Int) (hir : s.cpu.ir = 0x00) :
    brk s cyc = interrupt { s with cpu := SET_FLAG s.cpu FLAG_BREAK } BRK_VECTOR := by
  unfold brk
  rw [if_neg (fun h => h hir)]

theorem stk_plp {D : Type} (s : system_t D) (cyc : Int) (hir : s.cpu.ir = 0x28) :
    stk s cyc =
      ⟨RET_OK, 4,
        { (pull s).2 with
          cpu := SET_FLAG { (pull s).2.cpu with flags := (pull s).1 } FLAG_RESERVED }⟩ := by
  simp [stk, hir]


theorem vector_example_cpu_wf : vector_example.cpu.wf := by
  simp [cpu_6502_t.wf, vector_example]

theorem jsr_example_cpu_wf : jsr_example.cpu.wf := by
  simp [cpu_6502_t.wf, jsr_example, pia_system]


theorem reset_example_fetch :
    (cpu_6502_fetch_instr (cpu_6502_reset reset_example)).cpu.ir = 0x40 ∧
    (cpu_6502_fetch_instr (cpu_6502_reset reset_example)).cpu.sp = 0xff ∧
    (cpu_6502_fetch_instr (cpu_6502_reset reset_example)).mmioproc_list
      = { read_proc := [hook_read], write_proc := [hook_write] } ∧
    (cpu_6502_fetch_instr (cpu_6502_reset reset_example)).vm.mem 0x0100 = 0 := by
  refine ⟨by decide, by decide, ?_, by decide⟩
  rw [(fetch_ir _).2.2.2]
  unfold cpu_6502_reset
  dsimp only
  rw [(read_ptr_value _ _ (by decide)
    (pia_hooks_vector_unhooked _ _ (by decide) rfl)).2.2.2]
  rfl


theorem read_mem_with_cpu {D : Type} (s : system_t D) (c : cpu_6502_t) (a : Nat) :
    (read_mem { s with cpu := c } a).1 = (read_mem s a).1 ∧
    (read_mem { s with cpu := c } a).2 = { (read_mem s a).2 with cpu := c } := by
  unfold read_mem
  dsimp only
  cases (read_hooks s.mmioproc_list.read_proc (a % 65536) s.dev).1 <;> exact ⟨rfl, rfl⟩

theorem read_ptr_with_cpu {D : Type} (s : system_t D) (c : cpu_6502_t) (a : Nat) :
    (read_ptr { s with cpu := c } a).1 = (read_ptr s a).1 := by
  unfold read_ptr
  dsimp only
  rw [(read_mem_with_cpu s c _).1, (read_mem_with_cpu s c _).2,
    (read_mem_with_cpu (read_mem s (a % 65536)).2 c _).1]


theorem len_zero_illegal : ∀ op, op < 256 → len_at op = 0 → instr_at op = op_proc.x := by
  decide

theorem xor_ff : ∀ b, b < 256 → b ^^^ 0xff = 255 - b := by
  decide

theorem sbc_binary_eq_adc (cpu : cpu_6502_t) (b : Nat) (ha : cpu.a < 256) (hb : b < 256) :
    sbc_binary cpu b = adc_binary cpu (b ^^^ 0xff) := by
  have hx := xor_ff b hb
  have hxb : 0xff ^^^ b = 255 - b := by rw [Nat.xor_comm]; exact hx
  have hbm : b % 256 = b := Nat.mod_eq_of_lt hb
  have hbm' : (255 - b) % 256 = 255 - b := Nat.mod_eq_of_lt (by omega)
  have hc := QUERY_FLAG_le_one cpu FLAG_CARRY
  have h8 : (((cpu.a : Int) - (b : Int) - (1 - (QUERY_FLAG cpu FLAG_CARRY : Int))) % 256).toNat
      = (cpu.a + (255 - b) + QUERY_FLAG cpu FLAG_CARRY) % 256 := by omega
  have h16 : (((cpu.a : Int) - (b : Int) - (1 - (QUERY_FLAG cpu FLAG_CARRY : Int)))
      % 65536).toNat > 0xff ↔
      ¬ ((cpu.a + (255 - b) + QUERY_FLAG cpu FLAG_CARRY) % 65536 > 255) := by omega
  unfold sbc_binary adc_binary
  simp only [borrow_in_eq, carry_in_eq]
  rw [hx, hbm, hbm', h8, hxb]
  by_cases hY : (cpu.a + (255 - b) + QUERY_FLAG cpu FLAG_CARRY) % 65536 > 255
  · rw [if_pos hY, if_neg (fun h => (h16.mp h) hY)]
  · rw [if_neg hY, if_pos (h16.mpr hY)]


/-! ### Rotates on the accumulator -/

theorem rol_acc {D : Type} (s : system_t D) (cyc : Int) (hir : s.cpu.ir = 0x2a) :
    (rol s cyc).sys.cpu.a
      = (((s.cpu.a % 256) <<< 1) % 256 % 256 ||| QUERY_FLAG s.cpu FLAG_CARRY) % 256 ∧
    QUERY_FLAG (rol s cyc).sys.cpu FLAG_CARRY = if (s.cpu.a % 256) >>> 7 ≠ 0 then 1 else 0 := by
  have ht : rol_target s = some (rmw_target.acc, 2) := by simp [rol_target, hir]
  unfold rol
  rw [ht]
  dsimp only [target_load, target_store]
  rw [(flip_flags_regs _ _).1, QUERY_flip_other _ _ _ (by decide) (by decide) (by decide)]
  by_cases h7 : (s.cpu.a % 256) >>> 7 ≠ 0
  · simp only [if_pos h7, carry_in_eq]
    refine ⟨rfl, ?_⟩
    exact (QUERY_FLAG_flags _ (SET_FLAG s.cpu FLAG_CARRY) FLAG_CARRY rfl).trans
      (by rw [QUERY_SET _ _ _ (by decide) (by decide), if_pos rfl])
  · simp only [if_neg h7, carry_in_eq]
    refine ⟨rfl, ?_⟩
    exact (QUERY_FLAG_flags _ (CLEAR_FLAG s.cpu FLAG_CARRY) FLAG_CARRY rfl).trans
      (by rw [QUERY_CLEAR _ _ _ (by decide) (by decide), if_pos rfl])

theorem ror_acc {D : Type} (s : system_t D) (cyc : Int) (hir : s.cpu.ir = 0x6a) :
    (ror s cyc).sys.cpu.a
      = (((s.cpu.a % 256) >>> 1) % 256 % 256 ||| (QUERY_FLAG s.cpu FLAG_CARRY <<< 7)) % 256 ∧
    QUERY_FLAG (ror s cyc).sys.cpu FLAG_CARRY
      = if s.cpu.a % 256 &&& 0x01 ≠ 0 then 1 else 0 := by
  have ht : ror_target s = some (rmw_target.acc, 2) := by simp [ror_target, hir]
  unfold ror
  rw [ht]
  dsimp only [target_load, target_store]
  rw [(flip_flags_regs _ _).1, QUERY_flip_other _ _ _ (by decide) (by decide) (by decide)]
  by_cases h0 : s.cpu.a % 256 &&& 0x01 ≠ 0
  · simp only [if_pos h0, carry_in_eq]
    refine ⟨rfl, ?_⟩
    exact (QUERY_FLAG_flags _ (SET_FLAG s.cpu FLAG_CARRY) FLAG_CARRY rfl).trans
      (by rw [QUERY_SET _ _ _ (by decide) (by decide), if_pos rfl])
  · simp only [if_neg h0, carry_in_eq]
    refine ⟨rfl, ?_⟩
    exact (QUERY_FLAG_flags _ (CLEAR_FLAG s.cpu FLAG_CARRY) FLAG_CARRY rfl).trans
      (by rw [QUERY_CLEAR _ _ _ (by decide) (by decide), if_pos rfl])

theorem rol_ror_arith : ∀ a, a < 256 → ∀ c, c < 2 →
    ((((((a % 256) <<< 1) % 256 % 256 ||| c) % 256 % 256) >>> 1) % 256 % 256 |||
        ((if (a % 256) >>> 7 ≠ 0 then 1 else 0) <<< 7)) % 256 = a ∧
    (if (((a % 256) <<< 1) % 256 % 256 ||| c) % 256 % 256 &&& 0x01 ≠ 0 then 1 else 0) = c := by
  decide

theorem ror_rol_arith : ∀ a, a < 256 → ∀ c, c < 2 →
    ((((((a % 256) >>> 1) % 256 % 256 ||| (c <<< 7)) % 256 % 256) <<< 1) % 256 % 256 |||
        (if a % 256 &&& 0x01 ≠ 0 then 1 else 0)) % 256 = a ∧
    (if ((((a % 256) >>> 1) % 256 % 256 ||| (c <<< 7)) % 256 % 256) >>> 7 ≠ 0 then 1 else 0)
      = c := by
  decide


/-! ### Compare -/

theorem read_hooks_lt {D : Type} (hs : List (read_proc_t D)) (a : Nat) (d : D) (v : Nat)
    (h : (read_hooks hs a d).1 = some v) : v < 256 := by
  induction hs generalizing d with
  | nil => simp [read_hooks] at h
  | cons f fs ih =>
    unfold read_hooks at h
    dsimp only at h
    split_ifs at h
    · simp only [Option.some.injEq] at h
      rw [← h]
      exact Nat.mod_lt _ (by decide)
    · exact ih _ h

theorem read_mem_fst_lt {D : Type} (s : system_t D) (a : Nat) : (read_mem s a).1 < 256 := by
  unfold read_mem
  dsimp only
  cases h : (read_hooks s.mmioproc_list.read_proc (a % 65536) s.dev).1 with
  | none => exact Nat.mod_lt _ (by decide)
  | some v => exact read_hooks_lt _ _ _ _ h

@[simp] theorem read_ptr_snd_vm {D : Type} (s : system_t D) (addr : Nat) :
    (read_ptr s addr).2.vm = s.vm := by
  simp [read_ptr]

@[simp] theorem read_ptr_wrap_snd_vm {D : Type} (s : system_t D) (addr : Nat) :
    (read_ptr_wrap s addr).2.vm = s.vm := by
  simp [read_ptr_wrap]

@[simp] theorem read_ptr_zp_snd_vm {D : Type} (s : system_t D) (addr : Nat) :
    (read_ptr_zp s addr).2.vm = s.vm := by
  simp [read_ptr_zp]

theorem QUERY_ite {cpu : cpu_6502_t} (p : Prop) [Decidable p] (m m' : Nat)
    (hm : m ∈ flag_masks) (hm' : m' ∈ flag_masks) :
    QUERY_FLAG (if p then SET_FLAG cpu m else CLEAR_FLAG cpu m) m' =
      if m = m' then (if p then 1 else 0) else QUERY_FLAG cpu m' := by
  by_cases hp : p
  · rw [if_pos hp, if_pos hp, QUERY_SET _ _ _ hm hm']
  · rw [if_neg hp, if_neg hp, QUERY_CLEAR _ _ _ hm hm']

theorem cmp_flags_regs (cpu : cpu_6502_t) (r t : Nat) :
    (cmp_flags cpu r t).a = cpu.a ∧ (cmp_flags cpu r t).x = cpu.x ∧
    (cmp_flags cpu r t).y = cpu.y ∧ (cmp_flags cpu r t).sp = cpu.sp := by
  unfold cmp_flags
  simp only
  split_ifs <;> simp [SET_FLAG, CLEAR_FLAG]

theorem cmp_negative_bit (r m : Nat) :
    ((((r : Int) - (m : Int)) % 256).toNat &&& 0x80 ≠ 0) ↔
      (((r : Int) - (m : Int)) % 256) / 128 = 1 := by
  have h80 : (0x80 : Nat) = 2 ^ 7 := by norm_num
  rw [h80, mask_ne_zero_iff, Nat.testBit_to_div_mod]
  simp only [decide_eq_true_eq]
  omega

theorem cmp_flags_spec (cpu : cpu_6502_t) (r m : Nat) (hr : r < 256) (hm : m < 256) :
    spec_compare r m cpu (cmp_flags cpu r m) := by
  have hN : FLAG_NEGATIVE ∈ flag_masks := by decide
  have hC : FLAG_CARRY ∈ flag_masks := by decide
  have hZ : FLAG_ZERO ∈ flag_masks := by decide
  obtain ⟨ra, rx, ry, rsp⟩ := cmp_flags_regs cpu r m
  have hq : ∀ f, f ∈ flag_masks → QUERY_FLAG (cmp_flags cpu r m) f =
      if FLAG_ZERO = f then (if r = m then 1 else 0)
      else if FLAG_CARRY = f then (if r ≥ m then 1 else 0)
      else if FLAG_NEGATIVE = f then
        (if (((r : Int) - (m : Int)) % 256).toNat &&& 0x80 ≠ 0 then 1 else 0)
      else QUERY_FLAG cpu f := by
    intro f hf
    unfold cmp_flags
    simp only [Nat.mod_eq_of_lt hr, Nat.mod_eq_of_lt hm]
    rw [QUERY_ite _ _ _ hZ hf, QUERY_ite _ _ _ hC hf, QUERY_ite _ _ _ hN hf]
  refine ⟨?_, ?_, ?_, ra, rx, ry, rsp, ?_⟩
  · rw [hq _ hC, if_neg (by decide), if_pos rfl]
    split_ifs with h <;> simp [h]
  · rw [hq _ hZ, if_pos rfl]
    split_ifs with h <;> simp [h]
  · rw [hq _ hN, if_neg (by decide), if_neg (by decide), if_pos rfl]
    have key := cmp_negative_bit r m
    by_cases h : (((r : Int) - (m : Int)) % 256).toNat &&& 0x80 ≠ 0
    · rw [if_pos h, key.mp h]
      rfl
    · rw [if_neg h]
      have : ¬ (((r : Int) - (m : Int)) % 256) / 128 = 1 := fun h' => h (key.mpr h')
      simp only [Nat.cast_zero]
      omega
  · intro f hf
    simp only [List.mem_cons, List.mem_singleton, List.not_mem_nil, or_false] at hf
    rcases hf with h | h | h | h <;> subst h <;>
      rw [hq _ (by decide), if_neg (by decide), if_neg (by decide), if_neg (by decide)]

theorem cmp_operand_lt_vm {D : Type} (s s1 : system_t D) (v : Nat) (c : Int)
    (h : cmp_operand s = some (v, s1, c)) : v < 256 ∧ s1.vm = s.vm := by
  unfold cmp_operand at h
  dsimp only at h
  split_ifs at h <;> simp only [Option.some.injEq, Prod.mk.injEq, reduceCtorEq] at h <;>
    obtain ⟨rfl, rfl, _⟩ := h <;>
    exact ⟨by first | exact Nat.mod_lt _ (by decide) | exact read_mem_fst_lt _ _, by simp⟩

theorem cpx_operand_lt_vm {D : Type} (s s1 : system_t D) (v : Nat) (c : Int)
    (h : cpx_operand s = some (v, s1, c)) : v < 256 ∧ s1.vm = s.vm := by
  unfold cpx_operand at h
  dsimp only at h
  split_ifs at h <;> simp only [Option.some.injEq, Prod.mk.injEq, reduceCtorEq] at h <;>
    obtain ⟨rfl, rfl, _⟩ := h <;>
    exact ⟨by first | exact Nat.mod_lt _ (by decide) | exact read_mem_fst_lt _ _, by simp⟩

theorem cpy_operand_lt_vm {D : Type} (s s1 : system_t D) (v : Nat) (c : Int)
    (h : cpy_operand s = some (v, s1, c)) : v < 256 ∧ s1.vm = s.vm := by
  unfold cpy_operand at h
  dsimp only at h
  split_ifs at h <;> simp only [Option.some.injEq, Prod.mk.injEq, reduceCtorEq] at h <;>
    obtain ⟨rfl, rfl, _⟩ := h <;>
    exact ⟨by first | exact Nat.mod_lt _ (by decide) | exact read_mem_fst_lt _ _, by simp⟩


theorem read_mem_of_parts {D : Type} (t s : system_t D) (a : Nat) (d : D)
    (hh : t.mmioproc_list = s.mmioproc_list) (hv : t.vm = s.vm) (hd : t.dev = d) :
    (read_mem t a).1 =
      (read_hooks s.mmioproc_list.read_proc (a % 65536) d).1.getD (s.vm.mem (a % 65536) % 256) ∧
    (read_mem t a).2.dev = (read_hooks s.mmioproc_list.read_proc (a % 65536) d).2 := by
  subst hd
  rw [← hh, ← hv]
  exact read_mem_of_hooks t a _ _ rfl


/-! ### Read-modify-write through `get_pointer` -/

theorem inc_bytes {D : Type} (s : system_t D) (cyc : Int) (off : Nat) (c : Int)
    (ht : inc_target s = some (rmw_target.ptr off, c)) :
    (inc s cyc).sys.vm.bytes = poke s.vm.bytes off (s.vm.bytes off % 256 + 1) ∧
    (inc s cyc).status = RET_OK := by
  unfold inc
  rw [ht]
  exact ⟨rfl, rfl⟩

theorem cmp_d5 {D : Type} (s : system_t D) (cyc : Int) (hir : s.cpu.ir = 0xd5) :
    (cmp s cyc).sys.cpu = cmp_flags s.cpu s.cpu.a (read_mem s (s.cpu.arg + s.cpu.x)).1 := by
  have h : cmp_operand s = some ((read_mem s (s.cpu.arg + s.cpu.x)).1,
      (read_mem s (s.cpu.arg + s.cpu.x)).2, 4) := by
    simp [cmp_operand, hir]
  unfold cmp
  rw [h]
  dsimp only
  rw [read_mem_snd_cpu]

theorem lda_b5 {D : Type} (s : system_t D) (cyc : Int) (hir : s.cpu.ir = 0xb5) :
    (lda s cyc).sys.cpu.a = (read_mem s ((s.cpu.arg + s.cpu.x) &&& 0xff)).1 % 256 := by
  have h : lda_operand s = some ((read_mem s ((s.cpu.arg + s.cpu.x) &&& 0xff)).1,
      (read_mem s ((s.cpu.arg + s.cpu.x) &&& 0xff)).2, 4) := by
    simp [lda_operand, hir]
  unfold lda
  rw [h]
  dsimp only
  rw [(flip_flags_regs _ _).1]

theorem no_hooks_no_read_intercept {D : Type} (s : system_t D) (a : Nat)
    (h : s.mmioproc_list.read_proc = []) : no_read_intercept s a := by
  intro f hf
  rw [h] at hf
  exact absurd hf (List.not_mem_nil _)


@[simp] theorem read_ptr_wrap_snd_hooks {D : Type} (s : system_t D) (addr : Nat) :
    (read_ptr_wrap s addr).2.mmioproc_list = s.mmioproc_list := by
  simp [read_ptr_wrap]

@[simp] theorem read_ptr_zp_snd_hooks {D : Type} (s : system_t D) (addr : Nat) :
    (read_ptr_zp s addr).2.mmioproc_list = s.mmioproc_list := by
  simp [read_ptr_zp]

theorem zp_word_lt (vm : vm_t) (z : Nat) (hvm : vm.wf) : zp_word vm z < 65536 := by
  unfold zp_word
  have b1 : vm.mem (z % 256) < 256 := hvm _
  have b2 : vm.mem ((z + 1) % 256) < 256 := hvm _
  omega

theorem read_ptr_zp_val {D : Type} (s : system_t D) (z : Nat)
    (hr : ∀ a, no_read_intercept s a) (hvm : s.vm.wf) :
    (read_ptr_zp s z).1 = zp_word s.vm z := by
  have ha : (z % 65536) &&& 0xff = z % 256 := by
    rw [and_ff]
    omega
  have hlt : z % 256 < 65536 := by omega
  have h2 : ((z % 256) &&& 0xff00) + ((z % 256 + 1) &&& 0xff) = (z + 1) % 256 := by
    rw [and_ff00, and_ff]
    omega
  have b1 : s.vm.mem (z % 256) < 256 := hvm _
  unfold read_ptr_zp zp_word
  rw [ha, (read_ptr_wrap_value s (z % 256) hlt hvm (hr _) (hr _)).1, h2, word_eq _ _ b1]

theorem cmp_result {D : Type} (s s1 : system_t D) (cyc : Int) (v : Nat) (c : Int)
    (h : cmp_operand s = some (v, s1, c)) :
    (cmp s cyc).sys.cpu = cmp_flags s.cpu s.cpu.a v ∧ (cmp s cyc).sys.vm = s.vm := by
  have hc := cmp_operand_cpu s s1 v c h
  have hv := (cmp_operand_lt_vm s s1 v c h).2
  unfold cmp
  rw [h]
  dsimp only
  rw [hc]
  exact ⟨rfl, hv⟩

theorem cpx_result {D : Type} (s s1 : system_t D) (cyc : Int) (v : Nat) (c : Int)
    (h : cpx_operand s = some (v, s1, c)) :
    (cpx s cyc).sys.cpu = cmp_flags s.cpu s.cpu.x v ∧ (cpx s cyc).sys.vm = s.vm := by
  have hc := cpx_operand_cpu s s1 v c h
  have hv := (cpx_operand_lt_vm s s1 v c h).2
  unfold cpx
  rw [h]
  dsimp only
  rw [hc]
  exact ⟨rfl, hv⟩

theorem cpy_result {D : Type} (s s1 : system_t D) (cyc : Int) (v : Nat) (c : Int)
    (h : cpy_operand s = some (v, s1, c)) :
    (cpy s cyc).sys.cpu = cmp_flags s.cpu s.cpu.y v ∧ (cpy s cyc).sys.vm = s.vm := by
  have hc := cpy_operand_cpu s s1 v c h
  have hv := (cpy_operand_lt_vm s s1 v c h).2
  unfold cpy
  rw [h]
  dsimp only
  rw [hc]
  exact ⟨rfl, hv⟩

theorem compare_close (cpu cpu' : cpu_6502_t) (r v m : Nat) (hr : r < 256) (hm : m < 256)
    (hv : v = m) (hc : cpu' = cmp_flags cpu r v) : spec_compare r m cpu cpu' := by
  subst hv
  subst hc
  exact cmp_flags_spec cpu r v hr hm


/-- C1: every opcode with a real handler has length 1, 2 or 3, every opcode mapped to the
illegal sentinel `x` has length 0, and the self-test `cpu_6502_count_instr` prints no warning. -/
theorem C1_table_lengths_consistent (op : Nat) (h : op < 256) :
    (instr_at op ≠ op_proc.x → len_at op = 1 ∨ len_at op = 2 ∨ len_at op = 3) ∧
    (instr_at op = op_proc.x → len_at op = 0) ∧
    cpu_6502_count_instr.2 = [] := by
  revert op
  decide

/-- C1 at opcode 0x69 (ADC immediate, a real handler of length 2). -/
theorem C1_table_lengths_consistent_witness :
    (0x69 < 256) ∧
    ((instr_at 0x69 ≠ op_proc.x → len_at 0x69 = 1 ∨ len_at 0x69 = 2 ∨ len_at 0x69 = 3) ∧
     (instr_at 0x69 = op_proc.x → len_at 0x69 = 0) ∧
     cpu_6502_count_instr.2 = []) :=
  ⟨by decide, C1_table_lengths_consistent 0x69 (by decide)⟩

/-- C2: binary ADC immediate (opcode 0x69, Decimal clear) leaves
`A' = (A + b + c) mod 256`, Carry set exactly when `A + b + c > 255`, Negative equal to bit 7
of `A'` and Zero set exactly when `A' = 0`; the handler reports Ok. -/
theorem C2_adc_binary_immediate {D : Type} (s : system_t D) (cyc : Int) (hwf : s.cpu.wf)
    (hir : s.cpu.ir = 0x69) (hdec : QUERY_FLAG s.cpu FLAG_DECIMAL = 0) :
    (adc s cyc).status = RET_OK ∧
    (adc s cyc).sys.cpu.a = (s.cpu.a + s.cpu.arg8 + QUERY_FLAG s.cpu FLAG_CARRY) % 256 ∧
    (QUERY_FLAG (adc s cyc).sys.cpu FLAG_CARRY = 1 ↔
      s.cpu.a + s.cpu.arg8 + QUERY_FLAG s.cpu FLAG_CARRY > 255) ∧
    QUERY_FLAG (adc s cyc).sys.cpu FLAG_NEGATIVE = (adc s cyc).sys.cpu.a / 128 % 2 ∧
    (QUERY_FLAG (adc s cyc).sys.cpu FLAG_ZERO = 1 ↔ (adc s cyc).sys.cpu.a = 0) := by
  obtain ⟨_, _, _, _, _, ha, _, _⟩ := hwf
  have hb : s.cpu.arg8 % 256 = s.cpu.arg8 := by unfold cpu_6502_t.arg8; omega
  rw [adc_immediate_binary s cyc hir hdec]
  dsimp only
  have hC : FLAG_CARRY ∈ flag_masks := by decide
  have hA := adc_binary_a s.cpu s.cpu.arg8
  rw [hb] at hA
  have hF := (flip_flags_regs (adc_binary s.cpu s.cpu.arg8) (adc_binary s.cpu s.cpu.arg8).a).1
  rw [hF, hA]
  refine ⟨rfl, rfl, ?_, ?_, ?_⟩
  · rw [QUERY_flip_other _ _ _ hC (by decide) (by decide), adc_binary_carry _ _ ha, hb]
    split_ifs with h <;> simp [h]
  · rw [QUERY_flip_negative]
    omega
  · rw [QUERY_flip_zero]
    have hlt : (s.cpu.a + s.cpu.arg8 + QUERY_FLAG s.cpu FLAG_CARRY) % 256 % 256 =
        (s.cpu.a + s.cpu.arg8 + QUERY_FLAG s.cpu FLAG_CARRY) % 256 := Nat.mod_mod _ _
    rw [hlt]
    split_ifs with h <;> simp [h]

/-- C2 at `A = 0x50`, operand `0x10`, Carry clear: `A' = 0x60` with Carry, Overflow, Negative
and Zero all clear. -/
theorem C2_adc_binary_immediate_witness :
    (adc_example_1.cpu.wf ∧ adc_example_1.cpu.ir = 0x69 ∧
      QUERY_FLAG adc_example_1.cpu FLAG_DECIMAL = 0) ∧
    ((adc adc_example_1 0).sys.cpu.a = 0x60 ∧
      QUERY_FLAG (adc adc_example_1 0).sys.cpu FLAG_CARRY = 0 ∧
      QUERY_FLAG (adc adc_example_1 0).sys.cpu FLAG_OVERFLOW = 0 ∧
      QUERY_FLAG (adc adc_example_1 0).sys.cpu FLAG_NEGATIVE = 0 ∧
      QUERY_FLAG (adc adc_example_1 0).sys.cpu FLAG_ZERO = 0) ∧
    ((adc adc_example_1 0).status = RET_OK ∧
      (adc adc_example_1 0).sys.cpu.a =
        (adc_example_1.cpu.a + adc_example_1.cpu.arg8 +
          QUERY_FLAG adc_example_1.cpu FLAG_CARRY) % 256 ∧
      (QUERY_FLAG (adc adc_example_1 0).sys.cpu FLAG_CARRY = 1 ↔
        adc_example_1.cpu.a + adc_example_1.cpu.arg8 +
          QUERY_FLAG adc_example_1.cpu FLAG_CARRY > 255) ∧
      QUERY_FLAG (adc adc_example_1 0).sys.cpu FLAG_NEGATIVE =
        (adc adc_example_1 0).sys.cpu.a / 128 % 2 ∧
      (QUERY_FLAG (adc adc_example_1 0).sys.cpu FLAG_ZERO = 1 ↔
        (adc adc_example_1 0).sys.cpu.a = 0)) :=
  ⟨⟨by simp [cpu_6502_t.wf, adc_example_1, blank_system], by rfl, by decide⟩,
   ⟨by decide, by decide, by decide, by decide, by decide⟩,
   C2_adc_binary_immediate adc_example_1 0
     (by simp [cpu_6502_t.wf, adc_example_1, blank_system]) (by rfl) (by decide)⟩

/-- C3: binary ADC sets Overflow exactly on signed overflow: after `adc_binary` with operand
`b`, Overflow is set if and only if `signed8 A + signed8 b + c` lies outside `[-128, 127]`;
the same holds after the whole ADC immediate handler. -/
theorem C3_adc_binary_overflow {D : Type} (s : system_t D) (cyc : Int) (b : Nat)
    (hwf : s.cpu.wf) (hb : b < 256) :
    (QUERY_FLAG (adc_binary s.cpu b) FLAG_OVERFLOW = 1 ↔
      (signed8 s.cpu.a + signed8 b + QUERY_FLAG s.cpu FLAG_CARRY < -128 ∨
        127 < signed8 s.cpu.a + signed8 b + QUERY_FLAG s.cpu FLAG_CARRY)) ∧
    (s.cpu.ir = 0x69 → s.cpu.arg8 = b → QUERY_FLAG s.cpu FLAG_DECIMAL = 0 →
      (QUERY_FLAG (adc s cyc).sys.cpu FLAG_OVERFLOW = 1 ↔
        (signed8 s.cpu.a + signed8 b + QUERY_FLAG s.cpu FLAG_CARRY < -128 ∨
          127 < signed8 s.cpu.a + signed8 b + QUERY_FLAG s.cpu FLAG_CARRY))) := by
  obtain ⟨_, _, _, _, _, ha, _, _⟩ := hwf
  have hV : FLAG_OVERFLOW ∈ flag_masks := by decide
  have hbm : b % 256 = b := Nat.mod_eq_of_lt hb
  have key : QUERY_FLAG (adc_binary s.cpu b) FLAG_OVERFLOW = 1 ↔
      (signed8 s.cpu.a + signed8 b + QUERY_FLAG s.cpu FLAG_CARRY < -128 ∨
        127 < signed8 s.cpu.a + signed8 b + QUERY_FLAG s.cpu FLAG_CARRY) := by
    rw [adc_binary_overflow _ _ ha, hbm]
    split_ifs with h <;> simp [h]
  refine ⟨key, ?_⟩
  intro hir harg hdec
  rw [adc_immediate_binary s cyc hir hdec]
  dsimp only
  rw [QUERY_flip_other _ _ _ hV (by decide) (by decide), harg]
  exact key

/-- C3 at `A = 0x50`, operand `0x50`, Carry clear: `A' = 0xA0`, Overflow and Negative set. -/
theorem C3_adc_binary_overflow_witness :
    (adc_example_2.cpu.wf ∧ 0x50 < 256) ∧
    ((adc adc_example_2 0).sys.cpu.a = 0xA0 ∧
      QUERY_FLAG (adc adc_example_2 0).sys.cpu FLAG_OVERFLOW = 1 ∧
      QUERY_FLAG (adc adc_example_2 0).sys.cpu FLAG_NEGATIVE = 1) ∧
    (QUERY_FLAG (adc_binary adc_example_2.cpu 0x50) FLAG_OVERFLOW = 1 ↔
      (signed8 adc_example_2.cpu.a + signed8 0x50 +
          QUERY_FLAG adc_example_2.cpu FLAG_CARRY < -128 ∨
        127 < signed8 adc_example_2.cpu.a + signed8 0x50 +
          QUERY_FLAG adc_example_2.cpu FLAG_CARRY)) :=
  ⟨⟨by simp [cpu_6502_t.wf, adc_example_2, blank_system], by decide⟩,
   ⟨by decide, by decide, by decide⟩,
   (C3_adc_binary_overflow adc_example_2 0 0x50
     (by simp [cpu_6502_t.wf, adc_example_2, blank_system]) (by decide)).1⟩

/-- C4: binary SBC immediate (opcode 0xE9, Decimal clear) with `borrow = 1 - C` leaves
`A' = (A - b - borrow) mod 256`, Carry set exactly when `A >= b + borrow` and clear otherwise,
Negative equal to bit 7 of `A'` and Zero set exactly when `A' = 0`. -/
theorem C4_sbc_binary_immediate {D : Type} (s : system_t D) (cyc : Int) (hwf : s.cpu.wf)
    (hir : s.cpu.ir = 0xe9) (hdec : QUERY_FLAG s.cpu FLAG_DECIMAL = 0) :
    (sbc s cyc).status = RET_OK ∧
    ((sbc s cyc).sys.cpu.a : Int) =
      ((s.cpu.a : Int) - (s.cpu.arg8 : Int) - (1 - (QUERY_FLAG s.cpu FLAG_CARRY : Int))) % 256 ∧
    (QUERY_FLAG (sbc s cyc).sys.cpu FLAG_CARRY = 1 ↔
      s.cpu.arg8 + (1 - QUERY_FLAG s.cpu FLAG_CARRY) ≤ s.cpu.a) ∧
    (QUERY_FLAG (sbc s cyc).sys.cpu FLAG_CARRY = 0 ↔
      s.cpu.a < s.cpu.arg8 + (1 - QUERY_FLAG s.cpu FLAG_CARRY)) ∧
    QUERY_FLAG (sbc s cyc).sys.cpu FLAG_NEGATIVE = (sbc s cyc).sys.cpu.a / 128 % 2 ∧
    (QUERY_FLAG (sbc s cyc).sys.cpu FLAG_ZERO = 1 ↔ (sbc s cyc).sys.cpu.a = 0) := by
  obtain ⟨_, _, _, _, _, ha, _, _⟩ := hwf
  have hb : s.cpu.arg8 % 256 = s.cpu.arg8 := by unfold cpu_6502_t.arg8; omega
  have hC : FLAG_CARRY ∈ flag_masks := by decide
  have hA := sbc_binary_a s.cpu s.cpu.arg8
  rw [hb] at hA
  have hlt := sbc_binary_a_lt s.cpu s.cpu.arg8
  have hF := (flip_flags_regs (sbc_binary s.cpu s.cpu.arg8) (sbc_binary s.cpu s.cpu.arg8).a).1
  have hcar : QUERY_FLAG (flip_flags (sbc_binary s.cpu s.cpu.arg8)
      (sbc_binary s.cpu s.cpu.arg8).a) FLAG_CARRY =
      if s.cpu.arg8 + (1 - QUERY_FLAG s.cpu FLAG_CARRY) ≤ s.cpu.a then 1 else 0 := by
    rw [QUERY_flip_other _ _ _ hC (by decide) (by decide), sbc_binary_carry _ _ ha, hb]
  rw [sbc_immediate_binary s cyc hir hdec]
  dsimp only
  rw [hF]
  refine ⟨rfl, hA, ?_, ?_, ?_, ?_⟩
  · rw [hcar]
    split_ifs with h <;> simp [h]
  · rw [hcar]
    split_ifs with h <;> simp <;> omega
  · rw [QUERY_flip_negative, Nat.mod_eq_of_lt hlt]
  · rw [QUERY_flip_zero, Nat.mod_eq_of_lt hlt]
    split_ifs with h <;> simp [h]

/-- C4 at `A = 0x10`, operand `0x20`, Carry set: `A' = 0xF0`, Carry clear (borrow), Negative
set, Zero clear. -/
theorem C4_sbc_binary_immediate_witness :
    (sbc_example_1.cpu.wf ∧ sbc_example_1.cpu.ir = 0xe9 ∧
      QUERY_FLAG sbc_example_1.cpu FLAG_DECIMAL = 0) ∧
    ((sbc sbc_example_1 0).sys.cpu.a = 0xF0 ∧
      QUERY_FLAG (sbc sbc_example_1 0).sys.cpu FLAG_CARRY = 0 ∧
      QUERY_FLAG (sbc sbc_example_1 0).sys.cpu FLAG_NEGATIVE = 1 ∧
      QUERY_FLAG (sbc sbc_example_1 0).sys.cpu FLAG_ZERO = 0) ∧
    ((sbc sbc_example_1 0).status = RET_OK ∧
      ((sbc sbc_example_1 0).sys.cpu.a : Int) =
        ((sbc_example_1.cpu.a : Int) - (sbc_example_1.cpu.arg8 : Int) -
          (1 - (QUERY_FLAG sbc_example_1.cpu FLAG_CARRY : Int))) % 256) :=
  ⟨⟨by simp [cpu_6502_t.wf, sbc_example_1, blank_system], by rfl, by decide⟩,
   ⟨by decide, by decide, by decide, by decide⟩,
   (C4_sbc_binary_immediate sbc_example_1 0
     (by simp [cpu_6502_t.wf, sbc_example_1, blank_system]) (by rfl) (by decide)).1,
   (C4_sbc_binary_immediate sbc_example_1 0
     (by simp [cpu_6502_t.wf, sbc_example_1, blank_system]) (by rfl) (by decide)).2.1⟩

/-- C5: decimal ADC immediate (opcode 0x69, Decimal set) on packed BCD `A` and `b`: with
`s = dec A + dec b + c`, `A'` is the packed BCD encoding of `s mod 100` and Carry is set
exactly when `s > 99`. -/
theorem C5_adc_decimal_immediate {D : Type} (s : system_t D) (cyc : Int)
    (hir : s.cpu.ir = 0x69) (hdec : QUERY_FLAG s.cpu FLAG_DECIMAL = 1)
    (hA : bcd_valid s.cpu.a) (hB : bcd_valid s.cpu.arg8) :
    (adc s cyc).status = RET_OK ∧
    (adc s cyc).sys.cpu.a =
      bcd_enc ((bcd_dec s.cpu.a + bcd_dec s.cpu.arg8 + QUERY_FLAG s.cpu FLAG_CARRY) % 100) ∧
    (QUERY_FLAG (adc s cyc).sys.cpu FLAG_CARRY = 1 ↔
      bcd_dec s.cpu.a + bcd_dec s.cpu.arg8 + QUERY_FLAG s.cpu FLAG_CARRY > 99) ∧
    bcd_valid (adc s cyc).sys.cpu.a ∧
    bcd_dec (adc s cyc).sys.cpu.a + 100 * QUERY_FLAG (adc s cyc).sys.cpu FLAG_CARRY =
      bcd_dec s.cpu.a + bcd_dec s.cpu.arg8 + QUERY_FLAG s.cpu FLAG_CARRY := by
  have hb : s.cpu.arg8 % 256 = s.cpu.arg8 := by unfold cpu_6502_t.arg8; omega
  have hC : FLAG_CARRY ∈ flag_masks := by decide
  have ha := adc_decimal_a s.cpu s.cpu.arg8
  rw [hb] at ha
  have hF := (flip_flags_regs (adc_decimal s.cpu s.cpu.arg8) (adc_decimal s.cpu s.cpu.arg8).a).1
  rw [adc_immediate_decimal s cyc hir hdec]
  dsimp only
  rw [hF, ha]
  have hc := QUERY_FLAG_le_one s.cpu FLAG_CARRY
  have h1 := bcd_dec_lt _ hA
  have h2 := bcd_dec_lt _ hB
  rw [QUERY_flip_other _ _ _ hC (by decide) (by decide), adc_decimal_carry, hb]
  refine ⟨rfl, rfl, ?_, bcd_enc_valid _ (Nat.mod_lt _ (by norm_num)), ?_⟩
  · split_ifs with h <;> simp [h]
  · rw [bcd_dec_enc]
    split_ifs with h <;> omega

/-- C5 at `A = 0x19`, operand `0x01`, Carry clear: `A' = 0x20`, Carry clear. -/
theorem C5_adc_decimal_immediate_witness :
    (adc_example_3.cpu.ir = 0x69 ∧
      QUERY_FLAG adc_example_3.cpu FLAG_DECIMAL = 1 ∧ bcd_valid adc_example_3.cpu.a ∧
      bcd_valid adc_example_3.cpu.arg8) ∧
    ((adc adc_example_3 0).sys.cpu.a = 0x20 ∧
      QUERY_FLAG (adc adc_example_3 0).sys.cpu FLAG_CARRY = 0) ∧
    ((adc adc_example_3 0).status = RET_OK ∧
      (adc adc_example_3 0).sys.cpu.a =
        bcd_enc ((bcd_dec adc_example_3.cpu.a + bcd_dec adc_example_3.cpu.arg8 +
          QUERY_FLAG adc_example_3.cpu FLAG_CARRY) % 100)) :=
  ⟨⟨by rfl, by decide, by decide, by decide⟩,
   ⟨by decide, by decide⟩,
   (C5_adc_decimal_immediate adc_example_3 0 (by rfl) (by decide) (by decide) (by decide)).1,
   (C5_adc_decimal_immediate adc_example_3 0 (by rfl) (by decide) (by decide) (by decide)).2.1⟩

/-- C6: decimal SBC immediate (opcode 0xE9, Decimal set) on packed BCD `A` and `b`: with
`d = dec A - dec b - (1 - C)`, `A'` is the packed BCD encoding of `d` when `d >= 0` and of
`d + 100` when `d < 0`; Carry is cleared when `d < 0` and set otherwise; `A'` is packed BCD. -/
theorem C6_sbc_decimal_immediate {D : Type} (s : system_t D) (cyc : Int)
    (hir : s.cpu.ir = 0xe9) (hdec : QUERY_FLAG s.cpu FLAG_DECIMAL = 1)
    (hA : bcd_valid s.cpu.a) (hB : bcd_valid s.cpu.arg8) :
    (sbc s cyc).status = RET_OK ∧
    (0 ≤ (bcd_dec s.cpu.a : Int) - bcd_dec s.cpu.arg8 - (1 - (QUERY_FLAG s.cpu FLAG_CARRY : Int)) →
      (sbc s cyc).sys.cpu.a =
        bcd_enc ((bcd_dec s.cpu.a : Int) - bcd_dec s.cpu.arg8 -
          (1 - (QUERY_FLAG s.cpu FLAG_CARRY : Int))).toNat ∧
      QUERY_FLAG (sbc s cyc).sys.cpu FLAG_CARRY = 1) ∧
    ((bcd_dec s.cpu.a : Int) - bcd_dec s.cpu.arg8 - (1 - (QUERY_FLAG s.cpu FLAG_CARRY : Int)) < 0 →
      (sbc s cyc).sys.cpu.a =
        bcd_enc ((bcd_dec s.cpu.a : Int) - bcd_dec s.cpu.arg8 -
          (1 - (QUERY_FLAG s.cpu FLAG_CARRY : Int)) + 100).toNat ∧
      QUERY_FLAG (sbc s cyc).sys.cpu FLAG_CARRY = 0) ∧
    bcd_valid (sbc s cyc).sys.cpu.a := by
  have hb : s.cpu.arg8 % 256 = s.cpu.arg8 := by unfold cpu_6502_t.arg8; omega
  have hC : FLAG_CARRY ∈ flag_masks := by decide
  have hB' : bcd_valid (s.cpu.arg8 % 256) := by rw [hb]; exact hB
  have ha := sbc_decimal_a s.cpu s.cpu.arg8 hA hB'
  have hcar := sbc_decimal_carry s.cpu s.cpu.arg8
  rw [hb] at ha hcar
  have hF := (flip_flags_regs (sbc_decimal s.cpu s.cpu.arg8) (sbc_decimal s.cpu s.cpu.arg8).a).1
  have hc := QUERY_FLAG_le_one s.cpu FLAG_CARRY
  have h1 := bcd_dec_lt _ hA
  have h2 := bcd_dec_lt _ hB
  rw [sbc_immediate_decimal s cyc hir hdec]
  dsimp only
  rw [hF, QUERY_flip_other _ _ _ hC (by decide) (by decide), ha, hcar]
  refine ⟨rfl, ?_, ?_, ?_⟩
  · intro h
    rw [if_neg (by omega), if_neg (by omega)]
    exact ⟨rfl, rfl⟩
  · intro h
    rw [if_pos h, if_pos h]
    exact ⟨rfl, rfl⟩
  · split_ifs with h
    · exact bcd_enc_valid _ (by omega)
    · exact bcd_enc_valid _ (by omega)

/-- C6 at `A = 0x12`, operand `0x34`, Carry set: `d = -22`, so `A' = 0x78` and Carry is
cleared. -/
theorem C6_sbc_decimal_immediate_witness :
    (sbc_example_2.cpu.ir = 0xe9 ∧ QUERY_FLAG sbc_example_2.cpu FLAG_DECIMAL = 1 ∧
      bcd_valid sbc_example_2.cpu.a ∧ bcd_valid sbc_example_2.cpu.arg8) ∧
    ((sbc sbc_example_2 0).sys.cpu.a = 0x78 ∧
      QUERY_FLAG (sbc sbc_example_2 0).sys.cpu FLAG_CARRY = 0) ∧
    ((sbc sbc_example_2 0).status = RET_OK ∧ bcd_valid (sbc sbc_example_2 0).sys.cpu.a) :=
  ⟨⟨by rfl, by decide, by decide, by decide⟩,
   ⟨by decide, by decide⟩,
   (C6_sbc_decimal_immediate sbc_example_2 0 (by rfl) (by decide) (by decide) (by decide)).1,
   (C6_sbc_decimal_immediate sbc_example_2 0 (by rfl) (by decide) (by decide)
     (by decide)).2.2.2⟩

/-- C7: stack round trip.  When no write hook and no read hook intercepts the address
`0x0100 + SP`, `push v` followed by `pull` returns `v` and leaves `SP` as it was before the
push; in particular PHA followed by PLA restores `A` (whatever happened to `A` in between) and
`SP`. -/
theorem C7_stack_round_trip {D : Type} (s : system_t D) (v a' : Nat) (cyc : Int)
    (hwf : s.cpu.wf) (hv : v < 256)
    (hw : no_write_intercept s (0x0100 + s.cpu.sp))
    (hr : no_read_intercept s (0x0100 + s.cpu.sp)) :
    ((pull (push s v)).1 = v ∧ (pull (push s v)).2.cpu.sp = s.cpu.sp) ∧
    (s.cpu.ir = 0x48 →
      (stk s cyc).status = RET_OK ∧
      (stk (before_pla (stk s cyc).sys a') cyc).status = RET_OK ∧
      (stk (before_pla (stk s cyc).sys a') cyc).sys.cpu.a = s.cpu.a ∧
      (stk (before_pla (stk s cyc).sys a') cyc).sys.cpu.sp = s.cpu.sp) := by
  obtain ⟨_, _, hsp, _, _, ha, _, _⟩ := hwf
  constructor
  · obtain ⟨h1, h2⟩ := pull_of_push s (push s v) v hsp hv hw hr rfl rfl rfl
    exact ⟨h1, by rw [h2]⟩
  · intro hir
    rw [stk_pha s cyc hir]
    dsimp only
    have hir' : (before_pla (push s s.cpu.a) a').cpu.ir = 0x68 := rfl
    rw [stk_pla _ cyc hir']
    dsimp only
    obtain ⟨h1, h2⟩ := pull_of_push s (before_pla (push s s.cpu.a) a') s.cpu.a hsp ha hw hr
      rfl rfl rfl
    obtain ⟨f1, _, _, f4, _⟩ := flip_flags_regs
      { (pull (before_pla (push s s.cpu.a) a')).2.cpu with
        a := (pull (before_pla (push s s.cpu.a) a')).1 }
      (pull (before_pla (push s s.cpu.a) a')).1
    refine ⟨rfl, rfl, ?_, ?_⟩
    · rw [f1]
      exact h1
    · rw [f4]
      show (pull (before_pla (push s s.cpu.a) a')).2.cpu.sp = s.cpu.sp
      rw [h2]

/-- C7 on a machine with the peripheral hooks registered, `SP = 0x00`, `A = 0x5a`: the byte
pushed comes back, and PHA then PLA restores `A` after it was overwritten with `0x00`. -/
theorem C7_stack_round_trip_witness :
    (stack_example.cpu.wf ∧ 0x77 < 256 ∧
      no_write_intercept stack_example (0x0100 + stack_example.cpu.sp) ∧
      no_read_intercept stack_example (0x0100 + stack_example.cpu.sp)) ∧
    ((pull (push stack_example 0x77)).1 = 0x77 ∧
      (pull (push stack_example 0x77)).2.cpu.sp = stack_example.cpu.sp) ∧
    (stk (before_pla (stk stack_example 0).sys 0) 0).sys.cpu.a = 0x5a :=
  have hw : no_write_intercept stack_example (0x0100 + stack_example.cpu.sp) := by
    intro h hh val d
    simp only [stack_example, pia_system, List.mem_singleton] at hh
    subst hh
    simp [stack_example, pia_system, hook_write, KBD_DATA, KBD_CR, DSP_DATA, DSP_CR,
      MEM_IGNORED, MEM_INTERCEPTED]
  have hr : no_read_intercept stack_example (0x0100 + stack_example.cpu.sp) := by
    intro h hh d
    simp only [stack_example, pia_system, List.mem_singleton] at hh
    subst hh
    simp [stack_example, pia_system, hook_read, KBD_DATA, KBD_CR, DSP_DATA, DSP_CR,
      MEM_IGNORED, MEM_INTERCEPTED]
  have hwf : stack_example.cpu.wf := by simp [cpu_6502_t.wf, stack_example, pia_system]
  ⟨⟨hwf, by decide, hw, hr⟩,
   (C7_stack_round_trip stack_example 0x77 0 0 hwf (by decide) hw hr).1,
   ((C7_stack_round_trip stack_example 0x77 0 0 hwf (by decide) hw hr).2 rfl).2.2.1⟩

/-- C8, as stated, fails: 256 pushes from `SP = 0x00` do not leave `SP = 0xFF`; they bring
`SP` back to `0x00`. -/
theorem C8_counterexample :
    (push_list sp_zero_example (List.replicate 256 0xaa)).cpu.sp = 0x00 ∧
    ¬ ((push_list sp_zero_example (List.replicate 256 0xaa)).cpu.sp = 0xFF) := by
  have h := push_list_sp_of_lt (List.replicate 256 0xaa) sp_zero_example (by decide)
  rw [List.length_replicate] at h
  have h0 : sp_zero_example.cpu.sp = 0 := rfl
  rw [h0] at h
  rw [h]
  decide

/-- C8, amended: starting from `SP = 0x00`, the first push leaves `SP = 0xFF`, 256 consecutive
pushes leave `SP = 0x00` (the 8-bit stack pointer has wrapped all the way round), and the
address every one of these pushes writes to, `0x0100 + SP`, lies in `0x0100..0x01FF`. -/
theorem C8_push_wraps {D : Type} (s : system_t D) (vs : List Nat) (hsp : s.cpu.sp = 0x00)
    (hlen : vs.length = 256) :
    (push_list s (vs.take 1)).cpu.sp = 0xFF ∧
    (push_list s vs).cpu.sp = 0x00 ∧
    ∀ k, k < 256 →
      0x0100 ≤ (push_list s (vs.take k)).cpu.sp + 0x0100 ∧
      (push_list s (vs.take k)).cpu.sp + 0x0100 ≤ 0x01FF := by
  have hlt : s.cpu.sp < 256 := by omega
  refine ⟨?_, ?_, ?_⟩
  · rw [push_list_sp_of_lt _ _ hlt, List.length_take, hlen, hsp]
    decide
  · rw [push_list_sp_of_lt _ _ hlt, hlen, hsp]
  · intro k hk
    rw [push_list_sp_of_lt _ _ hlt, List.length_take, hlen, hsp]
    omega

/-- C8 (amended) on the machine with the peripheral attached, pushing 256 times `0xaa`. -/
theorem C8_push_wraps_witness :
    (sp_zero_example.cpu.sp = 0x00 ∧ (List.replicate 256 0xaa).length = 256) ∧
    (push_list sp_zero_example ((List.replicate 256 0xaa).take 1)).cpu.sp = 0xFF ∧
    (push_list sp_zero_example (List.replicate 256 0xaa)).cpu.sp = 0x00 :=
  ⟨⟨rfl, List.length_replicate _ _⟩,
   (C8_push_wraps sp_zero_example (List.replicate 256 0xaa) rfl
     (List.length_replicate _ _)).1,
   (C8_push_wraps sp_zero_example (List.replicate 256 0xaa) rfl
     (List.length_replicate _ _)).2.1⟩

/-- C9: with no read hook intercepting, `read_ptr_wrap addr` is
`mem[addr] | mem[(addr & 0xFF00) + ((addr + 1) & 0xFF)] << 8`, the high byte coming from the
page of the low byte; `read_ptr_wrap 0x12FF` takes its bytes from `0x12FF` and `0x1200`, and
JMP (`0x6C`) with that argument jumps to the word read. -/
theorem C9_read_ptr_wrap {D : Type} (s : system_t D) (addr : Nat) (cyc : Int)
    (haddr : addr < 65536) (hvm : s.vm.wf) (hr1 : no_read_intercept s addr)
    (hr2 : no_read_intercept s ((addr &&& 0xff00) + ((addr + 1) &&& 0xff))) :
    (read_ptr_wrap s addr).1 =
      s.vm.mem addr ||| (s.vm.mem ((addr &&& 0xff00) + ((addr + 1) &&& 0xff)) <<< 8) ∧
    ((addr &&& 0xff00) + ((addr + 1) &&& 0xff)) / 256 = addr / 256 ∧
    (addr = 0x12FF →
      (read_ptr_wrap s addr).1 = s.vm.mem 0x12FF ||| (s.vm.mem 0x1200 <<< 8)) ∧
    (s.cpu.ir = 0x6c → s.cpu.arg = addr →
      (jmp s cyc).status = RET_JUMP ∧
      (jmp s cyc).sys.cpu.pc =
        s.vm.mem addr ||| (s.vm.mem ((addr &&& 0xff00) + ((addr + 1) &&& 0xff)) <<< 8)) := by
  obtain ⟨hval, _⟩ := read_ptr_wrap_value s addr haddr hvm hr1 hr2
  refine ⟨hval, ?_, ?_, ?_⟩
  · rw [and_ff00, and_ff]
    omega
  · intro h
    rw [hval, h]
    rfl
  · intro hir harg
    rw [jmp_indirect s cyc hir, harg]
    exact ⟨rfl, hval⟩

/-- C9 on the example: `JMP ($12FF)` with `0x34` at `0x12FF`, `0x12` at `0x1200` and `0x56` at
`0x1300` jumps to `0x1234`, not to `0x5634`. -/
theorem C9_read_ptr_wrap_witness :
    (0x12FF < 65536 ∧ jmp_example.vm.wf ∧ no_read_intercept jmp_example 0x12FF ∧
      no_read_intercept jmp_example ((0x12FF &&& 0xff00) + ((0x12FF + 1) &&& 0xff))) ∧
    (read_ptr_wrap jmp_example 0x12FF).1 = 0x1234 ∧
    (jmp jmp_example 0).sys.cpu.pc = 0x1234 :=
  have hvm : jmp_example.vm.wf := by
    intro i
    simp only [jmp_example]
    split_ifs <;> omega
  have hr : ∀ a, a < 0xd010 → no_read_intercept jmp_example a := by
    intro a ha h hh d
    simp only [jmp_example, List.mem_singleton] at hh
    subst hh
    have h1 : a ≠ KBD_DATA := by unfold KBD_DATA; omega
    have h2 : a ≠ KBD_CR := by unfold KBD_CR; omega
    have h3 : a ≠ DSP_DATA := by unfold DSP_DATA; omega
    have h4 : a ≠ DSP_CR := by unfold DSP_CR; omega
    simp [hook_read, h1, h2, h3, h4, MEM_IGNORED, MEM_INTERCEPTED]
  ⟨⟨by decide, hvm, hr _ (by decide), hr _ (by decide)⟩,
   (C9_read_ptr_wrap jmp_example 0x12FF 0 (by decide) hvm (hr _ (by decide))
     (hr _ (by decide))).1,
   ((C9_read_ptr_wrap jmp_example 0x12FF 0 (by decide) hvm (hr _ (by decide))
     (hr _ (by decide))).2.2.2 rfl rfl).2⟩

/-- C10: for every range `[addr, addr + size)` with `addr + size <= 65536`, `mount_rom`
followed by `umount_rom` over the range leaves `composite[a] = ram[a]` for every `a` in the
range (the RAM content before the mount), leaves the composite view outside the range
unchanged, and leaves the `ram` and `rom` banks unchanged at every address. -/
theorem C10_mount_umount (vm : vm_t) (addr size : Nat) (h : addr + size ≤ 65536) :
    (∀ a, addr ≤ a → a < addr + size →
      (umount_rom (mount_rom vm addr size) addr size).mem a = vm.ram a) ∧
    (∀ a, a < 65536 → ¬ (addr ≤ a ∧ a < addr + size) →
      (umount_rom (mount_rom vm addr size) addr size).mem a = vm.mem a) ∧
    (∀ a, a < 65536 →
      (umount_rom (mount_rom vm addr size) addr size).ram a = vm.ram a ∧
      (umount_rom (mount_rom vm addr size) addr size).rom a = vm.rom a) := by
  refine ⟨?_, ?_, ?_⟩
  · intro a h1 h2
    rw [umount_rom_mem _ _ _ _ h (by omega), if_pos ⟨h1, h2⟩,
      (mount_rom_banks _ _ _ _ h (by omega)).2]
  · intro a h1 h2
    rw [umount_rom_mem _ _ _ _ h h1, if_neg h2, mount_rom_mem _ _ _ _ h h1, if_neg h2]
  · intro a h1
    rw [(umount_rom_banks _ _ _ _ h h1).1, (umount_rom_banks _ _ _ _ h h1).2,
      (mount_rom_banks _ _ _ _ h h1).1, (mount_rom_banks _ _ _ _ h h1).2]
    exact ⟨rfl, rfl⟩

/-- C10 on a bus with `1` in the composite view, `2` in ROM and `3` in RAM, for the range
`[0xFF00, 0x10000)`: inside the range the composite view ends up with the RAM byte `3`,
below it the byte `1` stays. -/
theorem C10_mount_umount_witness :
    (0xFF00 + 0x100 ≤ 65536) ∧
    (umount_rom (mount_rom bank_example 0xFF00 0x100) 0xFF00 0x100).mem 0xFFFC = 3 ∧
    (mount_rom bank_example 0xFF00 0x100).mem 0xFFFC = 2 ∧
    (umount_rom (mount_rom bank_example 0xFF00 0x100) 0xFF00 0x100).mem 0xFEFF = 1 :=
  ⟨by decide,
   (C10_mount_umount bank_example 0xFF00 0x100 (by decide)).1 0xFFFC (by decide) (by decide),
   by decide,
   (C10_mount_umount bank_example 0xFF00 0x100 (by decide)).2.1 0xFEFF (by decide)
     (by decide)⟩

/-- C11: for every range `[addr, addr + size)` with `addr + size <= 65536`, after
`mount_rom` the composite byte of every address in the range is the ROM byte, `read_mem`
there returns the ROM byte when no hook intercepts, and the composite view outside the range
is unchanged. -/
theorem C11_mount_rom_composite {D : Type} (s : system_t D) (addr size : Nat)
    (h : addr + size ≤ 65536) (hvm : s.vm.wf) :
    (∀ a, addr ≤ a → a < addr + size → (mount_rom s.vm addr size).mem a = s.vm.rom a) ∧
    (∀ a, addr ≤ a → a < addr + size → no_read_intercept s a →
      (read_mem { s with vm := mount_rom s.vm addr size } a).1 = s.vm.rom a) ∧
    (∀ a, a < 65536 → ¬ (addr ≤ a ∧ a < addr + size) →
      (mount_rom s.vm addr size).mem a = s.vm.mem a) := by
  refine ⟨?_, ?_, ?_⟩
  · intro a h1 h2
    rw [mount_rom_mem _ _ _ _ h (by omega), if_pos ⟨h1, h2⟩]
  · intro a h1 h2 hr
    have ha : a % 65536 = a := Nat.mod_eq_of_lt (by omega)
    have hr' : no_read_intercept ({ s with vm := mount_rom s.vm addr size } : system_t D)
        (a % 65536) := by rw [ha]; exact hr
    rw [read_mem_value _ _ hr', ha]
    show (mount_rom s.vm addr size).mem a % 256 = s.vm.rom a
    rw [mount_rom_mem _ _ _ _ h (by omega), if_pos ⟨h1, h2⟩]
    exact Nat.mod_eq_of_lt (hvm _)
  · intro a h1 h2
    rw [mount_rom_mem _ _ _ _ h h1, if_neg h2]

/-- C11 on the bus with `1` in the composite view and `2` in ROM, range `[0xFF00, 0x10000)`:
reading `0xFFFC` after the mount gives the ROM byte `2`, the byte below the range stays `1`. -/
theorem C11_mount_rom_composite_witness :
    (0xFF00 + 0x100 ≤ 65536 ∧ bank_system.vm.wf) ∧
    (read_mem { bank_system with vm := mount_rom bank_system.vm 0xFF00 0x100 } 0xFFFC).1 = 2 ∧
    (mount_rom bank_system.vm 0xFF00 0x100).mem 0xFEFF = 1 :=
  ⟨⟨by decide, bank_example_wf⟩,
   (C11_mount_rom_composite bank_system 0xFF00 0x100 (by decide) bank_example_wf).2.1 0xFFFC
     (by decide) (by decide) (bank_system_no_read_intercept _ (by decide)),
   (C11_mount_rom_composite bank_system 0xFF00 0x100 (by decide) bank_example_wf).2.2 0xFEFF
     (by decide) (by decide)⟩

/-- C12, what the code does: `mount_rom` and `umount_rom` set the map tags of the addresses
`0 .. size - 1`, whatever `addr` is, and leave every other tag alone; so for a range that does
not start at 0 the tags of `[addr, addr + size)` beyond `size` keep their old value. -/
theorem C12_map_tags_set_at_base (vm : vm_t) (addr size : Nat) (h : addr + size ≤ 65536) :
    (∀ a, a < size →
      (mount_rom vm addr size).mem_map a = LOC_ROM ∧
      (umount_rom vm addr size).mem_map a = LOC_RAM) ∧
    (∀ a, size ≤ a →
      (mount_rom vm addr size).mem_map a = vm.mem_map a ∧
      (umount_rom vm addr size).mem_map a = vm.mem_map a) := by
  refine ⟨?_, ?_⟩
  · intro a ha
    rw [mount_rom_map _ _ _ _ h, umount_rom_map _ _ _ _ h, if_pos ha, if_pos ha]
    exact ⟨rfl, rfl⟩
  · intro a ha
    rw [mount_rom_map _ _ _ _ h, umount_rom_map _ _ _ _ h, if_neg (by omega), if_neg (by omega)]
    exact ⟨rfl, rfl⟩

/-- C12 at `mount_rom(0xFF00, 0x100)` on a bus whose tags are all RAM: the tag of `0xFF00`,
inside the range, is still RAM, and the tag of `0x0010`, outside the range, has become ROM. -/
theorem C12_map_tags_set_at_base_witness :
    (0xFF00 + 0x100 ≤ 65536) ∧
    (bank_example.mem_map 0xFF00 = LOC_RAM ∧ bank_example.mem_map 0x0010 = LOC_RAM) ∧
    (mount_rom bank_example 0xFF00 0x100).mem_map 0xFF00 = LOC_RAM ∧
    (mount_rom bank_example 0xFF00 0x100).mem_map 0x0010 = LOC_ROM :=
  ⟨by decide, ⟨by decide, by decide⟩,
   ((C12_map_tags_set_at_base bank_example 0xFF00 0x100 (by decide)).2 0xFF00
     (by decide)).1.trans (by decide),
   ((C12_map_tags_set_at_base bank_example 0xFF00 0x100 (by decide)).1 0x0010 (by decide)).1⟩

/-- C13: `read_mem` consults the read hooks in registration order.  With `pre` the hooks that
were called and did not intercept: if the next hook `h` answers `MEM_INTERCEPTED`, the result
is the byte `h` produced and the peripheral is left as `h` left it, whatever hooks `rest`
follow (they are not consulted); if no hook is left, the result is `composite[addr]`. -/
theorem C13_read_mem_hook_order {D : Type} (s : system_t D) (addr : Nat)
    (pre post : List (read_proc_t D)) (hvm : s.vm.wf)
    (hsplit : s.mmioproc_list.read_proc = pre ++ post)
    (hpre : reads_ignored pre (addr % 65536) s.dev) :
    (∀ h rest, post = h :: rest →
      (h (addr % 65536) (dev_after_reads pre (addr % 65536) s.dev)).1 = MEM_INTERCEPTED →
      (read_mem s addr).1 =
        (h (addr % 65536) (dev_after_reads pre (addr % 65536) s.dev)).2.1 % 256 ∧
      (read_mem s addr).2.dev =
        (h (addr % 65536) (dev_after_reads pre (addr % 65536) s.dev)).2.2) ∧
    (post = [] →
      (read_mem s addr).1 = s.vm.mem (addr % 65536) ∧
      (read_mem s addr).2.dev = dev_after_reads pre (addr % 65536) s.dev) := by
  refine ⟨?_, ?_⟩
  · intro h rest hpost hint
    have hk : read_hooks s.mmioproc_list.read_proc (addr % 65536) s.dev =
        (some ((h (addr % 65536) (dev_after_reads pre (addr % 65536) s.dev)).2.1 % 256),
          (h (addr % 65536) (dev_after_reads pre (addr % 65536) s.dev)).2.2) := by
      rw [hsplit, read_hooks_split _ _ _ _ hpre, hpost]
      simp only [read_hooks, if_pos hint]
    exact read_mem_of_hooks s addr _ _ hk
  · intro hpost
    have hk : read_hooks s.mmioproc_list.read_proc (addr % 65536) s.dev =
        (none, dev_after_reads pre (addr % 65536) s.dev) := by
      rw [hsplit, read_hooks_split _ _ _ _ hpre, hpost]
      rfl
    obtain ⟨h1, h2⟩ := read_mem_of_hooks s addr _ _ hk
    refine ⟨?_, h2⟩
    rw [h1]
    exact Nat.mod_eq_of_lt (hvm _)

/-- C13 on a machine with the read hooks `hook_read`, `late_read`: at `0xd010` the first hook
intercepts, the byte is its keyboard register `0x80` and `late_read` has not run (`dsp_cr` is
still 0); at `0x0200` the first hook ignores the read and `late_read` answers `0x99`. -/
theorem C13_read_mem_hook_order_witness :
    (hooks_example.vm.wf ∧ hooks_example.mmioproc_list.read_proc = [] ++ [hook_read, late_read] ∧
      reads_ignored ([] : List (read_proc_t reginfo_t)) (0xd010 % 65536) hooks_example.dev) ∧
    ((read_mem hooks_example 0xd010).1 = 0x80 ∧
      (read_mem hooks_example 0xd010).2.dev.dsp_cr = 0 ∧
      (read_mem hooks_example 0x0200).1 = 0x99) ∧
    ((read_mem hooks_example 0xd010).1 =
        (hook_read (0xd010 % 65536)
          (dev_after_reads [] (0xd010 % 65536) hooks_example.dev)).2.1 % 256 ∧
      (read_mem hooks_example 0xd010).2.dev =
        (hook_read (0xd010 % 65536)
          (dev_after_reads [] (0xd010 % 65536) hooks_example.dev)).2.2) :=
  ⟨⟨bank_example_wf, rfl, trivial⟩,
   ⟨by decide, by decide, by decide⟩,
   (C13_read_mem_hook_order hooks_example 0xd010 [] [hook_read, late_read] bank_example_wf rfl
     trivial).1 hook_read [late_read] rfl (by decide)⟩

/-- C14: `write_mem` consults the write hooks in registration order.  With `pre` the hooks
that were called and did not intercept: if the next hook `h` answers `MEM_INTERCEPTED`, the
bus arrays are left unchanged and the peripheral is left as `h` left it, whatever hooks `rest`
follow (they are not called); if no hook is left, every hook was called and the default write
stores the byte in `ram[addr]` and `composite[addr]`. -/
theorem C14_write_mem_hook_order {D : Type} (s : system_t D) (addr val : Nat)
    (pre post : List (write_proc_t D))
    (hsplit : s.mmioproc_list.write_proc = pre ++ post)
    (hpre : writes_passed pre (addr % 65536) (val % 256) s.dev) :
    (∀ h rest, post = h :: rest →
      (h (addr % 65536) (val % 256)
        (dev_after_writes pre (addr % 65536) (val % 256) s.dev)).1 = MEM_INTERCEPTED →
      (write_mem s addr val).vm = s.vm ∧
      (write_mem s addr val).dev =
        (h (addr % 65536) (val % 256)
          (dev_after_writes pre (addr % 65536) (val % 256) s.dev)).2) ∧
    (post = [] →
      (write_mem s addr val).vm.ram (addr % 65536) = val % 256 ∧
      (write_mem s addr val).vm.mem (addr % 65536) = val % 256 ∧
      (write_mem s addr val).dev = dev_after_writes pre (addr % 65536) (val % 256) s.dev) := by
  refine ⟨?_, ?_⟩
  · intro h rest hpost hint
    have hk : write_hooks s.mmioproc_list.write_proc (addr % 65536) (val % 256) s.dev =
        (true, (h (addr % 65536) (val % 256)
          (dev_after_writes pre (addr % 65536) (val % 256) s.dev)).2) := by
      rw [hsplit, write_hooks_split _ _ _ _ _ hpre, hpost]
      simp only [write_hooks, if_pos hint]
    obtain ⟨h1, _⟩ := write_mem_of_hooks s addr val _ _ hk
    refine ⟨?_, h1⟩
    unfold write_mem
    simp only
    rw [hk]
    rfl
  · intro hpost
    have hk : write_hooks s.mmioproc_list.write_proc (addr % 65536) (val % 256) s.dev =
        (false, dev_after_writes pre (addr % 65536) (val % 256) s.dev) := by
      rw [hsplit, write_hooks_split _ _ _ _ _ hpre, hpost]
      rfl
    obtain ⟨h1, h2⟩ := write_mem_of_hooks s addr val _ _ hk
    obtain ⟨b1, b2⟩ := bank_ram_mem s.vm.bytes (addr % 65536) (val % 256)
    rw [Nat.mod_mod] at b1 b2
    refine ⟨?_, ?_, h1⟩
    · unfold vm_t.ram
      rw [h2]
      exact b1
    · unfold vm_t.mem
      rw [h2]
      exact b2

/-- C14 on a machine with the write hooks `hook_write`, `guard_write`, `guard_write`: a write
to `0x0300` is intercepted by the first `guard_write`, the bus keeps its bytes and the second
`guard_write` has not run (the call counter is 1); a write to `0x0301` passes all three hooks
(the counter is 2) and lands in both banks. -/
theorem C14_write_mem_hook_order_witness :
    (hooks_example.mmioproc_list.write_proc = [hook_write] ++ [guard_write, guard_write] ∧
      writes_passed [hook_write] (0x0300 % 65536) (0x55 % 256) hooks_example.dev) ∧
    ((write_mem hooks_example 0x0300 0x55).dev.kbd_cr = 1 ∧
      (write_mem hooks_example 0x0300 0x55).vm.mem 0x0300 = 1 ∧
      (write_mem hooks_example 0x0300 0x55).vm.ram 0x0300 = 3 ∧
      (write_mem hooks_example 0x0301 0x55).dev.kbd_cr = 2 ∧
      (write_mem hooks_example 0x0301 0x55).vm.mem 0x0301 = 0x55 ∧
      (write_mem hooks_example 0x0301 0x55).vm.ram 0x0301 = 0x55) ∧
    (write_mem hooks_example 0x0300 0x55).vm = hooks_example.vm :=
  ⟨⟨rfl, ⟨pia_hook_write_passes _ _ _, trivial⟩⟩,
   ⟨by decide, by decide, by decide, by decide, by decide, by decide⟩,
   ((C14_write_mem_hook_order hooks_example 0x0300 0x55 [hook_write] [guard_write, guard_write]
     rfl ⟨pia_hook_write_passes _ _ _, trivial⟩).1 guard_write [guard_write] rfl
     (by decide)).1⟩

/-- C15: when no write hook intercepts, `write_mem(addr, val)` sets `ram[addr]` and
`composite[addr]` to `val` whatever the map tag of `addr`, leaves every other byte of `ram`
and `composite`, the whole `rom` bank and all map tags unchanged, and a following `read_mem`
at `addr` that no read hook intercepts returns `val`. -/
theorem C15_write_mem_default {D : Type} (s : system_t D) (addr val : Nat)
    (haddr : addr < 65536) (hval : val < 256) (hw : no_write_intercept s addr) :
    (write_mem s addr val).vm.ram addr = val ∧
    (write_mem s addr val).vm.mem addr = val ∧
    (∀ a, a < 65536 → a ≠ addr →
      (write_mem s addr val).vm.ram a = s.vm.ram a ∧
      (write_mem s addr val).vm.mem a = s.vm.mem a) ∧
    (∀ a, a < 65536 →
      (write_mem s addr val).vm.rom a = s.vm.rom a ∧
      (write_mem s addr val).vm.mem_map a = s.vm.mem_map a) ∧
    (no_read_intercept s addr → (read_mem (write_mem s addr val) addr).1 = val) := by
  have ha : addr % 65536 = addr := Nat.mod_eq_of_lt haddr
  have hv : val % 256 = val := Nat.mod_eq_of_lt hval
  have hb := write_mem_bytes s addr val (by rw [ha]; exact hw)
  rw [ha, hv] at hb
  obtain ⟨b1, b2⟩ := bank_ram_mem s.vm.bytes addr val
  rw [hv] at b1 b2
  have hmem : (write_mem s addr val).vm.mem addr = val := by
    unfold vm_t.mem; rw [hb]; exact b2
  refine ⟨?_, hmem, ?_, ?_, ?_⟩
  · unfold vm_t.ram; rw [hb]; exact b1
  · intro a h1 h2
    unfold vm_t.ram vm_t.mem
    rw [hb]
    unfold poke OFF_RAM OFF_MEM
    constructor
    · rw [if_neg (by omega), if_neg (by omega)]
    · rw [if_neg (by omega), if_neg (by omega)]
  · intro a h1
    unfold vm_t.rom vm_t.mem_map
    rw [hb]
    unfold poke OFF_RAM OFF_MEM OFF_ROM OFF_MAP
    constructor
    · rw [if_neg (by omega), if_neg (by omega)]
    · rw [if_neg (by omega), if_neg (by omega)]
  · intro hr
    have hr' : no_read_intercept (write_mem s addr val) (addr % 65536) := by
      unfold no_read_intercept
      rw [(write_mem_cpu s addr val).2, ha]
      exact hr
    rw [read_mem_value _ _ hr', ha, hmem]
    exact hv

/-- C15 on the bus with ROM mounted over `[0xFF00, 0x10000)`: a write of `0x55` to `0xFF00`
lands in `ram` and in the composite view, the ROM bank keeps its byte `2`, and reading the
address back gives `0x55`. -/
theorem C15_write_mem_default_witness :
    (0xFF00 < 65536 ∧ 0x55 < 256 ∧ no_write_intercept mounted_example 0xFF00) ∧
    (write_mem mounted_example 0xFF00 0x55).vm.ram 0xFF00 = 0x55 ∧
    (write_mem mounted_example 0xFF00 0x55).vm.mem 0xFF00 = 0x55 ∧
    (write_mem mounted_example 0xFF00 0x55).vm.rom 0xFF00 = 2 :=
  have hw : no_write_intercept mounted_example 0xFF00 := bank_system_no_write_intercept _
  ⟨⟨by decide, by decide, hw⟩,
   (C15_write_mem_default mounted_example 0xFF00 0x55 (by decide) (by decide) hw).1,
   (C15_write_mem_default mounted_example 0xFF00 0x55 (by decide) (by decide) hw).2.1,
   by decide⟩

/-- C16, what the code does at the failing input: on the bus with ROM byte `2` mounted over
`[0xFF00, 0x10000)`, `write_mem(0xFF00, 0x55)` does not fall through to RAM only; the composite
byte no longer holds the ROM value and `read_mem(0xFF00)` returns `0x55`, not the ROM byte. -/
theorem C16_write_reaches_composite :
    mounted_example.vm.mem 0xFF00 = 2 ∧ mounted_example.vm.rom 0xFF00 = 2 ∧
    (write_mem mounted_example 0xFF00 0x55).vm.ram 0xFF00 = 0x55 ∧
    (write_mem mounted_example 0xFF00 0x55).vm.mem 0xFF00 = 0x55 ∧
    (write_mem mounted_example 0xFF00 0x55).vm.rom 0xFF00 = 2 ∧
    (read_mem (write_mem mounted_example 0xFF00 0x55) 0xFF00).1 = 0x55 ∧
    ¬ ((read_mem (write_mem mounted_example 0xFF00 0x55) 0xFF00).1 =
      mounted_example.vm.rom 0xFF00) := by
  decide

/-- C17: with no read hook intercepting at `PC`, `PC + 1` and `PC + 2`, fetch leaves the byte
at `PC` in `IR`; when `len[IR] = 2`, `ARG` is the byte at `(PC + 1) mod 65536` with a zero high
byte; when `len[IR] = 3`, `ARG` is that byte or-ed with the byte at `(PC + 2) mod 65536`
shifted left by 8. -/
theorem C17_fetch_decodes {D : Type} (s : system_t D) (hpc : s.cpu.pc < 65536) (hvm : s.vm.wf)
    (h0 : no_read_intercept s s.cpu.pc)
    (h1 : no_read_intercept s ((s.cpu.pc + 1) % 65536))
    (h2 : no_read_intercept s ((s.cpu.pc + 2) % 65536)) :
    (cpu_6502_fetch_instr s).cpu.ir = s.vm.mem s.cpu.pc ∧
    (len_at (s.vm.mem s.cpu.pc) = 2 →
      (cpu_6502_fetch_instr s).cpu.arg = s.vm.mem ((s.cpu.pc + 1) % 65536) ∧
      (cpu_6502_fetch_instr s).cpu.arg / 256 = 0) ∧
    (len_at (s.vm.mem s.cpu.pc) = 3 →
      (cpu_6502_fetch_instr s).cpu.arg =
        s.vm.mem ((s.cpu.pc + 1) % 65536) ||| (s.vm.mem ((s.cpu.pc + 2) % 65536) <<< 8)) := by
  have m0 : s.cpu.pc % 65536 = s.cpu.pc := Nat.mod_eq_of_lt hpc
  have m1 : (s.cpu.pc + 1) % 65536 % 65536 = (s.cpu.pc + 1) % 65536 := Nat.mod_mod _ _
  have m2 : (s.cpu.pc + 2) % 65536 % 65536 = (s.cpu.pc + 2) % 65536 := Nat.mod_mod _ _
  have e0 : (read_mem s s.cpu.pc).1 = s.vm.mem s.cpu.pc := by
    have := read_mem_value_of s s s.cpu.pc rfl rfl (by rw [m0]; exact h0) hvm
    rw [m0] at this
    exact this
  have e1 : ∀ t : system_t D, t.mmioproc_list = s.mmioproc_list → t.vm = s.vm →
      (read_mem t ((s.cpu.pc + 1) % 65536)).1 = s.vm.mem ((s.cpu.pc + 1) % 65536) := by
    intro t hh hv
    have := read_mem_value_of t s ((s.cpu.pc + 1) % 65536) hh hv (by rw [m1]; exact h1) hvm
    rw [m1] at this
    exact this
  have e2 : ∀ t : system_t D, t.mmioproc_list = s.mmioproc_list → t.vm = s.vm →
      (read_mem t ((s.cpu.pc + 2) % 65536)).1 = s.vm.mem ((s.cpu.pc + 2) % 65536) := by
    intro t hh hv
    have := read_mem_value_of t s ((s.cpu.pc + 2) % 65536) hh hv (by rw [m2]; exact h2) hvm
    rw [m2] at this
    exact this
  have b1 : s.vm.mem ((s.cpu.pc + 1) % 65536) < 256 := hvm _
  have b2 : s.vm.mem ((s.cpu.pc + 2) % 65536) < 256 := hvm _
  refine ⟨?_, ?_, ?_⟩
  · rw [(fetch_ir s).1, e0]
  · intro hlen
    unfold cpu_6502_fetch_instr
    dsimp only
    simp only [read_mem_snd_cpu, and_ffff, e0]
    rw [if_neg (by omega)]
    dsimp only
    rw [e1 _ (by simp) (by simp)]
    exact ⟨rfl, by omega⟩
  · intro hlen
    unfold cpu_6502_fetch_instr
    dsimp only
    simp only [read_mem_snd_cpu, and_ffff, e0]
    rw [if_pos hlen]
    dsimp only
    rw [e1 _ (by simp) (by simp), e2 _ (by simp) (by simp)]
    exact Nat.mod_eq_of_lt (word_lt _ _ b1 b2)

/-- C17 on `AD 34 12` (LDA $1234, length 3) and on `A9 7F 12` (LDA #$7F, length 2) at
`0x0400`, with a stale `ARG = 0xBEEF`: fetch leaves `IR = 0xAD`, `ARG = 0x1234` and
`IR = 0xA9`, `ARG = 0x007F`. -/
theorem C17_fetch_decodes_witness :
    ((code_system 0xAD 0x34 0x12).cpu.pc < 65536 ∧ (code_system 0xAD 0x34 0x12).vm.wf ∧
      no_read_intercept (code_system 0xAD 0x34 0x12) (code_system 0xAD 0x34 0x12).cpu.pc) ∧
    ((cpu_6502_fetch_instr (code_system 0xAD 0x34 0x12)).cpu.ir = 0xAD ∧
      (cpu_6502_fetch_instr (code_system 0xAD 0x34 0x12)).cpu.arg = 0x1234 ∧
      (cpu_6502_fetch_instr (code_system 0xA9 0x7F 0x12)).cpu.ir = 0xA9 ∧
      (cpu_6502_fetch_instr (code_system 0xA9 0x7F 0x12)).cpu.arg = 0x007F) ∧
    (cpu_6502_fetch_instr (code_system 0xAD 0x34 0x12)).cpu.ir =
      (code_system 0xAD 0x34 0x12).vm.mem (code_system 0xAD 0x34 0x12).cpu.pc :=
  ⟨⟨by decide, code_system_wf _ _ _, code_system_no_read_intercept _ _ _ _ (by decide)⟩,
   ⟨by decide, by decide, by decide, by decide⟩,
   (C17_fetch_decodes (code_system 0xAD 0x34 0x12) (by decide) (code_system_wf _ _ _)
     (code_system_no_read_intercept _ _ _ _ (by decide))
     (code_system_no_read_intercept _ _ _ _ (by decide))
     (code_system_no_read_intercept _ _ _ _ (by decide))).1⟩

/-- C18: exec hands back the status of the handler and advances `PC` by the table length
exactly when that status is not Jump: on Ok (and on every other status but Jump)
`PC' = (PC + len[IR]) mod 65536`; on Jump, `PC'` is the value the handler left, with no further
advance; JMP $xxxx (`0x4C`) leaves `PC' = ARG`. -/
theorem C18_exec_pc_advance {D : Type} (s : system_t D) (cyc : Int) :
    (cpu_6502_exec_instr s cyc).status = (call_proc (instr_at s.cpu.ir) s cyc).status ∧
    ((call_proc (instr_at s.cpu.ir) s cyc).status = RET_OK →
      (cpu_6502_exec_instr s cyc).sys.cpu.pc = (s.cpu.pc + len_at s.cpu.ir) % 65536) ∧
    ((call_proc (instr_at s.cpu.ir) s cyc).status ≠ RET_JUMP →
      (cpu_6502_exec_instr s cyc).sys.cpu.pc = (s.cpu.pc + len_at s.cpu.ir) % 65536) ∧
    ((call_proc (instr_at s.cpu.ir) s cyc).status = RET_JUMP →
      (cpu_6502_exec_instr s cyc).sys.cpu.pc =
        (call_proc (instr_at s.cpu.ir) s cyc).sys.cpu.pc) ∧
    (s.cpu.ir = 0x4c →
      (cpu_6502_exec_instr s cyc).status = RET_JUMP ∧
      (cpu_6502_exec_instr s cyc).sys.cpu.pc = s.cpu.arg) := by
  refine ⟨(exec_status s cyc).1, ?_, exec_pc_no_jump s cyc, ?_, ?_⟩
  · intro h
    exact exec_pc_no_jump s cyc (by rw [h]; decide)
  · intro h
    rw [exec_jump s cyc h]
  · intro hir
    have hj : call_proc (instr_at s.cpu.ir) s cyc =
        ⟨RET_JUMP, 3, { s with cpu := { s.cpu with pc := s.cpu.arg } }⟩ := by
      rw [hir]
      have ht : instr_at 0x4c = op_proc.jmp := by decide
      rw [ht]
      show jmp s cyc = _
      simp [jmp, hir]
    have hst : (call_proc (instr_at s.cpu.ir) s cyc).status = RET_JUMP := by rw [hj]
    rw [exec_jump s cyc hst, hj]
    exact ⟨rfl, rfl⟩

/-- C18 on three instructions at `PC = 0x0400`: LDA #$7F (Ok, length 2) ends at `0x0402`,
JMP $1234 (Jump) ends at `0x1234`, and INX at `PC = 0xFFFF` (Ok, length 1) wraps to `0x0000`. -/
theorem C18_exec_pc_advance_witness :
    ((cpu_6502_exec_instr (cpu_6502_fetch_instr (code_system 0xA9 0x7F 0x12)) 0).status = RET_OK ∧
      (cpu_6502_exec_instr (cpu_6502_fetch_instr (code_system 0xA9 0x7F 0x12)) 0).sys.cpu.pc
        = 0x0402 ∧
      (cpu_6502_exec_instr (cpu_6502_fetch_instr (code_system 0x4C 0x34 0x12)) 0).sys.cpu.pc
        = 0x1234 ∧
      (cpu_6502_exec_instr (blank_system ⟨0x20, 0xFFFF, 0xff, 0xe8, 0, 0, 0, 0⟩) 0).sys.cpu.pc
        = 0x0000) ∧
    ((cpu_6502_exec_instr (cpu_6502_fetch_instr (code_system 0x4C 0x34 0x12)) 0).status
        = RET_JUMP ∧
      (cpu_6502_exec_instr (cpu_6502_fetch_instr (code_system 0x4C 0x34 0x12)) 0).sys.cpu.pc =
        (cpu_6502_fetch_instr (code_system 0x4C 0x34 0x12)).cpu.arg) :=
  ⟨⟨by decide, by decide, by decide, by decide⟩,
   (C18_exec_pc_advance (cpu_6502_fetch_instr (code_system 0x4C 0x34 0x12)) 0).2.2.2.2
     (by decide)⟩

/-- C19: when `IR` holds an opcode whose table slot is the illegal sentinel, exec returns
IllegalInstruction and leaves the whole system as it was: `PC`, `A`, `X`, `Y`, `SP`, the flags,
the bus memory and the peripheral; the cycle count is not stored. -/
theorem C19_illegal_opcode {D : Type} (s : system_t D) (cyc : Int) (hpc : s.cpu.pc < 65536)
    (hill : instr_at s.cpu.ir = op_proc.x) :
    (cpu_6502_exec_instr s cyc).status = RET_ERR_INSTR ∧
    (cpu_6502_exec_instr s cyc).sys.cpu = s.cpu ∧
    (cpu_6502_exec_instr s cyc).sys.vm = s.vm ∧
    (cpu_6502_exec_instr s cyc).sys.dev = s.dev ∧
    (cpu_6502_exec_instr s cyc).cyc = cyc := by
  rw [exec_illegal s cyc hpc hill]
  exact ⟨rfl, rfl, rfl, rfl, rfl⟩

/-- C19 on the unassigned opcode `0x02` fetched at `PC = 0x0400`. -/
theorem C19_illegal_opcode_witness :
    ((cpu_6502_fetch_instr (code_system 0x02 0x34 0x12)).cpu.pc < 65536 ∧
      instr_at (cpu_6502_fetch_instr (code_system 0x02 0x34 0x12)).cpu.ir = op_proc.x) ∧
    ((cpu_6502_exec_instr (cpu_6502_fetch_instr (code_system 0x02 0x34 0x12)) 7).status
        = RET_ERR_INSTR ∧
      (cpu_6502_exec_instr (cpu_6502_fetch_instr (code_system 0x02 0x34 0x12)) 7).sys.cpu =
        (cpu_6502_fetch_instr (code_system 0x02 0x34 0x12)).cpu) :=
  ⟨⟨by decide, by decide⟩,
   (C19_illegal_opcode (cpu_6502_fetch_instr (code_system 0x02 0x34 0x12)) 7 (by decide)
     (by decide)).1,
   (C19_illegal_opcode (cpu_6502_fetch_instr (code_system 0x02 0x34 0x12)) 7 (by decide)
     (by decide)).2.1⟩

/-- C20, as stated, fails: with the unassigned opcode `0x02` at `PC`, exec returns
IllegalInstruction, the quit flag is clear, and the status `vm_step` hands back is Loop, not
IllegalInstruction. -/
theorem C20_counterexample :
    (cpu_6502_exec_instr (cpu_6502_fetch_instr (code_system 0x02 0x34 0x12)) 0).status
      = RET_ERR_INSTR ∧
    (vm_step pia_step (code_system 0x02 0x34 0x12) RET_OK 0).2.vm.quit = 0 ∧
    (vm_step pia_step (code_system 0x02 0x34 0x12) RET_OK 0).1 = RET_LOOP ∧
    ¬ ((vm_step pia_step (code_system 0x02 0x34 0x12) RET_OK 0).1 = RET_ERR_INSTR) := by
  decide

/-- C20, amended: when the opcode fetched by `vm_step` is illegal, exec returns
IllegalInstruction but `vm_step` does not hand it on; `PC` is left where it was, so with a
peripheral step that leaves the register file alone and the quit flag clear, the status
`vm_step` hands back is Loop. -/
theorem C20_illegal_yields_loop {D : Type} (periph_step : system_t D → system_t D)
    (s : system_t D) (status cycles : Int) (hpc : s.cpu.pc < 65536)
    (hill : instr_at (cpu_6502_fetch_instr s).cpu.ir = op_proc.x)
    (hstep : ∀ t, (periph_step t).cpu = t.cpu)
    (hquit : (vm_step periph_step s status cycles).2.vm.quit = 0) :
    (cpu_6502_exec_instr (cpu_6502_fetch_instr s) cycles).status = RET_ERR_INSTR ∧
    (vm_step periph_step s status cycles).1 = RET_LOOP := by
  obtain ⟨_, hfpc, _, _⟩ := fetch_ir s
  have hex := exec_illegal (cpu_6502_fetch_instr s) cycles (by rw [hfpc]; exact hpc) hill
  refine ⟨by rw [hex], ?_⟩
  unfold vm_step at hquit ⊢
  dsimp only at hquit ⊢
  rw [hex] at hquit ⊢
  dsimp only at hquit ⊢
  rw [if_neg (fun h => h hquit)]
  have hpc' : cpu_6502_get_pc
      ({ periph_step (cpu_6502_fetch_instr s) with
          vm :=
            { (periph_step (cpu_6502_fetch_instr s)).vm with
              step := ((periph_step (cpu_6502_fetch_instr s)).vm.step + 1) % 4294967296
              cycle :=
                (((periph_step (cpu_6502_fetch_instr s)).vm.cycle : Int) + cycles)
                  % 4294967296 |>.toNat } } : system_t D) = cpu_6502_get_pc s := by
    show (periph_step (cpu_6502_fetch_instr s)).cpu.pc = s.cpu.pc
    rw [hstep, hfpc]
  rw [if_pos hpc']

/-- C20 (amended) on the opcode `0x02` at `PC = 0x0400` with the peripheral attached. -/
theorem C20_illegal_yields_loop_witness :
    ((code_system 0x02 0x34 0x12).cpu.pc < 65536 ∧
      instr_at (cpu_6502_fetch_instr (code_system 0x02 0x34 0x12)).cpu.ir = op_proc.x ∧
      (∀ t, (pia_step t).cpu = t.cpu) ∧
      (vm_step pia_step (code_system 0x02 0x34 0x12) RET_OK 0).2.vm.quit = 0) ∧
    (vm_step pia_step (code_system 0x02 0x34 0x12) RET_OK 0).1 = RET_LOOP :=
  have hstep : ∀ t, (pia_step t).cpu = t.cpu := by
    intro t
    unfold pia_step
    split_ifs <;> rfl
  ⟨⟨by decide, by decide, hstep, by decide⟩,
   (C20_illegal_yields_loop pia_step (code_system 0x02 0x34 0x12) RET_OK 0 (by decide)
     (by decide) hstep (by decide)).2⟩


/-- C21: when the quit flag is clear after the step (and the peripheral step leaves the
register file alone), `vm_step` hands back Loop exactly when `PC` after exec equals the
`PC` read before the fetch, and Ok in every other case: no stale status survives, because a
handler never refuses an opcode the table routes to it and an illegal opcode leaves `PC`
in place. -/
theorem C21_step_loop_or_ok {D : Type} (periph_step : system_t D → system_t D)
    (s : system_t D) (status cycles : Int) (hpc : s.cpu.pc < 65536)
    (hstep : ∀ t, (periph_step t).cpu = t.cpu)
    (hquit : (vm_step periph_step s status cycles).2.vm.quit = 0) :
    ((vm_step periph_step s status cycles).1 = RET_LOOP ↔
      (cpu_6502_exec_instr (cpu_6502_fetch_instr s) cycles).sys.cpu.pc = cpu_6502_get_pc s) ∧
    ((cpu_6502_exec_instr (cpu_6502_fetch_instr s) cycles).sys.cpu.pc ≠ cpu_6502_get_pc s →
      (vm_step periph_step s status cycles).1 = RET_OK) := by
  have hst := vm_step_status periph_step s status cycles hstep
  rw [if_neg (fun h => h hquit)] at hst
  have hok : (cpu_6502_exec_instr (cpu_6502_fetch_instr s) cycles).sys.cpu.pc
      ≠ cpu_6502_get_pc s → (vm_step periph_step s status cycles).1 = RET_OK := by
    intro hne
    rw [hst, if_neg hne]
    by_cases hleg : instr_at (cpu_6502_fetch_instr s).cpu.ir = op_proc.x
    · exfalso
      apply hne
      obtain ⟨_, hfpc, _, _⟩ := fetch_ir s
      rw [exec_illegal (cpu_6502_fetch_instr s) cycles (by rw [hfpc]; exact hpc) hleg]
      exact hfpc
    · rw [if_pos (exec_legal _ cycles hleg)]
  refine ⟨⟨?_, ?_⟩, hok⟩
  · intro hloop
    by_contra hne
    rw [hok hne] at hloop
    exact absurd hloop (by decide)
  · intro heq
    rw [hst, if_pos heq]

/-- C21 on `LDA #$34` at `PC = 0x0400` with the peripheral attached and a stale Loop status
coming in: `PC` moves to `0x0402` and the step hands back Ok. -/
theorem C21_step_loop_or_ok_witness :
    ((code_system 0xa9 0x34 0x12).cpu.pc < 65536 ∧
      (∀ t, (pia_step t).cpu = t.cpu) ∧
      (vm_step pia_step (code_system 0xa9 0x34 0x12) RET_LOOP 0).2.vm.quit = 0) ∧
    (cpu_6502_exec_instr (cpu_6502_fetch_instr (code_system 0xa9 0x34 0x12)) 0).sys.cpu.pc
      = 0x0402 ∧
    (vm_step pia_step (code_system 0xa9 0x34 0x12) RET_LOOP 0).1 = RET_OK :=
  ⟨⟨by decide, pia_step_cpu, by decide⟩, by decide,
   (C21_step_loop_or_ok pia_step (code_system 0xa9 0x34 0x12) RET_LOOP 0 (by decide)
     pia_step_cpu (by decide)).2 (by decide)⟩

/-- C22: whenever the quit flag is set at the end of a step, whoever set it, `vm_step`
hands back Quit, whatever the handler returned, whether `PC` moved and whatever status
came in. -/
theorem C22_quit_overrides {D : Type} (periph_step : system_t D → system_t D)
    (s : system_t D) (status cycles : Int)
    (hquit : (vm_step periph_step s status cycles).2.vm.quit ≠ 0) :
    (vm_step periph_step s status cycles).1 = RET_QUIT := by
  unfold vm_step at hquit ⊢
  dsimp only at hquit ⊢
  rw [if_pos hquit]

/-- C22 on a step in which the peripheral raises the quit flag: the instruction is
`JMP $0400` at `0x0400` (a loop), the flag is clear before the step, and the status is
Quit, not Loop. -/
theorem C22_quit_overrides_witness :
    ((code_system 0x4c 0x00 0x04).vm.quit = 0 ∧
      (vm_step escape_step (code_system 0x4c 0x00 0x04) RET_OK 0).2.vm.quit ≠ 0) ∧
    (vm_step escape_step (code_system 0x4c 0x00 0x04) RET_OK 0).2.cpu.pc = 0x0400 ∧
    (vm_step escape_step (code_system 0x4c 0x00 0x04) RET_OK 0).1 = RET_QUIT :=
  ⟨⟨by decide, by decide⟩, by decide,
   C22_quit_overrides escape_step (code_system 0x4c 0x00 0x04) RET_OK 0 (by decide)⟩


/-- C23: for each of the eight branch opcodes, every `PC` and every displacement byte `d`
(the low byte of `ARG`), exec leaves `PC = (PC + 2 + signed8 d) mod 65536` when the
condition the opcode tests holds and `PC = (PC + 2) mod 65536` when it does not; nothing
else of the system changes: registers, flags, memory and peripheral are as before. -/
theorem C23_branch_pc {D : Type} (s : system_t D) (cyc : Int)
    (hop : s.cpu.ir ∈ [0x10, 0x30, 0x50, 0x70, 0x90, 0xb0, 0xd0, 0xf0]) :
    (spec_branch_condition s.cpu.ir s.cpu →
      ((cpu_6502_exec_instr s cyc).sys.cpu.pc : Int)
        = ((s.cpu.pc : Int) + 2 + signed8 s.cpu.arg8) % 65536) ∧
    (¬ spec_branch_condition s.cpu.ir s.cpu →
      (cpu_6502_exec_instr s cyc).sys.cpu.pc = (s.cpu.pc + 2) % 65536) ∧
    (cpu_6502_exec_instr s cyc).sys
      = { s with cpu := { s.cpu with pc := (cpu_6502_exec_instr s cyc).sys.cpu.pc } } := by
  have h := exec_bra s cyc hop
  by_cases hc : spec_branch_condition s.cpu.ir s.cpu
  · rw [if_pos hc] at h
    rw [h]
    refine ⟨fun _ => ?_, fun hn => absurd hc hn, rfl⟩
    dsimp only
    rw [Int.toNat_of_nonneg (Int.emod_nonneg _ (by decide))]
    congr 1
    ring
  · rw [if_neg hc] at h
    rw [h]
    exact ⟨fun hy => absurd hy hc, fun _ => rfl, rfl⟩

/-- C23 on `BNE $FB` (displacement -5) at `PC = 0x0400`: with Zero clear the branch lands
at `0x03FD`, with Zero set execution goes on at `0x0402`. -/
theorem C23_branch_pc_witness :
    ((branch_system 0x20 0xd0 0xfb).cpu.ir ∈ [0x10, 0x30, 0x50, 0x70, 0x90, 0xb0, 0xd0, 0xf0] ∧
      spec_branch_condition (branch_system 0x20 0xd0 0xfb).cpu.ir (branch_system 0x20 0xd0 0xfb).cpu ∧
      (branch_system 0x20 0xd0 0xfb).cpu.pc = 0x0400 ∧
      signed8 (branch_system 0x20 0xd0 0xfb).cpu.arg8 = -5) ∧
    ((cpu_6502_exec_instr (branch_system 0x20 0xd0 0xfb) 0).sys.cpu.pc : Int)
      = ((0x0400 : Int) + 2 + -5) % 65536 ∧
    (cpu_6502_exec_instr (branch_system 0x22 0xd0 0xfb) 0).sys.cpu.pc = 0x0402 :=
  ⟨⟨by decide, by decide, by decide, by decide⟩,
   (C23_branch_pc (branch_system 0x20 0xd0 0xfb) 0 (by decide)).1 (by decide),
   by decide⟩

/-- C24, what the code does: for every branch opcode the handler reports 2 cycles whether
the branch is taken (status Jump) or not (status Ok); the statement `*cyc++` of the taken
path moves the pointer and leaves the count alone, so no extra cycle is charged. -/
theorem C24_branch_cycles {D : Type} (s : system_t D) (cyc : Int)
    (hop : s.cpu.ir ∈ [0x10, 0x30, 0x50, 0x70, 0x90, 0xb0, 0xd0, 0xf0]) :
    (bra s cyc).cyc = 2 ∧
    ((bra s cyc).status = RET_JUMP ↔ spec_branch_condition s.cpu.ir s.cpu) ∧
    ((bra s cyc).status = RET_OK ↔ ¬ spec_branch_condition s.cpu.ir s.cpu) := by
  rw [bra_spec s cyc hop]
  by_cases hc : spec_branch_condition s.cpu.ir s.cpu
  · rw [if_pos hc]
    exact ⟨rfl, ⟨fun _ => hc, fun _ => rfl⟩,
      ⟨fun h => absurd (show RET_JUMP = RET_OK from h) (by decide), fun hn => absurd hc hn⟩⟩
  · rw [if_neg hc]
    exact ⟨rfl, ⟨fun h => absurd (show RET_OK = RET_JUMP from h) (by decide), fun hy => absurd hy hc⟩,
      ⟨fun _ => hc, fun _ => rfl⟩⟩

/-- C24 on the taken `BNE $FB` at `PC = 0x0400` (Zero clear): the handler returns Jump and
reports 2 cycles, not 3. -/
theorem C24_branch_cycles_witness :
    (branch_system 0x20 0xd0 0xfb).cpu.ir ∈ [0x10, 0x30, 0x50, 0x70, 0x90, 0xb0, 0xd0, 0xf0] ∧
    (bra (branch_system 0x20 0xd0 0xfb) 0).status = RET_JUMP ∧
    (bra (branch_system 0x20 0xd0 0xfb) 0).cyc = 2 :=
  ⟨by decide, by decide,
   (C24_branch_cycles (branch_system 0x20 0xd0 0xfb) 0 (by decide)).1⟩


/-- C25: BRK (`0x00`) at `PC = p` with stack pointer `s` and flags `f`, no hook intercepting
the stack page or the vector: the high byte of `p + 2` (as a 16-bit value) is written at
`0x0100 + s`, its low byte at `0x0100 + (s - 1) mod 256`, and `f` with Break set at
`0x0100 + (s - 2) mod 256`; then `SP = (s - 3) mod 256`, Interrupt-disable is set, `PC` is
the little-endian word at `0xFFFE`, 6 cycles are reported and the status is Jump. -/
theorem C25_brk_sequence {D : Type} (s : system_t D) (cyc : Int) (hir : s.cpu.ir = 0x00)
    (hwf : s.cpu.wf) (hvm : s.vm.wf) (hs : stack_unhooked s)
    (hv : vector_unhooked s 0xfffe) :
    (brk s cyc).sys.vm.mem (0x0100 + s.cpu.sp) = (s.cpu.pc + 2) % 65536 / 256 ∧
    (brk s cyc).sys.vm.mem (0x0100 + (s.cpu.sp + 255) % 256) = (s.cpu.pc + 2) % 65536 % 256 ∧
    (brk s cyc).sys.vm.mem (0x0100 + (s.cpu.sp + 254) % 256) = s.cpu.flags ||| FLAG_BREAK ∧
    (brk s cyc).sys.cpu.sp = (s.cpu.sp + 253) % 256 ∧
    QUERY_FLAG (brk s cyc).sys.cpu FLAG_INTERRUPT = 1 ∧
    (brk s cyc).sys.cpu.pc = s.vm.mem 0xfffe + 256 * s.vm.mem 0xffff ∧
    (brk s cyc).cyc = 6 ∧ (brk s cyc).status = RET_JUMP := by
  obtain ⟨h1, h2, _, h4, h5, h6, h7⟩ := interrupt_entry
    ({ s with cpu := SET_FLAG s.cpu FLAG_BREAK } : system_t D) BRK_VECTOR
    (SET_FLAG_wf s.cpu FLAG_BREAK (by decide) hwf) hvm hs (by decide) (by decide) hv
  rw [brk_eq s cyc hir]
  refine ⟨h4, h5, h6, ?_, ?_, ?_, h2, h1⟩
  · rw [h7]
    rfl
  · exact (QUERY_or_interrupt (SET_FLAG s.cpu FLAG_BREAK) _ (by rw [h7])).1
  · rw [h7]
    rfl

/-- C25 on the BRK at `PC = 0x0400` with `SP = 0xff`, flags `0x21` and the vector pointing to
`0x0500`: `0x04`, `0x02` and `0x31` land at `0x01ff`, `0x01fe` and `0x01fd`, and execution
goes on at `0x0500` with `SP = 0xfc`. -/
theorem C25_brk_sequence_witness :
    (vector_example.cpu.ir = 0x00 ∧ vector_example.cpu.wf ∧ vector_example.vm.wf ∧
      stack_unhooked vector_example ∧ vector_unhooked vector_example 0xfffe) ∧
    (brk vector_example 0).sys.vm.mem 0x01ff = 0x04 ∧
    (brk vector_example 0).sys.vm.mem 0x01fe = 0x02 ∧
    (brk vector_example 0).sys.vm.mem 0x01fd = 0x31 ∧
    (brk vector_example 0).sys.cpu.sp = 0xfc ∧
    (brk vector_example 0).sys.cpu.pc = 0x0500 :=
  have h := C25_brk_sequence vector_example 0 rfl vector_example_cpu_wf vector_example_wf
    (pia_hooks_stack_unhooked _ rfl) (pia_hooks_vector_unhooked _ _ (by decide) rfl)
  ⟨⟨rfl, vector_example_cpu_wf, vector_example_wf, pia_hooks_stack_unhooked _ rfl,
     pia_hooks_vector_unhooked _ _ (by decide) rfl⟩,
   h.1, h.2.1, h.2.2.1, h.2.2.2.1, h.2.2.2.2.2.1⟩



/-- C26: the hardware interrupts on a machine whose stack page and vectors no hook
intercepts: `cpu_6502_irq` loads `PC` from the word at `0xFFFE` and `cpu_6502_nmi` from the
word at `0xFFFA`; both push the flags byte as it is (Break not forced), leave the Break flag
of the register file as it was, set Interrupt-disable, report 6 cycles and return Jump. -/
theorem C26_irq_nmi {D : Type} (s : system_t D) (hwf : s.cpu.wf) (hvm : s.vm.wf)
    (hs : stack_unhooked s) (hirq : vector_unhooked s 0xfffe)
    (hnmi : vector_unhooked s 0xfffa) :
    (cpu_6502_irq s).sys.cpu.pc = s.vm.mem 0xfffe + 256 * s.vm.mem 0xffff ∧
    (cpu_6502_nmi s).sys.cpu.pc = s.vm.mem 0xfffa + 256 * s.vm.mem 0xfffb ∧
    ∀ r ∈ [cpu_6502_irq s, cpu_6502_nmi s],
      r.sys.vm.mem (0x0100 + (s.cpu.sp + 254) % 256) = s.cpu.flags ∧
      QUERY_FLAG r.sys.cpu FLAG_BREAK = QUERY_FLAG s.cpu FLAG_BREAK ∧
      QUERY_FLAG r.sys.cpu FLAG_INTERRUPT = 1 ∧
      r.cyc = 6 ∧ r.status = RET_JUMP := by
  obtain ⟨a1, a2, _, _, _, a6, a7⟩ :=
    interrupt_entry s BRK_VECTOR hwf hvm hs (by decide) (by decide) hirq
  obtain ⟨b1, b2, _, _, _, b6, b7⟩ :=
    interrupt_entry s NMI_VECTOR hwf hvm hs (by decide) (by decide) hnmi
  refine ⟨?_, ?_, ?_⟩
  · unfold cpu_6502_irq
    rw [a7]
    rfl
  · unfold cpu_6502_nmi
    rw [b7]
    rfl
  · intro r hr
    simp only [List.mem_cons, List.mem_singleton, List.not_mem_nil, or_false] at hr
    rcases hr with hr | hr
    · subst hr
      have hq := QUERY_or_interrupt s.cpu (interrupt s BRK_VECTOR).sys.cpu (by rw [a7])
      exact ⟨a6, hq.2, hq.1, a2, a1⟩
    · subst hr
      have hq := QUERY_or_interrupt s.cpu (interrupt s NMI_VECTOR).sys.cpu (by rw [b7])
      exact ⟨b6, hq.2, hq.1, b2, b1⟩

/-- C26 on the machine at `PC = 0x0400` with flags `0x21` (Break clear): IRQ goes to
`0x0500`, NMI to `0x0600`, and the byte NMI leaves at `0x01fd` is `0x21`. -/
theorem C26_irq_nmi_witness :
    (vector_example.cpu.wf ∧ vector_example.vm.wf ∧ stack_unhooked vector_example ∧
      vector_unhooked vector_example 0xfffe ∧ vector_unhooked vector_example 0xfffa) ∧
    (cpu_6502_irq vector_example).sys.cpu.pc = 0x0500 ∧
    (cpu_6502_nmi vector_example).sys.cpu.pc = 0x0600 ∧
    (cpu_6502_nmi vector_example).sys.vm.mem 0x01fd = 0x21 ∧
    QUERY_FLAG (cpu_6502_nmi vector_example).sys.cpu FLAG_BREAK = 0 :=
  have h := C26_irq_nmi vector_example vector_example_cpu_wf vector_example_wf
    (pia_hooks_stack_unhooked _ rfl) (pia_hooks_vector_unhooked _ _ (by decide) rfl)
    (pia_hooks_vector_unhooked _ _ (by decide) rfl)
  ⟨⟨vector_example_cpu_wf, vector_example_wf, pia_hooks_stack_unhooked _ rfl,
     pia_hooks_vector_unhooked _ _ (by decide) rfl,
     pia_hooks_vector_unhooked _ _ (by decide) rfl⟩,
   h.1, h.2.1,
   (h.2.2 (cpu_6502_nmi vector_example) (List.mem_cons_of_mem _ (List.mem_singleton.2 rfl))).1,
   (h.2.2 (cpu_6502_nmi vector_example)
     (List.mem_cons_of_mem _ (List.mem_singleton.2 rfl))).2.1⟩

/-- C27, what the code does: `interrupt` advances `PC` by 2 for every caller, so on IRQ or
NMI entry at `PC = p` the two return-address bytes pushed are the high and the low byte of
`(p + 2) mod 65536`, and an RTI executed with the stack undisturbed resumes at
`(p + 2) mod 65536`, not at `p`. -/
theorem C27_interrupt_return_address {D : Type} (s u : system_t D) (r : op_result D)
    (cyc : Int) (hr : r = cpu_6502_irq s ∨ r = cpu_6502_nmi s) (hwf : s.cpu.wf)
    (hvm : s.vm.wf) (hs : stack_unhooked s) (hirq : vector_unhooked s 0xfffe)
    (hnmi : vector_unhooked s 0xfffa) (hu : stack_undisturbed r.sys u 0x40) :
    r.sys.vm.mem (0x0100 + s.cpu.sp) = (s.cpu.pc + 2) % 65536 / 256 ∧
    r.sys.vm.mem (0x0100 + (s.cpu.sp + 255) % 256) = (s.cpu.pc + 2) % 65536 % 256 ∧
    (rti u cyc).sys.cpu.pc = (s.cpu.pc + 2) % 65536 := by
  have key : ∀ vector, 0x0200 ≤ vector → vector + 1 < 65536 → vector_unhooked s vector →
      stack_undisturbed (interrupt s vector).sys u 0x40 →
      (interrupt s vector).sys.vm.mem (0x0100 + s.cpu.sp) = (s.cpu.pc + 2) % 65536 / 256 ∧
      (interrupt s vector).sys.vm.mem (0x0100 + (s.cpu.sp + 255) % 256)
        = (s.cpu.pc + 2) % 65536 % 256 ∧
      (rti u cyc).sys.cpu.pc = (s.cpu.pc + 2) % 65536 := by
    intro vector h1 h2 hv ⟨uir, usp, uhooks, umem⟩
    obtain ⟨_, _, e3, e4, e5, e6, e7⟩ := interrupt_entry s vector hwf hvm hs h1 h2 hv
    have hsp : s.cpu.sp < 256 := hwf.2.2.1
    refine ⟨e4, e5, ?_⟩
    rw [rti_resume u cyc s.cpu.flags ((s.cpu.pc + 2) % 65536) s.cpu.sp uir
      (stack_unhooked_congr u s (uhooks.trans e3) hs) hsp (by rw [usp, e7]) hwf.1
      (Nat.mod_lt _ (by decide))
      (by rw [umem _ (by omega) (by omega), e6])
      (by rw [umem _ (by omega) (by omega), e5])
      (by rw [umem _ (by omega) (by omega), e4])]
  rcases hr with hr | hr
  · subst hr
    exact key BRK_VECTOR (by decide) (by decide) hirq hu
  · subst hr
    exact key NMI_VECTOR (by decide) (by decide) hnmi hu

/-- C27 on an IRQ arriving at `PC = 0x0400`: the bytes pushed are `0x04` and `0x02`, and
the RTI of the handler resumes at `0x0402`. -/
theorem C27_interrupt_return_address_witness :
    (vector_example.cpu.pc = 0x0400 ∧
      stack_undisturbed (cpu_6502_irq vector_example).sys
        (with_ir (cpu_6502_irq vector_example).sys 0x40) 0x40) ∧
    (cpu_6502_irq vector_example).sys.vm.mem 0x01ff = 0x04 ∧
    (cpu_6502_irq vector_example).sys.vm.mem 0x01fe = 0x02 ∧
    (rti (with_ir (cpu_6502_irq vector_example).sys 0x40) 0).sys.cpu.pc = 0x0402 :=
  have hu : stack_undisturbed (cpu_6502_irq vector_example).sys
      (with_ir (cpu_6502_irq vector_example).sys 0x40) 0x40 :=
    ⟨rfl, rfl, rfl, fun _ _ _ => rfl⟩
  ⟨⟨rfl, hu⟩,
   C27_interrupt_return_address vector_example
     (with_ir (cpu_6502_irq vector_example).sys 0x40) (cpu_6502_irq vector_example) 0
     (Or.inl rfl) vector_example_cpu_wf vector_example_wf (pia_hooks_stack_unhooked _ rfl)
     (pia_hooks_vector_unhooked _ _ (by decide) rfl)
     (pia_hooks_vector_unhooked _ _ (by decide) rfl) hu⟩



/-- C28: RTI undoes the interrupt push sequence.  For a machine at `PC = p` with flags `f`
and stack pointer `s` (registers and bytes in range, no hook on the stack page or the
vector), BRK followed by an RTI that finds the stack undisturbed leaves
`PC = (p + 2) mod 65536`, `SP = s` and the flags equal to the byte pushed, `f` with Break
set; RTI takes the flags from the first byte above the stack pointer, then the low byte of
`PC` from the second and the high byte from the third. -/
theorem C28_brk_rti {D : Type} (s u : system_t D) (cyc cyc' : Int)
    (hir : s.cpu.ir = 0x00) (hwf : s.cpu.wf) (hvm : s.vm.wf) (hs : stack_unhooked s)
    (hv : vector_unhooked s 0xfffe) (hu : stack_undisturbed (brk s cyc).sys u 0x40) :
    (rti u cyc').sys.cpu.pc = (s.cpu.pc + 2) % 65536 ∧
    (rti u cyc').sys.cpu.sp = s.cpu.sp ∧
    (rti u cyc').sys.cpu.flags = s.cpu.flags ||| FLAG_BREAK ∧
    (rti u cyc').sys.cpu.flags = u.vm.mem (0x0100 + (u.cpu.sp + 1) % 256) ∧
    (rti u cyc').sys.cpu.pc =
      u.vm.mem (0x0100 + (u.cpu.sp + 2) % 256)
        + 256 * u.vm.mem (0x0100 + (u.cpu.sp + 3) % 256) := by
  obtain ⟨uir, usp, uhooks, umem⟩ := hu
  rw [brk_eq s cyc hir] at usp uhooks umem
  have hwf' := SET_FLAG_wf s.cpu FLAG_BREAK (by decide) hwf
  obtain ⟨_, _, e3, e4, e5, e6, e7⟩ := interrupt_entry
    ({ s with cpu := SET_FLAG s.cpu FLAG_BREAK } : system_t D) BRK_VECTOR hwf' hvm hs
    (by decide) (by decide) hv
  have hsp : s.cpu.sp < 256 := hwf.2.2.1
  have husp : u.cpu.sp = (s.cpu.sp + 253) % 256 := by rw [usp, e7]; rfl
  have m1 : u.vm.mem (0x0100 + (s.cpu.sp + 254) % 256) = s.cpu.flags ||| FLAG_BREAK := by
    rw [umem _ (by omega) (by omega)]
    exact e6
  have m2 : u.vm.mem (0x0100 + (s.cpu.sp + 255) % 256) = (s.cpu.pc + 2) % 65536 % 256 := by
    rw [umem _ (by omega) (by omega)]
    exact e5
  have m3 : u.vm.mem (0x0100 + s.cpu.sp) = (s.cpu.pc + 2) % 65536 / 256 := by
    rw [umem _ (by omega) (by omega)]
    exact e4
  have hc := rti_resume u cyc' (s.cpu.flags ||| FLAG_BREAK) ((s.cpu.pc + 2) % 65536) s.cpu.sp
    uir (stack_unhooked_congr u s (uhooks.trans e3) hs) hsp husp hwf'.1
    (Nat.mod_lt _ (by decide)) m1 m2 m3
  have e1 : (u.cpu.sp + 1) % 256 = (s.cpu.sp + 254) % 256 := by omega
  have e2 : (u.cpu.sp + 2) % 256 = (s.cpu.sp + 255) % 256 := by omega
  have e3' : (u.cpu.sp + 3) % 256 = s.cpu.sp := by omega
  rw [hc, e1, e2, e3', m1, m2, m3]
  refine ⟨rfl, rfl, rfl, rfl, ?_⟩
  dsimp only
  omega

/-- C28 on the BRK at `PC = 0x0400` with `SP = 0xff` and flags `0x21`: the RTI of the
handler resumes at `0x0402` with `SP = 0xff` and flags `0x31`. -/
theorem C28_brk_rti_witness :
    (vector_example.cpu.pc = 0x0400 ∧ vector_example.cpu.sp = 0xff ∧
      vector_example.cpu.flags = 0x21 ∧
      stack_undisturbed (brk vector_example 0).sys
        (with_ir (brk vector_example 0).sys 0x40) 0x40) ∧
    (rti (with_ir (brk vector_example 0).sys 0x40) 0).sys.cpu.pc = 0x0402 ∧
    (rti (with_ir (brk vector_example 0).sys 0x40) 0).sys.cpu.sp = 0xff ∧
    (rti (with_ir (brk vector_example 0).sys 0x40) 0).sys.cpu.flags = 0x31 :=
  have hu : stack_undisturbed (brk vector_example 0).sys
      (with_ir (brk vector_example 0).sys 0x40) 0x40 :=
    ⟨rfl, rfl, rfl, fun _ _ _ => rfl⟩
  have h := C28_brk_rti vector_example (with_ir (brk vector_example 0).sys 0x40) 0 0 rfl
    vector_example_cpu_wf vector_example_wf (pia_hooks_stack_unhooked _ rfl)
    (pia_hooks_vector_unhooked _ _ (by decide) rfl) hu
  ⟨⟨rfl, rfl, rfl, hu⟩, h.1, h.2.1, h.2.2.1⟩

/-- C29: the JSR/RTS round trip.  For a machine at `PC = p` with stack pointer `s`
(registers in range, no hook on the stack page), `JSR $t` writes the high byte of `p + 2` at
`0x0100 + s`, then its low byte at `0x0100 + (s - 1) mod 256`, and sets `PC = t`; an RTS that
finds the stack undisturbed then sets `PC = (p + 3) mod 65536` and `SP = s`; neither
instruction touches A, X, Y or the flags. -/
theorem C29_jsr_rts {D : Type} (s u : system_t D) (cyc cyc' : Int)
    (hir : s.cpu.ir = 0x20) (hwf : s.cpu.wf) (hs : stack_unhooked s)
    (hu : stack_undisturbed (jsr s cyc).sys u 0x60) :
    ((jsr s cyc).sys.vm.mem (0x0100 + s.cpu.sp) = (s.cpu.pc + 2) % 65536 / 256 ∧
      (jsr s cyc).sys.vm.mem (0x0100 + (s.cpu.sp + 255) % 256) = (s.cpu.pc + 2) % 65536 % 256 ∧
      (jsr s cyc).sys.cpu.pc = s.cpu.arg ∧
      (jsr s cyc).sys.cpu.sp = (s.cpu.sp + 254) % 256 ∧
      (jsr s cyc).sys.cpu.a = s.cpu.a ∧ (jsr s cyc).sys.cpu.x = s.cpu.x ∧
      (jsr s cyc).sys.cpu.y = s.cpu.y ∧ (jsr s cyc).sys.cpu.flags = s.cpu.flags) ∧
    (rts u cyc').sys.cpu.pc = (s.cpu.pc + 3) % 65536 ∧
    (rts u cyc').sys.cpu.sp = s.cpu.sp ∧
    (rts u cyc').sys.cpu.a = u.cpu.a ∧ (rts u cyc').sys.cpu.x = u.cpu.x ∧
    (rts u cyc').sys.cpu.y = u.cpu.y ∧ (rts u cyc').sys.cpu.flags = u.cpu.flags := by
  obtain ⟨uir, usp, uhooks, umem⟩ := hu
  have hsp : s.cpu.sp < 256 := hwf.2.2.1
  obtain ⟨_, _, j3, j4, j5⟩ := jsr_spec s cyc hir hsp hs
  obtain ⟨b1, b2⟩ := stack2_mem s.vm.bytes s.cpu.sp
    ((((s.cpu.pc + 2) % 65536) >>> 8) &&& 0xff) (((s.cpu.pc + 2) % 65536) &&& 0xff) hsp
  have t1 : (jsr s cyc).sys.vm.mem (0x0100 + s.cpu.sp) = (s.cpu.pc + 2) % 65536 / 256 := by
    unfold vm_t.mem
    rw [j4, b1, and_ff, Nat.shiftRight_eq_div_pow]
    omega
  have t2 : (jsr s cyc).sys.vm.mem (0x0100 + (s.cpu.sp + 255) % 256)
      = (s.cpu.pc + 2) % 65536 % 256 := by
    unfold vm_t.mem
    rw [j4, b2, and_ff]
    omega
  have husp : u.cpu.sp = (s.cpu.sp + 254) % 256 := by rw [usp, j5]
  have hc := rts_resume u cyc' ((s.cpu.pc + 2) % 65536) s.cpu.sp uir
    (stack_unhooked_congr u s (uhooks.trans j3) hs) hsp husp (Nat.mod_lt _ (by decide))
    (by rw [umem _ (by omega) (by omega), t2]) (by rw [umem _ (by omega) (by omega), t1])
  refine ⟨⟨t1, t2, by rw [j5], by rw [j5], by rw [j5], by rw [j5], by rw [j5], by rw [j5]⟩,
    ?_, by rw [hc], by rw [hc], by rw [hc], by rw [hc], by rw [hc]⟩
  rw [hc]
  dsimp only
  omega

/-- C29 on `JSR $1234` fetched at `PC = 0x0400` with `SP = 0xff`: `0x04` and `0x02` land at
`0x01ff` and `0x01fe`, `PC` becomes `0x1234`, and the RTS of the subroutine resumes at
`0x0403` with `SP = 0xff`. -/
theorem C29_jsr_rts_witness :
    (jsr_example.cpu.ir = 0x20 ∧ jsr_example.cpu.wf ∧ stack_unhooked jsr_example ∧
      stack_undisturbed (jsr jsr_example 0).sys (with_ir (jsr jsr_example 0).sys 0x60) 0x60) ∧
    (jsr jsr_example 0).sys.vm.mem 0x01ff = 0x04 ∧
    (jsr jsr_example 0).sys.vm.mem 0x01fe = 0x02 ∧
    (jsr jsr_example 0).sys.cpu.pc = 0x1234 ∧
    (rts (with_ir (jsr jsr_example 0).sys 0x60) 0).sys.cpu.pc = 0x0403 ∧
    (rts (with_ir (jsr jsr_example 0).sys 0x60) 0).sys.cpu.sp = 0xff :=
  have hu : stack_undisturbed (jsr jsr_example 0).sys
      (with_ir (jsr jsr_example 0).sys 0x60) 0x60 :=
    ⟨rfl, rfl, rfl, fun _ _ _ => rfl⟩
  have h := C29_jsr_rts jsr_example (with_ir (jsr jsr_example 0).sys 0x60) 0 0 rfl
    jsr_example_cpu_wf (pia_hooks_stack_unhooked _ rfl) hu
  ⟨⟨rfl, jsr_example_cpu_wf, pia_hooks_stack_unhooked _ rfl, hu⟩,
   h.1.1, h.1.2.1, h.1.2.2.1, h.2.1, h.2.2.1⟩

/-- C30, what the code does: RTI loads the flags register with the byte it pulls and does not
force the Reserved bit, while PLP on the same stack does.  With a stack page free of hooks
and bit 5 clear in the byte above the stack pointer, Reserved is 0 after RTI and 1 after
PLP. -/
theorem C30_rti_drops_reserved {D : Type} (u : system_t D) (cyc : Int)
    (hir : u.cpu.ir = 0x40) (hs : stack_unhooked u)
    (hbyte : u.vm.mem (0x0100 + (u.cpu.sp + 1) % 256) % 256 &&& FLAG_RESERVED = 0) :
    QUERY_FLAG (rti u cyc).sys.cpu FLAG_RESERVED = 0 ∧
    QUERY_FLAG (stk (with_ir u 0x28) cyc).sys.cpu FLAG_RESERVED = 1 := by
  obtain ⟨_, _, _, _, hc⟩ := rti_spec u cyc hir hs
  constructor
  · rw [hc]
    unfold QUERY_FLAG
    dsimp only
    rw [hbyte]
    rfl
  · rw [stk_plp (with_ir u 0x28) cyc rfl]
    dsimp only
    rw [QUERY_SET _ _ _ (by decide) (by decide)]
    rfl

/-- C30 on the machine that comes out of reset with an RTI at the reset target and a zeroed
stack page: Reserved is 1 after reset and 0 after the first instruction. -/
theorem C30_rti_drops_reserved_witness :
    ((cpu_6502_fetch_instr (cpu_6502_reset reset_example)).cpu.ir = 0x40 ∧
      stack_unhooked (cpu_6502_fetch_instr (cpu_6502_reset reset_example)) ∧
      QUERY_FLAG (cpu_6502_reset reset_example).cpu FLAG_RESERVED = 1) ∧
    QUERY_FLAG (cpu_6502_exec_instr (cpu_6502_fetch_instr (cpu_6502_reset reset_example))
      0).sys.cpu FLAG_RESERVED = 0 :=
  have hs : stack_unhooked (cpu_6502_fetch_instr (cpu_6502_reset reset_example)) :=
    pia_hooks_stack_unhooked _ reset_example_fetch.2.2.1
  ⟨⟨reset_example_fetch.1, hs, by decide⟩,
   (C30_rti_drops_reserved (cpu_6502_fetch_instr (cpu_6502_reset reset_example)) 0
     reset_example_fetch.1 hs (by decide)).1⟩



/-- C31: `cpu_6502_reset` sets `A = X = Y = 0`, `SP = 0xFF`, the flags to `0x20` (Reserved
only) and `PC` to the word the bus returns at `0xFFFC` (low byte first); it changes no byte
of the bus.  When no read hook intercepts `0xFFFC` and `0xFFFD` and the bytes are in range,
that word is `composite[0xFFFC] | composite[0xFFFD] << 8`. -/
theorem C31_reset {D : Type} (s : system_t D) :
    (cpu_6502_reset s).cpu.a = 0 ∧ (cpu_6502_reset s).cpu.x = 0 ∧
    (cpu_6502_reset s).cpu.y = 0 ∧ (cpu_6502_reset s).cpu.sp = 0xff ∧
    (cpu_6502_reset s).cpu.flags = 0x20 ∧
    (cpu_6502_reset s).cpu.pc = (read_ptr s 0xfffc).1 ∧
    (cpu_6502_reset s).vm = s.vm ∧
    (s.vm.wf → vector_unhooked s 0xfffc →
      (cpu_6502_reset s).cpu.pc = s.vm.mem 0xfffc ||| (s.vm.mem 0xfffd <<< 8)) := by
  have hpc : (cpu_6502_reset s).cpu.pc = (read_ptr s 0xfffc).1 := by
    unfold cpu_6502_reset
    dsimp only
    exact read_ptr_with_cpu s _ _
  refine ⟨?_, ?_, ?_, ?_, ?_, hpc, ?_, ?_⟩
  · simp [cpu_6502_reset]
  · simp [cpu_6502_reset]
  · simp [cpu_6502_reset]
  · simp [cpu_6502_reset]
  · simp [cpu_6502_reset, FLAG_RESERVED]
  · simp [cpu_6502_reset, read_ptr]
  · intro hvm hv
    have b1 : s.vm.mem 0xfffc < 256 := hvm _
    have b2 : s.vm.mem (0xfffc + 1) < 256 := hvm _
    rw [hpc, (read_ptr_value s 0xfffc (by decide) hv).1, Nat.mod_eq_of_lt b1,
      Nat.mod_eq_of_lt b2, Nat.mod_eq_of_lt (word_lt _ _ b1 b2)]

/-- C31 on the machine whose reset vector holds `0x00`, `0x04`: after reset `PC = 0x0400`,
`SP = 0xff`, the flags are `0x20`. -/
theorem C31_reset_witness :
    (reset_example.vm.wf ∧ vector_unhooked reset_example 0xfffc) ∧
    (cpu_6502_reset reset_example).cpu.pc = 0x0400 ∧
    (cpu_6502_reset reset_example).cpu.sp = 0xff ∧
    (cpu_6502_reset reset_example).cpu.flags = 0x20 :=
  have hvm : reset_example.vm.wf := by
    intro i
    simp only [reset_example]
    split_ifs <;> omega
  have hv : vector_unhooked reset_example 0xfffc :=
    pia_hooks_vector_unhooked _ _ (by decide) rfl
  ⟨⟨hvm, hv⟩, (C31_reset reset_example).2.2.2.2.2.2.2 hvm hv,
   by decide, by decide⟩



/-- C35: the dispatch table and the handlers agree.  For every opcode byte in `IR` whose
table entry is a real handler, the switch of that handler has a case for it and
`cpu_6502_exec_instr` returns Ok or Jump, never IllegalInstruction; and exec returns
IllegalInstruction exactly when the length table holds 0 for the opcode. -/
theorem C35_table_handlers_agree {D : Type} (s : system_t D) (cyc : Int)
    (hir : s.cpu.ir < 256) :
    (instr_at s.cpu.ir ≠ op_proc.x →
      s.cpu.ir ∈ handler_cases (instr_at s.cpu.ir) ∧
      ((cpu_6502_exec_instr s cyc).status = RET_OK ∨
        (cpu_6502_exec_instr s cyc).status = RET_JUMP)) ∧
    ((cpu_6502_exec_instr s cyc).status = RET_ERR_INSTR ↔ len_at s.cpu.ir = 0) := by
  have hleg : instr_at s.cpu.ir ≠ op_proc.x →
      ((cpu_6502_exec_instr s cyc).status = RET_OK ∨
        (cpu_6502_exec_instr s cyc).status = RET_JUMP) := exec_legal s cyc
  refine ⟨fun h => ⟨table_agrees _ hir h, hleg h⟩, ?_, ?_⟩
  · intro herr
    by_contra hlen
    have hne : instr_at s.cpu.ir ≠ op_proc.x := fun hx => hlen (len_at_illegal _ hx)
    rcases hleg hne with h | h
    · rw [h] at herr
      exact absurd herr (by decide)
    · rw [h] at herr
      exact absurd herr (by decide)
  · intro hlen
    rw [(exec_status s cyc).1, len_zero_illegal _ hir hlen]
    rfl

/-- C35 on two opcodes with the stale operand of `code_system`: `LDA #` (`0xa9`) is
accepted, the unassigned `0x02` has length 0 and is refused. -/
theorem C35_table_handlers_agree_witness :
    ((cpu_6502_fetch_instr (code_system 0xa9 0x34 0x12)).cpu.ir < 256 ∧
      instr_at (cpu_6502_fetch_instr (code_system 0xa9 0x34 0x12)).cpu.ir ≠ op_proc.x ∧
      (cpu_6502_fetch_instr (code_system 0x02 0x34 0x12)).cpu.ir < 256 ∧
      len_at (cpu_6502_fetch_instr (code_system 0x02 0x34 0x12)).cpu.ir = 0) ∧
    ((cpu_6502_exec_instr (cpu_6502_fetch_instr (code_system 0xa9 0x34 0x12)) 0).status
        = RET_OK ∨
      (cpu_6502_exec_instr (cpu_6502_fetch_instr (code_system 0xa9 0x34 0x12)) 0).status
        = RET_JUMP) ∧
    (cpu_6502_exec_instr (cpu_6502_fetch_instr (code_system 0x02 0x34 0x12)) 0).status
      = RET_ERR_INSTR :=
  ⟨⟨by decide, by decide, by decide, by decide⟩,
   ((C35_table_handlers_agree (cpu_6502_fetch_instr (code_system 0xa9 0x34 0x12)) 0
     (by decide)).1 (by decide)).2,
   by decide⟩

/-- C36: binary subtraction is addition of the one's complement.  For every register file
with `A` a byte and every operand byte `b`, `sbc_binary` with `b` and `adc_binary` with
`b XOR 0xFF` leave the same register file: the same `A`, the same Carry, the same Overflow
(and nothing else differs either). -/
theorem C36_sbc_is_adc_of_complement (cpu : cpu_6502_t) (b : Nat) (ha : cpu.a < 256)
    (hb : b < 256) :
    (sbc_binary cpu b).a = (adc_binary cpu (b ^^^ 0xff)).a ∧
    QUERY_FLAG (sbc_binary cpu b) FLAG_CARRY
      = QUERY_FLAG (adc_binary cpu (b ^^^ 0xff)) FLAG_CARRY ∧
    QUERY_FLAG (sbc_binary cpu b) FLAG_OVERFLOW
      = QUERY_FLAG (adc_binary cpu (b ^^^ 0xff)) FLAG_OVERFLOW ∧
    sbc_binary cpu b = adc_binary cpu (b ^^^ 0xff) := by
  have h := sbc_binary_eq_adc cpu b ha hb
  rw [h]
  exact ⟨rfl, rfl, rfl, rfl⟩

/-- C36 on `A = 0x50`, operand `0xf0`, Carry set: both give `A = 0x60` and the same Carry. -/
theorem C36_sbc_is_adc_of_complement_witness :
    ((0x50 : Nat) < 256 ∧ (0xf0 : Nat) < 256) ∧
    (sbc_binary ⟨0x21, 0, 0xff, 0xe9, 0xf0, 0x50, 0, 0⟩ 0xf0).a = 0x60 ∧
    (adc_binary ⟨0x21, 0, 0xff, 0xe9, 0xf0, 0x50, 0, 0⟩ (0xf0 ^^^ 0xff)).a = 0x60 ∧
    QUERY_FLAG (sbc_binary ⟨0x21, 0, 0xff, 0xe9, 0xf0, 0x50, 0, 0⟩ 0xf0) FLAG_CARRY
      = QUERY_FLAG (adc_binary ⟨0x21, 0, 0xff, 0xe9, 0xf0, 0x50, 0, 0⟩ (0xf0 ^^^ 0xff))
          FLAG_CARRY :=
  ⟨⟨by decide, by decide⟩, by decide, by decide,
   (C36_sbc_is_adc_of_complement ⟨0x21, 0, 0xff, 0xe9, 0xf0, 0x50, 0, 0⟩ 0xf0 (by decide)
     (by decide)).2.1⟩



/-- C37: the rotates on the accumulator are inverse 9-bit rotations through Carry.  For
every accumulator byte `A` and Carry `c`, ROL A (`0x2A`) followed by ROR A (`0x6A`) on the
`A` and Carry the first one left gives back `A` and `c`, and ROR A followed by ROL A does the
same. -/
theorem C37_rotates_inverse {D : Type} (s u : system_t D) (cyc cyc' : Int)
    (ha : s.cpu.a < 256) :
    (s.cpu.ir = 0x2a → u.cpu.ir = 0x6a → u.cpu.a = (rol s cyc).sys.cpu.a →
      QUERY_FLAG u.cpu FLAG_CARRY = QUERY_FLAG (rol s cyc).sys.cpu FLAG_CARRY →
      (ror u cyc').sys.cpu.a = s.cpu.a ∧
      QUERY_FLAG (ror u cyc').sys.cpu FLAG_CARRY = QUERY_FLAG s.cpu FLAG_CARRY) ∧
    (s.cpu.ir = 0x6a → u.cpu.ir = 0x2a → u.cpu.a = (ror s cyc).sys.cpu.a →
      QUERY_FLAG u.cpu FLAG_CARRY = QUERY_FLAG (ror s cyc).sys.cpu FLAG_CARRY →
      (rol u cyc').sys.cpu.a = s.cpu.a ∧
      QUERY_FLAG (rol u cyc').sys.cpu FLAG_CARRY = QUERY_FLAG s.cpu FLAG_CARRY) := by
  have hc : QUERY_FLAG s.cpu FLAG_CARRY < 2 := by
    have := QUERY_FLAG_le_one s.cpu FLAG_CARRY
    omega
  constructor
  · intro hs hu hua huc
    obtain ⟨a1, c1⟩ := rol_acc s cyc hs
    obtain ⟨a2, c2⟩ := ror_acc u cyc' hu
    rw [a2, c2, huc, hua, c1, a1]
    exact rol_ror_arith _ ha _ hc
  · intro hs hu hua huc
    obtain ⟨a1, c1⟩ := ror_acc s cyc hs
    obtain ⟨a2, c2⟩ := rol_acc u cyc' hu
    rw [a2, c2, huc, hua, c1, a1]
    exact ror_rol_arith _ ha _ hc

/-- C37 on `A = 0x81`, Carry clear: ROL A gives `0x02` with Carry set, and the ROR A that
follows gives back `0x81` with Carry clear; likewise in the other order. -/
theorem C37_rotates_inverse_witness :
    (rol_example.cpu.a < 256 ∧ (rol rol_example 0).sys.cpu.a = 0x02 ∧
      QUERY_FLAG (rol rol_example 0).sys.cpu FLAG_CARRY = 1) ∧
    ((ror (with_ir (rol rol_example 0).sys 0x6a) 0).sys.cpu.a = 0x81 ∧
      QUERY_FLAG (ror (with_ir (rol rol_example 0).sys 0x6a) 0).sys.cpu FLAG_CARRY = 0) ∧
    ((rol (with_ir (ror ror_example 0).sys 0x2a) 0).sys.cpu.a = 0x81 ∧
      QUERY_FLAG (rol (with_ir (ror ror_example 0).sys 0x2a) 0).sys.cpu FLAG_CARRY = 0) :=
  ⟨⟨by decide, by decide, by decide⟩,
   (C37_rotates_inverse rol_example (with_ir (rol rol_example 0).sys 0x6a) 0 0
     (by decide)).1 rfl rfl rfl rfl,
   (C37_rotates_inverse ror_example (with_ir (ror ror_example 0).sys 0x2a) 0 0
     (by decide)).2 rfl rfl rfl rfl⟩



/-- C32, as stated, fails: NOP (`0xEA`) has table length 1, yet fetch replaces the stale
`ARG = 0xBEEF` by the byte `0x34` that follows the opcode; and with the NOP at `0xD00F` the
read at `PC + 1 = 0xD010` reaches the keyboard hook, which answers `0x80` and sets the
keyboard control register to `0x27`. -/
theorem C32_counterexample :
    len_at 0xea = 1 ∧
    (code_system 0xea 0x34 0x12).cpu.arg = 0xBEEF ∧
    (cpu_6502_fetch_instr (code_system 0xea 0x34 0x12)).cpu.ir = 0xea ∧
    (cpu_6502_fetch_instr (code_system 0xea 0x34 0x12)).cpu.arg = 0x34 ∧
    kbd_fetch_example.dev.kbd_cr = 0 ∧
    (cpu_6502_fetch_instr kbd_fetch_example).cpu.ir = 0xea ∧
    (cpu_6502_fetch_instr kbd_fetch_example).cpu.arg = 0x80 ∧
    (cpu_6502_fetch_instr kbd_fetch_example).dev.kbd_cr = 0x27 := by
  decide

/-- C32, amended: for every opcode whose table length is 1, fetch reads the opcode byte at
`PC` and then the byte at `(PC + 1) mod 65536` through the bus: the read hooks are run for
`PC` and then for `PC + 1` (and for nothing else), `ARG` becomes the byte the second read
returns, and the memory is unchanged. -/
theorem C32_fetch_reads_next_byte {D : Type} (s : system_t D)
    (hlen : len_at (read_mem s s.cpu.pc).1 = 1) :
    (cpu_6502_fetch_instr s).cpu.ir = (read_mem s s.cpu.pc).1 ∧
    (cpu_6502_fetch_instr s).cpu.arg =
      (read_hooks s.mmioproc_list.read_proc ((s.cpu.pc + 1) % 65536)
          (read_hooks s.mmioproc_list.read_proc (s.cpu.pc % 65536) s.dev).2).1.getD
        (s.vm.mem ((s.cpu.pc + 1) % 65536) % 256) ∧
    (cpu_6502_fetch_instr s).dev =
      (read_hooks s.mmioproc_list.read_proc ((s.cpu.pc + 1) % 65536)
          (read_hooks s.mmioproc_list.read_proc (s.cpu.pc % 65536) s.dev).2).2 ∧
    (cpu_6502_fetch_instr s).vm = s.vm := by
  obtain ⟨_, d0⟩ := read_mem_of_hooks s s.cpu.pc _ _ rfl
  have key : ∀ t : system_t D, t.mmioproc_list = s.mmioproc_list → t.vm = s.vm →
      t.dev = (read_mem s s.cpu.pc).2.dev →
      (read_mem t ((s.cpu.pc + 1) % 65536)).1 =
        (read_hooks s.mmioproc_list.read_proc ((s.cpu.pc + 1) % 65536)
            (read_hooks s.mmioproc_list.read_proc (s.cpu.pc % 65536) s.dev).2).1.getD
          (s.vm.mem ((s.cpu.pc + 1) % 65536) % 256) ∧
      (read_mem t ((s.cpu.pc + 1) % 65536)).2.dev =
        (read_hooks s.mmioproc_list.read_proc ((s.cpu.pc + 1) % 65536)
            (read_hooks s.mmioproc_list.read_proc (s.cpu.pc % 65536) s.dev).2).2 := by
    intro t hh hv hd
    have k := read_mem_of_parts t s ((s.cpu.pc + 1) % 65536) _ hh hv (hd.trans d0)
    rw [Nat.mod_mod] at k
    exact k
  refine ⟨(fetch_ir s).1, ?_, ?_, (fetch_ir s).2.2.1⟩
  · unfold cpu_6502_fetch_instr
    dsimp only
    simp only [read_mem_snd_cpu, and_ffff]
    rw [if_neg (by omega)]
    dsimp only
    refine (key _ ?_ ?_ ?_).1
    · exact read_mem_snd_hooks _ _
    · exact read_mem_snd_vm _ _
    · rfl
  · unfold cpu_6502_fetch_instr
    dsimp only
    simp only [read_mem_snd_cpu, and_ffff]
    rw [if_neg (by omega)]
    dsimp only
    refine (key _ ?_ ?_ ?_).2
    · exact read_mem_snd_hooks _ _
    · exact read_mem_snd_vm _ _
    · rfl

/-- C32 (amended) on the NOP at `0x0400` followed by `0x34`: `ARG` becomes `0x34`. -/
theorem C32_fetch_reads_next_byte_witness :
    len_at (read_mem (code_system 0xea 0x34 0x12) (code_system 0xea 0x34 0x12).cpu.pc).1 = 1 ∧
    (cpu_6502_fetch_instr (code_system 0xea 0x34 0x12)).cpu.arg =
      (read_hooks (code_system 0xea 0x34 0x12).mmioproc_list.read_proc
          (((code_system 0xea 0x34 0x12).cpu.pc + 1) % 65536)
          (read_hooks (code_system 0xea 0x34 0x12).mmioproc_list.read_proc
            ((code_system 0xea 0x34 0x12).cpu.pc % 65536)
            (code_system 0xea 0x34 0x12).dev).2).1.getD
        ((code_system 0xea 0x34 0x12).vm.mem
          (((code_system 0xea 0x34 0x12).cpu.pc + 1) % 65536) % 256) ∧
    (cpu_6502_fetch_instr (code_system 0xea 0x34 0x12)).cpu.arg = 0x34 :=
  ⟨by decide, (C32_fetch_reads_next_byte (code_system 0xea 0x34 0x12) (by decide)).2.1,
   by decide⟩



/-- C34, what the code does: `readproc_reg` never writes the grown capacity back, so the
recorded capacity stays at 16.  After `mmio_init` and 16, 17 and 32 registrations the
registry records (count, capacity, slots of the buffer) = (16, 16, 16), (17, 16, 32) and
(32, 16, 32), the 32 hooks being held in registration order; the 33rd registration finds
count ≠ capacity, does not grow the 32-slot buffer and stores at index 32, past its end. -/
theorem C34_registry_growth :
    (reg_all (mmio_init : hook_list_t Nat) (List.range 16)).map
        (fun l => (l.n_reg, l.n_alloced, l.buf.length)) = some (16, 16, 16) ∧
    (reg_all (mmio_init : hook_list_t Nat) (List.range 17)).map
        (fun l => (l.n_reg, l.n_alloced, l.buf.length)) = some (17, 16, 32) ∧
    (reg_all (mmio_init : hook_list_t Nat) (List.range 32)).map
        (fun l => (l.n_reg, l.n_alloced, l.buf)) = some (32, 16, (List.range 32).map some) ∧
    reg_all (mmio_init : hook_list_t Nat) (List.range 33) = none ∧
    (reg_all (mmio_init : hook_list_t Nat) (List.range 32)).bind
        (fun l => writeproc_reg l 32) = none := by
  decide



/-- C38, what the code does: zero-page indexed addressing wraps in the loads, stores and ALU
operations but not in CMP $xx,X nor in the read-modify-write forms.  With an operand byte
`ARG` and index `X`: LDA $xx,X (`0xB5`) reads the composite at `(ARG + X) mod 256`;
CMP $xx,X (`0xD5`) compares with the byte at `ARG + X`, which lies in page one when the sum
passes `0xFF`; ASL/LSR/ROL/ROR/INC/DEC $xx,X take the byte at `ARG + X` as their target, so
INC $xx,X changes the byte at `ARG + X` and leaves the one at `(ARG + X) mod 256` alone. -/
theorem C38_zero_page_index {D : Type} (s : system_t D) (cyc : Int)
    (harg : s.cpu.arg < 256) (hx : s.cpu.x < 256)
    (hr : no_read_intercept s (s.cpu.arg + s.cpu.x))
    (hr' : no_read_intercept s ((s.cpu.arg + s.cpu.x) % 256)) :
    (s.cpu.ir = 0xb5 →
      (lda s cyc).sys.cpu.a = s.vm.mem ((s.cpu.arg + s.cpu.x) % 256) % 256) ∧
    (s.cpu.ir = 0xd5 →
      (cmp s cyc).sys.cpu
        = cmp_flags s.cpu s.cpu.a (s.vm.mem (s.cpu.arg + s.cpu.x) % 256)) ∧
    (asl_target (with_ir s 0x16) = some (rmw_target.ptr (s.cpu.arg + s.cpu.x), 6) ∧
      lsr_target (with_ir s 0x56) = some (rmw_target.ptr (s.cpu.arg + s.cpu.x), 6) ∧
      rol_target (with_ir s 0x36) = some (rmw_target.ptr (s.cpu.arg + s.cpu.x), 6) ∧
      ror_target (with_ir s 0x76) = some (rmw_target.ptr (s.cpu.arg + s.cpu.x), 6) ∧
      inc_target (with_ir s 0xf6) = some (rmw_target.ptr (s.cpu.arg + s.cpu.x), 6) ∧
      dec_target (with_ir s 0xd6) = some (rmw_target.ptr (s.cpu.arg + s.cpu.x), 6)) ∧
    (s.cpu.ir = 0xf6 →
      (inc s cyc).sys.vm.mem (s.cpu.arg + s.cpu.x)
        = (s.vm.mem (s.cpu.arg + s.cpu.x) % 256 + 1) % 256 ∧
      (256 ≤ s.cpu.arg + s.cpu.x →
        (inc s cyc).sys.vm.mem ((s.cpu.arg + s.cpu.x) % 256)
          = s.vm.mem ((s.cpu.arg + s.cpu.x) % 256))) := by
  have m1 : (s.cpu.arg + s.cpu.x) % 65536 = s.cpu.arg + s.cpu.x := Nat.mod_eq_of_lt (by omega)
  have m2 : ((s.cpu.arg + s.cpu.x) &&& 0xff) % 65536 = (s.cpu.arg + s.cpu.x) % 256 := by
    rw [and_ff]
    omega
  refine ⟨?_, ?_, ?_, ?_⟩
  · intro hir
    rw [lda_b5 s cyc hir, read_mem_value s _ (by rw [m2]; exact hr'), m2, Nat.mod_mod]
  · intro hir
    rw [cmp_d5 s cyc hir, read_mem_value s _ (by rw [m1]; exact hr), m1]
  · simp [asl_target, lsr_target, rol_target, ror_target, inc_target, dec_target, with_ir,
      get_pointer, OFF_MEM]
  · intro hir
    have ht : inc_target s = some (rmw_target.ptr (s.cpu.arg + s.cpu.x), 6) := by
      simp [inc_target, hir, get_pointer, OFF_MEM]
    obtain ⟨hb, _⟩ := inc_bytes s cyc _ _ ht
    unfold vm_t.mem
    rw [hb]
    unfold OFF_MEM
    simp only [Nat.zero_add]
    refine ⟨poke_same _ _ _, fun hover => poke_other _ _ _ _ (by omega)⟩

/-- C38 on operand `0xF0`, `X = 0x20`, with `0x11` at `0x0010` and `0x22` at `0x0110`:
LDA $F0,X loads `0x11`, CMP $F0,X with `A = 0x22` finds equality (it read `0x0110`), and
INC $F0,X turns the byte at `0x0110` into `0x23` and leaves `0x0010` at `0x11`. -/
theorem C38_zero_page_index_witness :
    (zp_example.cpu.arg < 256 ∧ zp_example.cpu.x < 256 ∧
      256 ≤ zp_example.cpu.arg + zp_example.cpu.x) ∧
    (lda (with_ir zp_example 0xb5) 0).sys.cpu.a = 0x11 ∧
    (cmp zp_example 0).sys.cpu = cmp_flags zp_example.cpu 0x22 0x22 ∧
    QUERY_FLAG (cmp zp_example 0).sys.cpu FLAG_ZERO = 1 ∧
    (inc (with_ir zp_example 0xf6) 0).sys.vm.mem 0x0110 = 0x23 ∧
    (inc (with_ir zp_example 0xf6) 0).sys.vm.mem 0x0010 = 0x11 :=
  ⟨⟨by decide, by decide, by decide⟩,
   by decide,
   (C38_zero_page_index zp_example 0 (by decide) (by decide)
     (no_hooks_no_read_intercept _ _ rfl) (no_hooks_no_read_intercept _ _ rfl)).2.1 rfl,
   by decide, by decide, by decide⟩

/-- C39, what the code does: the read-modify-write forms with `$xxxx,X` addressing take
`vm->mem + ARG + X` as their target with no reduction modulo 65536.  When `ARG + X` passes
`0xFFFF` the target is the byte `ARG + X - 65536` of the ROM bank, which follows the
composite in the structure: INC `$xxxx,X` increments that ROM byte and leaves the whole
composite as it was. -/
theorem C39_rmw_absolute_x {D : Type} (s : system_t D) (cyc : Int)
    (hover : 65536 ≤ s.cpu.arg + s.cpu.x) :
    (asl_target (with_ir s 0x1e)
        = some (rmw_target.ptr (OFF_ROM + (s.cpu.arg + s.cpu.x - 65536)), 7) ∧
      lsr_target (with_ir s 0x5e)
        = some (rmw_target.ptr (OFF_ROM + (s.cpu.arg + s.cpu.x - 65536)), 7) ∧
      rol_target (with_ir s 0x3e)
        = some (rmw_target.ptr (OFF_ROM + (s.cpu.arg + s.cpu.x - 65536)), 7) ∧
      ror_target (with_ir s 0x7e)
        = some (rmw_target.ptr (OFF_ROM + (s.cpu.arg + s.cpu.x - 65536)), 7) ∧
      inc_target (with_ir s 0xfe)
        = some (rmw_target.ptr (OFF_ROM + (s.cpu.arg + s.cpu.x - 65536)), 7) ∧
      dec_target (with_ir s 0xde)
        = some (rmw_target.ptr (OFF_ROM + (s.cpu.arg + s.cpu.x - 65536)), 7)) ∧
    (s.cpu.ir = 0xfe →
      (inc s cyc).sys.vm.rom (s.cpu.arg + s.cpu.x - 65536)
        = (s.vm.rom (s.cpu.arg + s.cpu.x - 65536) % 256 + 1) % 256 ∧
      ∀ a, a < 65536 → (inc s cyc).sys.vm.mem a = s.vm.mem a) := by
  have hoff : OFF_ROM + (s.cpu.arg + s.cpu.x - 65536) = s.cpu.arg + s.cpu.x := by
    unfold OFF_ROM
    omega
  refine ⟨?_, ?_⟩
  · rw [hoff]
    simp [asl_target, lsr_target, rol_target, ror_target, inc_target, dec_target, with_ir,
      get_pointer, OFF_MEM]
  · intro hir
    have ht : inc_target s
        = some (rmw_target.ptr (OFF_ROM + (s.cpu.arg + s.cpu.x - 65536)), 7) := by
      rw [hoff]
      simp [inc_target, hir, get_pointer, OFF_MEM]
    obtain ⟨hb, _⟩ := inc_bytes s cyc _ _ ht
    unfold vm_t.rom vm_t.mem
    rw [hb]
    refine ⟨poke_same _ _ _, fun a ha => poke_other _ _ _ _ ?_⟩
    unfold OFF_MEM OFF_ROM
    omega

/-- C39 on `INC $FFFF,X` with `X = 1`: the ROM bank byte `rom[0]` goes from `0x07` to `0x08`
and the composite byte at `0x0000` stays `0x55`. -/
theorem C39_rmw_absolute_x_witness :
    (rom_rmw_example.cpu.arg < 65536 ∧ rom_rmw_example.cpu.x < 256 ∧
      65536 ≤ rom_rmw_example.cpu.arg + rom_rmw_example.cpu.x ∧
      rom_rmw_example.cpu.ir = 0xfe ∧ rom_rmw_example.vm.rom 0 = 0x07) ∧
    (inc rom_rmw_example 0).sys.vm.rom 0 = 0x08 ∧
    (inc rom_rmw_example 0).sys.vm.mem 0 = 0x55 :=
  have h := (C39_rmw_absolute_x rom_rmw_example 0 (by decide)).2 rfl
  ⟨⟨by decide, by decide, by decide, rfl, by decide⟩, h.1, h.2 0 (by decide)⟩

/-- C40, what the code does: INC on memory (`0xE6`, `0xEE`) stores through `get_pointer`
into the composite only.  Starting from a bus in sync (composite equal to the RAM bank at
every address, bytes in range), after the instruction the composite byte at `ARG` is the
old byte plus one while the RAM bank still holds the old byte, so the two differ, and a
later `umount_rom` over that address changes what the CPU reads there. -/
theorem C40_inc_breaks_sync {D : Type} (s : system_t D) (cyc : Int)
    (hir : s.cpu.ir = 0xe6 ∨ s.cpu.ir = 0xee) (harg : s.cpu.arg < 65536) (hvm : s.vm.wf)
    (hsync : ∀ a, a < 65536 → s.vm.mem a = s.vm.ram a) :
    (inc s cyc).sys.vm.mem s.cpu.arg = (s.vm.mem s.cpu.arg + 1) % 256 ∧
    (inc s cyc).sys.vm.ram s.cpu.arg = s.vm.mem s.cpu.arg ∧
    (inc s cyc).sys.vm.mem s.cpu.arg ≠ (inc s cyc).sys.vm.ram s.cpu.arg ∧
    (umount_rom (inc s cyc).sys.vm s.cpu.arg 1).mem s.cpu.arg
      ≠ (inc s cyc).sys.vm.mem s.cpu.arg := by
  have ht : ∃ c, inc_target s = some (rmw_target.ptr (OFF_MEM + s.cpu.arg), c) := by
    rcases hir with h | h
    · exact ⟨5, by simp [inc_target, h, get_pointer]⟩
    · exact ⟨6, by simp [inc_target, h, get_pointer]⟩
  obtain ⟨c, ht⟩ := ht
  obtain ⟨hb, _⟩ := inc_bytes s cyc _ _ ht
  have hlt : s.vm.mem s.cpu.arg < 256 := hvm _
  have e1 : (inc s cyc).sys.vm.mem s.cpu.arg = (s.vm.mem s.cpu.arg + 1) % 256 := by
    unfold vm_t.mem
    rw [hb, poke_same]
    have : s.vm.bytes (OFF_MEM + s.cpu.arg) < 256 := hvm _
    omega
  have e2 : (inc s cyc).sys.vm.ram s.cpu.arg = s.vm.mem s.cpu.arg := by
    rw [hsync _ harg]
    unfold vm_t.ram
    rw [hb]
    exact poke_other _ _ _ _ (by unfold OFF_MEM OFF_RAM; omega)
  have hne : (inc s cyc).sys.vm.mem s.cpu.arg ≠ (inc s cyc).sys.vm.ram s.cpu.arg := by
    rw [e1, e2]
    omega
  refine ⟨e1, e2, hne, ?_⟩
  rw [umount_rom_mem _ _ _ _ (by omega) harg, if_pos ⟨le_refl _, by omega⟩]
  exact fun h => hne h.symm

/-- C40 on `INC $10` with the byte `5` at `0x0010` of the composite and of the RAM bank:
afterwards the composite holds `6`, the RAM bank `5`, and after `umount_rom(0x10, 1)` the
CPU reads `5` again. -/
theorem C40_inc_breaks_sync_witness :
    ((inc_example.cpu.ir = 0xe6 ∨ inc_example.cpu.ir = 0xee) ∧ inc_example.cpu.arg < 65536 ∧
      inc_example.vm.wf ∧ (∀ a, a < 65536 → inc_example.vm.mem a = inc_example.vm.ram a)) ∧
    (inc inc_example 0).sys.vm.mem 0x0010 = 6 ∧
    (inc inc_example 0).sys.vm.ram 0x0010 = 5 ∧
    (umount_rom (inc inc_example 0).sys.vm 0x0010 1).mem 0x0010 = 5 :=
  have hvm : inc_example.vm.wf := by
    intro i
    simp only [inc_example, blank_system]
    split_ifs <;> omega
  have hsync : ∀ a, a < 65536 → inc_example.vm.mem a = inc_example.vm.ram a := by
    intro a ha
    simp only [inc_example, blank_system, vm_t.mem, vm_t.ram, OFF_MEM, OFF_RAM]
    split_ifs <;> omega
  have h := C40_inc_breaks_sync inc_example 0 (Or.inl rfl) (by decide) hvm hsync
  ⟨⟨Or.inl rfl, by decide, hvm, hsync⟩, h.1, h.2.1, by decide⟩



/-- C33, what the code does: every compare opcode applies the compare rule to its register
`r` and its operand `m` (Carry = 1 iff `r ≥ m`, Zero = 1 iff `r = m`, Negative = bit 7 of
`(r - m) mod 256`; `A`, `X`, `Y`, `SP`, the flags Overflow, Decimal, Interrupt-disable and
Break and the memory unchanged), and the operand is: the operand byte for the immediate forms,
`composite[ARG]` for `$xx` and `$xxxx`, `composite[(ARG + index) mod 65536]` for `$xxxx,X`
and `$xxxx,Y`, the byte the zero-page pointer designates for `($xx,X)` and `($xx),Y`; but for
CMP `$xx,X` (`0xD5`) it is `composite[ARG + X]`, with no wrap to the zero page.  Registers and
bytes are in range, `ARG` is a byte for the 2-byte opcodes, and no read hook intercepts. -/
theorem C33_compare_operands {D : Type} (s : system_t D) (cyc : Int) (hwf : s.cpu.wf)
    (hvm : s.vm.wf) (hfetch : len_at s.cpu.ir = 2 → s.cpu.arg < 256)
    (hr : ∀ a, no_read_intercept s a) :
    (s.cpu.ir = 0xc9 →
      spec_compare s.cpu.a (s.cpu.arg % 256) s.cpu (cmp s cyc).sys.cpu ∧
      (cmp s cyc).sys.vm = s.vm) ∧
    (s.cpu.ir = 0xc5 →
      spec_compare s.cpu.a (s.vm.mem s.cpu.arg) s.cpu (cmp s cyc).sys.cpu ∧
      (cmp s cyc).sys.vm = s.vm) ∧
    (s.cpu.ir = 0xd5 →
      spec_compare s.cpu.a (s.vm.mem (s.cpu.arg + s.cpu.x)) s.cpu (cmp s cyc).sys.cpu ∧
      (cmp s cyc).sys.vm = s.vm) ∧
    (s.cpu.ir = 0xcd →
      spec_compare s.cpu.a (s.vm.mem s.cpu.arg) s.cpu (cmp s cyc).sys.cpu ∧
      (cmp s cyc).sys.vm = s.vm) ∧
    (s.cpu.ir = 0xdd →
      spec_compare s.cpu.a (s.vm.mem ((s.cpu.arg + s.cpu.x) % 65536)) s.cpu (cmp s cyc).sys.cpu ∧
      (cmp s cyc).sys.vm = s.vm) ∧
    (s.cpu.ir = 0xd9 →
      spec_compare s.cpu.a (s.vm.mem ((s.cpu.arg + s.cpu.y) % 65536)) s.cpu (cmp s cyc).sys.cpu ∧
      (cmp s cyc).sys.vm = s.vm) ∧
    (s.cpu.ir = 0xc1 →
      spec_compare s.cpu.a (s.vm.mem (zp_word s.vm (s.cpu.arg + s.cpu.x))) s.cpu (cmp s cyc).sys.cpu ∧
      (cmp s cyc).sys.vm = s.vm) ∧
    (s.cpu.ir = 0xd1 →
      spec_compare s.cpu.a (s.vm.mem ((zp_word s.vm s.cpu.arg + s.cpu.y) % 65536)) s.cpu (cmp s cyc).sys.cpu ∧
      (cmp s cyc).sys.vm = s.vm) ∧
    (s.cpu.ir = 0xe0 →
      spec_compare s.cpu.x (s.cpu.arg % 256) s.cpu (cpx s cyc).sys.cpu ∧
      (cpx s cyc).sys.vm = s.vm) ∧
    (s.cpu.ir = 0xe4 →
      spec_compare s.cpu.x (s.vm.mem s.cpu.arg) s.cpu (cpx s cyc).sys.cpu ∧
      (cpx s cyc).sys.vm = s.vm) ∧
    (s.cpu.ir = 0xec →
      spec_compare s.cpu.x (s.vm.mem s.cpu.arg) s.cpu (cpx s cyc).sys.cpu ∧
      (cpx s cyc).sys.vm = s.vm) ∧
    (s.cpu.ir = 0xc0 →
      spec_compare s.cpu.y (s.cpu.arg % 256) s.cpu (cpy s cyc).sys.cpu ∧
      (cpy s cyc).sys.vm = s.vm) ∧
    (s.cpu.ir = 0xc4 →
      spec_compare s.cpu.y (s.vm.mem s.cpu.arg) s.cpu (cpy s cyc).sys.cpu ∧
      (cpy s cyc).sys.vm = s.vm) ∧
    (s.cpu.ir = 0xcc →
      spec_compare s.cpu.y (s.vm.mem s.cpu.arg) s.cpu (cpy s cyc).sys.cpu ∧
      (cpy s cyc).sys.vm = s.vm) := by
  obtain ⟨_, _, _, _, harg, ha, hx, hy⟩ := hwf
  have rd : ∀ (t : system_t D) (a : Nat), t.mmioproc_list = s.mmioproc_list → t.vm = s.vm →
      (read_mem t a).1 = s.vm.mem (a % 65536) :=
    fun t a hh hv => read_mem_value_of t s a hh hv (hr _) hvm
  refine ⟨?_, ?_, ?_, ?_, ?_, ?_, ?_, ?_, ?_, ?_, ?_, ?_, ?_, ?_⟩
  · intro hir
    have h : cmp_operand s = some (s.cpu.arg8, s, 2) := by
      simp [cmp_operand, hir]
    obtain ⟨e1, e2⟩ := cmp_result s _ cyc _ _ h
    exact ⟨compare_close s.cpu _ s.cpu.a _ (s.cpu.arg % 256) ha (Nat.mod_lt _ (by decide))
      (rfl) e1, e2⟩
  · intro hir
    have h : cmp_operand s = some ((read_mem s s.cpu.arg).1, (read_mem s s.cpu.arg).2, 3) := by
      simp [cmp_operand, hir]
    obtain ⟨e1, e2⟩ := cmp_result s _ cyc _ _ h
    exact ⟨compare_close s.cpu _ s.cpu.a _ (s.vm.mem s.cpu.arg) ha (hvm _)
      (by rw [rd s s.cpu.arg rfl rfl, Nat.mod_eq_of_lt (by have := hfetch (by rw [hir]; decide); omega)]) e1, e2⟩
  · intro hir
    have h : cmp_operand s = some ((read_mem s (s.cpu.arg + s.cpu.x)).1, (read_mem s (s.cpu.arg + s.cpu.x)).2, 4) := by
      simp [cmp_operand, hir]
    obtain ⟨e1, e2⟩ := cmp_result s _ cyc _ _ h
    exact ⟨compare_close s.cpu _ s.cpu.a _ (s.vm.mem (s.cpu.arg + s.cpu.x)) ha (hvm _)
      (by rw [rd s _ rfl rfl, Nat.mod_eq_of_lt (by have := hfetch (by rw [hir]; decide); omega)]) e1, e2⟩
  · intro hir
    have h : cmp_operand s = some ((read_mem s s.cpu.arg).1, (read_mem s s.cpu.arg).2, 4) := by
      simp [cmp_operand, hir]
    obtain ⟨e1, e2⟩ := cmp_result s _ cyc _ _ h
    exact ⟨compare_close s.cpu _ s.cpu.a _ (s.vm.mem s.cpu.arg) ha (hvm _)
      (by rw [rd s s.cpu.arg rfl rfl, Nat.mod_eq_of_lt harg]) e1, e2⟩
  · intro hir
    have h : cmp_operand s = some ((read_mem s (s.cpu.arg + s.cpu.x)).1, (read_mem s (s.cpu.arg + s.cpu.x)).2, 4) := by
      simp [cmp_operand, hir]
    obtain ⟨e1, e2⟩ := cmp_result s _ cyc _ _ h
    exact ⟨compare_close s.cpu _ s.cpu.a _ (s.vm.mem ((s.cpu.arg + s.cpu.x) % 65536)) ha (hvm _)
      (rd s _ rfl rfl) e1, e2⟩
  · intro hir
    have h : cmp_operand s = some ((read_mem s (s.cpu.arg + s.cpu.y)).1, (read_mem s (s.cpu.arg + s.cpu.y)).2, 4) := by
      simp [cmp_operand, hir]
    obtain ⟨e1, e2⟩ := cmp_result s _ cyc _ _ h
    exact ⟨compare_close s.cpu _ s.cpu.a _ (s.vm.mem ((s.cpu.arg + s.cpu.y) % 65536)) ha (hvm _)
      (rd s _ rfl rfl) e1, e2⟩
  · intro hir
    have h : cmp_operand s = some ((read_mem (read_ptr_zp s (s.cpu.arg + s.cpu.x)).2 (read_ptr_zp s (s.cpu.arg + s.cpu.x)).1).1,
        (read_mem (read_ptr_zp s (s.cpu.arg + s.cpu.x)).2 (read_ptr_zp s (s.cpu.arg + s.cpu.x)).1).2, 6) := by
      simp [cmp_operand, hir]
    obtain ⟨e1, e2⟩ := cmp_result s _ cyc _ _ h
    exact ⟨compare_close s.cpu _ s.cpu.a _ (s.vm.mem (zp_word s.vm (s.cpu.arg + s.cpu.x))) ha (hvm _)
      (by rw [rd _ _ (by simp) (by simp), read_ptr_zp_val s _ hr hvm, Nat.mod_eq_of_lt (zp_word_lt s.vm _ hvm)]) e1, e2⟩
  · intro hir
    have h : cmp_operand s = some ((read_mem (read_ptr_zp s s.cpu.arg).2 ((read_ptr_zp s s.cpu.arg).1 + s.cpu.y)).1,
        (read_mem (read_ptr_zp s s.cpu.arg).2 ((read_ptr_zp s s.cpu.arg).1 + s.cpu.y)).2, 5) := by
      simp [cmp_operand, hir]
    obtain ⟨e1, e2⟩ := cmp_result s _ cyc _ _ h
    exact ⟨compare_close s.cpu _ s.cpu.a _ (s.vm.mem ((zp_word s.vm s.cpu.arg + s.cpu.y) % 65536)) ha (hvm _)
      (by rw [rd _ _ (by simp) (by simp), read_ptr_zp_val s _ hr hvm]) e1, e2⟩
  · intro hir
    have h : cpx_operand s = some (s.cpu.arg8, s, 2) := by
      simp [cpx_operand, hir]
    obtain ⟨e1, e2⟩ := cpx_result s _ cyc _ _ h
    exact ⟨compare_close s.cpu _ s.cpu.x _ (s.cpu.arg % 256) hx (Nat.mod_lt _ (by decide))
      (rfl) e1, e2⟩
  · intro hir
    have h : cpx_operand s = some ((read_mem s s.cpu.arg8).1, (read_mem s s.cpu.arg8).2, 3) := by
      simp [cpx_operand, hir]
    obtain ⟨e1, e2⟩ := cpx_result s _ cyc _ _ h
    exact ⟨compare_close s.cpu _ s.cpu.x _ (s.vm.mem s.cpu.arg) hx (hvm _)
      (by
      have h256 := hfetch (by rw [hir]; decide)
      rw [rd s _ rfl rfl]
      unfold cpu_6502_t.arg8
      rw [Nat.mod_eq_of_lt h256, Nat.mod_eq_of_lt (by omega)]) e1, e2⟩
  · intro hir
    have h : cpx_operand s = some ((read_mem s s.cpu.arg).1, (read_mem s s.cpu.arg).2, 4) := by
      simp [cpx_operand, hir]
    obtain ⟨e1, e2⟩ := cpx_result s _ cyc _ _ h
    exact ⟨compare_close s.cpu _ s.cpu.x _ (s.vm.mem s.cpu.arg) hx (hvm _)
      (by rw [rd s s.cpu.arg rfl rfl, Nat.mod_eq_of_lt harg]) e1, e2⟩
  · intro hir
    have h : cpy_operand s = some (s.cpu.arg8, s, 2) := by
      simp [cpy_operand, hir]
    obtain ⟨e1, e2⟩ := cpy_result s _ cyc _ _ h
    exact ⟨compare_close s.cpu _ s.cpu.y _ (s.cpu.arg % 256) hy (Nat.mod_lt _ (by decide))
      (rfl) e1, e2⟩
  · intro hir
    have h : cpy_operand s = some ((read_mem s s.cpu.arg).1, (read_mem s s.cpu.arg).2, 3) := by
      simp [cpy_operand, hir]
    obtain ⟨e1, e2⟩ := cpy_result s _ cyc _ _ h
    exact ⟨compare_close s.cpu _ s.cpu.y _ (s.vm.mem s.cpu.arg) hy (hvm _)
      (by rw [rd s s.cpu.arg rfl rfl, Nat.mod_eq_of_lt (by have := hfetch (by rw [hir]; decide); omega)]) e1, e2⟩
  · intro hir
    have h : cpy_operand s = some ((read_mem s s.cpu.arg).1, (read_mem s s.cpu.arg).2, 4) := by
      simp [cpy_operand, hir]
    obtain ⟨e1, e2⟩ := cpy_result s _ cyc _ _ h
    exact ⟨compare_close s.cpu _ s.cpu.y _ (s.vm.mem s.cpu.arg) hy (hvm _)
      (by rw [rd s s.cpu.arg rfl rfl, Nat.mod_eq_of_lt harg]) e1, e2⟩

/-- C33 at the failing input: CMP $F0,X with `X = 0x20` and `A = 0x22`, the zero-page byte
at `0x0010` being `0x11` and the byte at `0x0110` being `0x22`.  The handler compares with
the byte at `0x0110` and sets Zero and Carry, which is not the compare of `A` with the
zero-page operand `0x11`.  On `CMP $10` with `A = 0x30` and `0x40` at `0x0010` the result is
the compare with `0x40`: Carry and Zero clear, Negative set. -/
theorem C33_compare_operands_witness :
    (zp_example.cpu.wf ∧ zp_example.vm.wf ∧
      (len_at zp_example.cpu.ir = 2 → zp_example.cpu.arg < 256) ∧
      (∀ a, no_read_intercept zp_example a) ∧ zp_example.cpu.ir = 0xd5 ∧
      zp_example.vm.mem ((zp_example.cpu.arg + zp_example.cpu.x) % 256) = 0x11 ∧
      zp_example.vm.mem (zp_example.cpu.arg + zp_example.cpu.x) = 0x22) ∧
    spec_compare 0x22 0x22 zp_example.cpu (cmp zp_example 0).sys.cpu ∧
    QUERY_FLAG (cmp zp_example 0).sys.cpu FLAG_ZERO = 1 ∧
    ¬ spec_compare 0x22 0x11 zp_example.cpu (cmp zp_example 0).sys.cpu ∧
    (spec_compare 0x30 0x40 cmp_example.cpu (cmp cmp_example 0).sys.cpu ∧
      QUERY_FLAG (cmp cmp_example 0).sys.cpu FLAG_CARRY = 0 ∧
      QUERY_FLAG (cmp cmp_example 0).sys.cpu FLAG_ZERO = 0 ∧
      QUERY_FLAG (cmp cmp_example 0).sys.cpu FLAG_NEGATIVE = 1) :=
  have hwf : zp_example.cpu.wf := by simp [cpu_6502_t.wf, zp_example, blank_system]
  have hvm : zp_example.vm.wf := by
    intro i
    simp only [zp_example, blank_system]
    split_ifs <;> omega
  have hr : ∀ a, no_read_intercept zp_example a :=
    fun a => no_hooks_no_read_intercept _ a rfl
  have hwf' : cmp_example.cpu.wf := by simp [cpu_6502_t.wf, cmp_example, blank_system]
  have hvm' : cmp_example.vm.wf := by
    intro i
    simp only [cmp_example, blank_system]
    split_ifs <;> omega
  ⟨⟨hwf, hvm, fun _ => by decide, hr, rfl, by decide, by decide⟩,
   ((C33_compare_operands zp_example 0 hwf hvm (fun _ => by decide) hr).2.2.1 rfl).1,
   by decide,
   fun h => absurd (h.2.1.mp (by decide)) (by decide),
   ((C33_compare_operands cmp_example 0 hwf' hvm' (fun _ => by decide)
      (fun a => no_hooks_no_read_intercept _ a rfl)).2.1 rfl).1,
   by decide, by decide, by decide⟩

end Emu6502
